import Mathlib

/-!
# Ray tracer (basic program `main_Q1.cpp`, sampled program `main_Q3.cpp`)

Shallow embedding of the two programs.  The C++ `float` is modelled by an
arbitrary linearly ordered field `F` with exact arithmetic; the two library
routines that are not field operations (`std::sqrt`, `std::pow`) are taken as
parameters (`FloatOps`).  Float constants are the rationals they denote in
decimal (`0.001f` is `1/1000`, `1e-5f` is `1/100000`, `2.2f` is `11/5`).

A quotient by zero has the value `0` in a field, where the floats give an infinity
or NaN, and `std::pow` is taken as a function with a value everywhere, where the
floats give an infinity at the pole of a zero base with a negative exponent.  The
forms of the code named `...Checked` make these cases explicit: they return `none`
when such a quotient or pole is computed on the way, and otherwise `some` of what
the plain forms return.
-/

namespace RayTracer

/-- Three floats, as `glm::vec3` (`r`, `g`, `b` are `x`, `y`, `z`). -/
@[ext]
structure Vec3 (F : Type) where
  x : F
  y : F
  z : F

/-- Library routines on floats used by the programs: `std::sqrt` and `std::pow`. -/
structure FloatOps (F : Type) where
  sqrt : F → F
  pow : F → F → F

namespace Vec3

variable {F : Type} [LinearOrderedField F]

/-- Constructor `vec3(a)`: the same value in every component. -/
def splat (a : F) : Vec3 F := ⟨a, a, a⟩

instance : Add (Vec3 F) := ⟨fun a b => ⟨a.x + b.x, a.y + b.y, a.z + b.z⟩⟩

instance : Sub (Vec3 F) := ⟨fun a b => ⟨a.x - b.x, a.y - b.y, a.z - b.z⟩⟩

instance : Neg (Vec3 F) := ⟨fun a => ⟨-a.x, -a.y, -a.z⟩⟩

/-- Component-wise product `vec3 * vec3`. -/
instance : Mul (Vec3 F) := ⟨fun a b => ⟨a.x * b.x, a.y * b.y, a.z * b.z⟩⟩

/-- Product `float * vec3`. -/
instance : SMul F (Vec3 F) := ⟨fun k a => ⟨k * a.x, k * a.y, k * a.z⟩⟩

/-- Quotient `vec3 / float` (as in `finalColor /= float(SamplesPerPixel)`). -/
def divScalar (a : Vec3 F) (k : F) : Vec3 F := ⟨a.x / k, a.y / k, a.z / k⟩

/-- Function `glm::dot`. -/
def dot (a b : Vec3 F) : F := a.x * b.x + a.y * b.y + a.z * b.z

/-- Function `glm::normalize`: `v * inversesqrt(dot(v, v))`.  For a vector of length zero
the quotient `1 / sqrt(0)` is `0` in a field, where the floats give `0 * inf`, a NaN in
every component; `Vec3.normalizeChecked` makes that case explicit. -/
def normalize (ops : FloatOps F) (v : Vec3 F) : Vec3 F :=
  (1 / ops.sqrt (dot v v)) • v

/-- Function `glm::reflect`: `I - N * dot(N, I) * 2`. -/
def reflect (I N : Vec3 F) : Vec3 F := I - (dot N I * 2) • N

/-- Function `glm::clamp(v, lo, hi)` with scalar bounds: `min(max(x, lo), hi)` per component. -/
def clamp (v : Vec3 F) (lo hi : F) : Vec3 F :=
  ⟨min (max v.x lo) hi, min (max v.y lo) hi, min (max v.z lo) hi⟩

/-- Function `glm::pow(vec3, vec3)`: `std::pow` per component. -/
def pow (ops : FloatOps F) (v e : Vec3 F) : Vec3 F :=
  ⟨ops.pow v.x e.x, ops.pow v.y e.y, ops.pow v.z e.z⟩

end Vec3

open Vec3

variable {F : Type} [LinearOrderedField F]

/-- Constant `FLT_MAX` of `<cfloat>`: `(2 - 2^-23) * 2^127`. -/
def FLT_MAX : F := 340282346638528859811704183484516925440

/-- Ray with origin and direction. -/
structure Ray (F : Type) where
  origin : Vec3 F
  direction : Vec3 F

/-- Constructor `Ray(o, d)`: the direction is normalised. -/
def Ray.new (ops : FloatOps F) (o d : Vec3 F) : Ray F := ⟨o, normalize ops d⟩

/-- Method `std::vector::clear`: the vector is emptied. -/
def clear (_v : List F) : List F := []

/-- Point `origin + t * direction` of a ray. -/
def Ray.pointAt (ray : Ray F) (t : F) : Vec3 F := ray.origin + t • ray.direction

/-- The routine `sqrt` is exact on non-negative arguments: its value is the non-negative
square root. -/
structure FloatOps.SqrtExact (ops : FloatOps F) : Prop where
  sqrt_nonneg : ∀ x : F, 0 ≤ x → 0 ≤ ops.sqrt x
  sqrt_mul_self : ∀ x : F, 0 ≤ x → ops.sqrt x * ops.sqrt x = x

/-- Local `t_m` of `Sphere::intersect`, for a sphere of the given centre. -/
def sphere_t_m (center : Vec3 F) (ray : Ray F) : F :=
  -dot (ray.origin - center) ray.direction

/-- Local `delta2` of `Sphere::intersect`, for a sphere of the given centre and radius. -/
def sphere_delta2 (center : Vec3 F) (radius : F) (ray : Ray F) : F :=
  dot (ray.origin - center) ray.direction * dot (ray.origin - center) ray.direction
    - dot (ray.origin - center) (ray.origin - center) + radius * radius

/-- Local `t0` of `Sphere::intersect`: the near root `t_m - sqrt(delta2)`. -/
def sphere_t0 (ops : FloatOps F) (center : Vec3 F) (radius : F) (ray : Ray F) : F :=
  sphere_t_m center ray - ops.sqrt (sphere_delta2 center radius ray)

/-- Local `t1` of `Sphere::intersect`: the far root `t_m + sqrt(delta2)`. -/
def sphere_t1 (ops : FloatOps F) (center : Vec3 F) (radius : F) (ray : Ray F) : F :=
  sphere_t_m center ray + ops.sqrt (sphere_delta2 center radius ray)

/-- State of the random engine after `n` draws of `randf`. -/
def advance {G K : Type} (randf : G → K × G) (n : Nat) (gen : G) : G :=
  (fun s => (randf s).2)^[n] gen

/-- The three channels of a colour, in the order in which `render` pushes them. -/
def channels {K : Type} (c : Vec3 K) : List K := [c.x, c.y, c.z]

/-- The point `pt` lies on the sphere: `|pt - center|^2 = radius^2`. -/
def onSphere (center : Vec3 F) (radius : F) (pt : Vec3 F) : Prop :=
  dot (pt - center) (pt - center) = radius * radius

/-- The result `res` of an intersection query of `ray` with the sphere is the nearest valid
hit: a reported `t` is beyond `0.001`, on the sphere, and no smaller parameter beyond `0.001`
is on the sphere; when nothing is reported no parameter beyond `0.001` is on the sphere. -/
def NearestValidHit (center : Vec3 F) (radius : F) (ray : Ray F)
    (res : Option (F × Vec3 F)) : Prop :=
  (∀ t n, res = some (t, n) →
    1 / 1000 < t ∧ onSphere center radius (ray.pointAt t) ∧
      ∀ t', 1 / 1000 < t' → t' < t → ¬ onSphere center radius (ray.pointAt t')) ∧
  (res = none → ∀ t', 1 / 1000 < t' → ¬ onSphere center radius (ray.pointAt t'))

/-- Loop state of `Scene::trace`: `closestT`, `hit` (the object pointer, kept as the
position of the object in `objects` together with the object) and `normal`. -/
structure Closest (S F : Type) where
  closestT : F
  hit : Option (Nat × S)
  normal : Vec3 F

/-- The `for (auto obj : objects)` loop of `Scene::trace` (the same text in both programs),
run over the objects that are left, `i` being the position of the first of them; `isect obj`
is the call `obj->intersect(ray, t, n)`. -/
def traceLoop {S : Type} (isect : S → Option (F × Vec3 F)) :
    List S → Nat → Closest S F → Closest S F
  | [], _, st => st
  | obj :: rest, i, st =>
    match isect obj with
    | some (t, n) =>
      if t < st.closestT then traceLoop isect rest (i + 1) ⟨t, some (i, obj), n⟩
      else traceLoop isect rest (i + 1) st
    | none => traceLoop isect rest (i + 1) st

/-- The object `obj` at position `i` of `objs` reports the hit `(t, n)`, `t` is the least
parameter reported by any object of `objs`, and `i` is the first position reporting it. -/
def FirstNearestHit {S : Type} (isect : S → Option (F × Vec3 F)) (objs : List S)
    (i : Nat) (obj : S) (t : F) (n : Vec3 F) : Prop :=
  objs[i]? = some obj ∧ isect obj = some (t, n) ∧
    ∀ (j : Nat) (obj' : S) (t' : F) (n' : Vec3 F),
      objs[j]? = some obj' → isect obj' = some (t', n') → t ≤ t' ∧ (t' = t → i ≤ j)

/-! ## Basic program (`main_Q1.cpp`) -/

namespace Q1

/-- Class `Sphere` with the members inherited from `Surface`. -/
structure Sphere (F : Type) where
  ka : Vec3 F
  kd : Vec3 F
  ks : Vec3 F
  specPower : F
  center : Vec3 F
  radius : F

/-- Class `Plane` with the members inherited from `Surface`. -/
structure Plane (F : Type) where
  ka : Vec3 F
  kd : Vec3 F
  ks : Vec3 F
  specPower : F
  normalVec : Vec3 F
  d : F

/-- Constructor `Plane(n, dVal, a, kd, s, sp)`: the normal is normalised. -/
def Plane.new (ops : FloatOps F) (n : Vec3 F) (dVal : F) (a kd s : Vec3 F) (sp : F) : Plane F :=
  ⟨a, kd, s, sp, normalize ops n, dVal⟩

/-- Method `Sphere::intersect`; `some (t, normal)` stands for `true` with the two outputs. -/
def Sphere.intersect (ops : FloatOps F) (s : Sphere F) (ray : Ray F) : Option (F × Vec3 F) :=
  let p := ray.origin - s.center
  let d := ray.direction
  let t_m := -dot p d
  let p_dot := dot p d
  let p_len2 := dot p p
  let delta2 := p_dot * p_dot - p_len2 + s.radius * s.radius
  if delta2 < 0 then none
  else
    let delta := ops.sqrt delta2
    let t0 := t_m - delta
    let t1 := t_m + delta
    let hitAt (t : F) : Option (F × Vec3 F) :=
      let hitPoint := ray.origin + t • ray.direction
      some (t, normalize ops (hitPoint - s.center))
    if t0 > 1 / 1000 then hitAt t0
    else if t1 > 1 / 1000 then hitAt t1
    else none

/-- Method `Sphere::getPoint`. -/
def Sphere.getPoint (_s : Sphere F) (t : F) (ray : Ray F) : Vec3 F :=
  ray.origin + t • ray.direction

/-- Method `Plane::intersect`. -/
def Plane.intersect (pl : Plane F) (ray : Ray F) : Option (F × Vec3 F) :=
  let denom := dot pl.normalVec ray.direction
  if |denom| < 1 / 100000 then none
  else
    let t := -(dot pl.normalVec ray.origin + pl.d) / denom
    if t < 1 / 1000 then none
    else some (t, pl.normalVec)

/-- Method `Plane::getPoint`. -/
def Plane.getPoint (_pl : Plane F) (t : F) (ray : Ray F) : Vec3 F :=
  ray.origin + t • ray.direction

/-- Objects behind a `Surface*`: a sphere or a plane. -/
inductive Surface (F : Type) where
  | sphere (s : Sphere F)
  | plane (p : Plane F)

/-- Member `Surface::ka`. -/
def Surface.ka : Surface F → Vec3 F
  | .sphere s => s.ka
  | .plane p => p.ka

/-- Member `Surface::kd`. -/
def Surface.kd : Surface F → Vec3 F
  | .sphere s => s.kd
  | .plane p => p.kd

/-- Member `Surface::ks`. -/
def Surface.ks : Surface F → Vec3 F
  | .sphere s => s.ks
  | .plane p => p.ks

/-- Member `Surface::specPower`. -/
def Surface.specPower : Surface F → F
  | .sphere s => s.specPower
  | .plane p => p.specPower

/-- Virtual call `obj->intersect(ray, t, n)`. -/
def Surface.intersect (ops : FloatOps F) : Surface F → Ray F → Option (F × Vec3 F)
  | .sphere s, ray => s.intersect ops ray
  | .plane p, ray => p.intersect ray

/-- Virtual call `obj->getPoint(t, ray)`. -/
def Surface.getPoint : Surface F → F → Ray F → Vec3 F
  | .sphere s, t, ray => s.getPoint t ray
  | .plane p, t, ray => p.getPoint t ray

/-- Class `Camera` with its member initialisers. -/
structure Camera (F : Type) [LinearOrderedField F] where
  e : Vec3 F := ⟨0, 0, 0⟩
  u : Vec3 F := ⟨1, 0, 0⟩
  v : Vec3 F := ⟨0, 1, 0⟩
  w : Vec3 F := ⟨0, 0, 1⟩
  l : F := -(1 / 10)
  r : F := 1 / 10
  b : F := -(1 / 10)
  t : F := 1 / 10
  d : F := 1 / 10
  nx : Int := 512
  ny : Int := 512

/-- Image-plane abscissa computed in `Camera::getRay(int ix, int iy)`. -/
def Camera.u_s (c : Camera F) (ix : Int) : F :=
  c.l + (c.r - c.l) * ((ix : F) + 1 / 2) / (c.nx : F)

/-- Image-plane ordinate computed in `Camera::getRay(int ix, int iy)`. -/
def Camera.v_s (c : Camera F) (iy : Int) : F :=
  c.b + (c.t - c.b) * ((iy : F) + 1 / 2) / (c.ny : F)

/-- Method `Camera::getRay(int ix, int iy)`. -/
def Camera.getRay (ops : FloatOps F) (c : Camera F) (ix iy : Int) : Ray F :=
  let dir := normalize ops (c.u_s ix • c.u + c.v_s iy • c.v - c.d • c.w)
  Ray.new ops c.e dir

/-- Class `Scene` with its member initialisers. -/
structure Scene (F : Type) [LinearOrderedField F] where
  objects : List (Surface F) := []
  lightPos : Vec3 F := ⟨-4, 4, -3⟩
  lightColor : Vec3 F := Vec3.splat 1

/-- Method `Scene::addObject`. -/
def Scene.addObject (sc : Scene F) (obj : Surface F) : Scene F :=
  { sc with objects := sc.objects ++ [obj] }

/-- State of `Scene::trace` after its loop; `normal` is not initialised by the source and
is read only when `hit` is set. -/
def Scene.nearest (ops : FloatOps F) (sc : Scene F) (ray : Ray F) : Closest (Surface F) F :=
  traceLoop (fun obj => obj.intersect ops ray) sc.objects 0 ⟨FLT_MAX, none, ⟨0, 0, 0⟩⟩

/-- The `if (hit)` block of `Scene::trace`, before the final `clamp`. -/
def Scene.shade (ops : FloatOps F) (sc : Scene F) (ray : Ray F) (hit : Surface F)
    (closestT : F) (normal : Vec3 F) : Vec3 F :=
  let point := hit.getPoint closestT ray
  let L := normalize ops (sc.lightPos - point)
  let V := normalize ops (-ray.direction)
  let R := reflect (-L) normal
  let diff := max (dot normal L) 0
  let spec := ops.pow (max (dot R V) 0) hit.specPower
  let ambient := hit.ka * sc.lightColor
  let diffuse := diff • hit.kd * sc.lightColor
  let specular := spec • hit.ks * sc.lightColor
  ambient + diffuse + specular

/-- Method `Scene::trace`. -/
def Scene.trace (ops : FloatOps F) (sc : Scene F) (ray : Ray F) : Vec3 F :=
  let st := sc.nearest ops ray
  match st.hit with
  | some (_, hit) => clamp (sc.shade ops ray hit st.closestT st.normal) 0 1
  | none => Vec3.splat 0

/-- Global variables `Width` and `Height` with their initial values. -/
structure Globals where
  Width : Int := 512
  Height : Int := 512

/-- Scene built at the start of `render`. -/
def renderScene (ops : FloatOps F) : Scene F :=
  ((((({} : Scene F).addObject
    (.plane (Plane.new ops ⟨0, 1, 0⟩ 2 (Vec3.splat (1 / 5)) ⟨1, 1, 1⟩ ⟨0, 0, 0⟩ 0))).addObject
    (.sphere ⟨⟨1 / 5, 0, 0⟩, ⟨1, 0, 0⟩, ⟨0, 0, 0⟩, 0, ⟨-4, 0, -7⟩, 1⟩)).addObject
    (.sphere ⟨⟨0, 1 / 5, 0⟩, ⟨0, 1 / 2, 0⟩, Vec3.splat (1 / 2), 32, ⟨0, 0, -7⟩, 2⟩)).addObject
    (.sphere ⟨⟨0, 0, 1 / 5⟩, ⟨0, 0, 1⟩, ⟨0, 0, 0⟩, 0, ⟨4, 0, -7⟩, 1⟩))

/-- Body of the inner loop of `render`: trace pixel `(i, j)` and push its three channels. -/
def renderPixel (ops : FloatOps F) (camera : Camera F) (scene : Scene F) (j : Int)
    (out : List F) (i : Int) : List F :=
  let ray := camera.getRay ops i j
  let color := scene.trace ops ray
  ((out ++ [color.x]) ++ [color.y]) ++ [color.z]

/-- Body of the outer loop of `render`: the row `j`. -/
def renderRow (ops : FloatOps F) (g : Globals) (camera : Camera F) (scene : Scene F)
    (out : List F) (j : Int) : List F :=
  ((List.range g.Width.toNat).map Int.ofNat).foldl (renderPixel ops camera scene j) out

/-- Function `render`: the new contents of `OutputImage`, given the old ones. -/
def render (ops : FloatOps F) (g : Globals) (OutputImage : List F) : List F :=
  let camera : Camera F := {}
  let scene := renderScene ops
  let cleared : List F := clear OutputImage
  ((List.range g.Height.toNat).map Int.ofNat).foldl (renderRow ops g camera scene) cleared

end Q1

/-! ## Sampled program (`main_Q3.cpp`) -/

namespace Q3

/-- Global variables with their initial values. -/
structure Globals (F : Type) [LinearOrderedField F] where
  Width : Int := 512
  Height : Int := 512
  LightPos : Vec3 F := ⟨-4, 4, -3⟩
  LightColor : Vec3 F := ⟨1, 1, 1⟩
  Gamma : F := 11 / 5
  SamplesPerPixel : Int := 64

/-- Class `Sphere` with the members inherited from `Surface`. -/
structure Sphere (F : Type) where
  ka : Vec3 F
  kd : Vec3 F
  ks : Vec3 F
  specPower : F
  center : Vec3 F
  radius : F

/-- Class `Plane` with the members inherited from `Surface`. -/
structure Plane (F : Type) where
  ka : Vec3 F
  kd : Vec3 F
  ks : Vec3 F
  specPower : F
  normalDir : Vec3 F
  d : F

/-- Constructor `Plane(n, dVal, a, kd, ks, sp)`: the normal is normalised. -/
def Plane.new (ops : FloatOps F) (n : Vec3 F) (dVal : F) (a kd ks : Vec3 F) (sp : F) : Plane F :=
  ⟨a, kd, ks, sp, normalize ops n, dVal⟩

/-- Method `Sphere::intersect`; `some (t, normal)` stands for `true` with the two outputs. -/
def Sphere.intersect (ops : FloatOps F) (s : Sphere F) (ray : Ray F) : Option (F × Vec3 F) :=
  let p := ray.origin - s.center
  let d := ray.direction
  let t_m := -dot p d
  let delta2 := t_m * t_m - dot p p + s.radius * s.radius
  if delta2 < 0 then none
  else
    let delta := ops.sqrt delta2
    let t0 := t_m - delta
    let t1 := t_m + delta
    let hitAt (t : F) : Option (F × Vec3 F) :=
      let hitPoint := ray.origin + t • d
      some (t, normalize ops (hitPoint - s.center))
    if t0 > 1 / 1000 then hitAt t0
    else if t1 > 1 / 1000 then hitAt t1
    else none

/-- Method `Sphere::getPoint`. -/
def Sphere.getPoint (_s : Sphere F) (t : F) (ray : Ray F) : Vec3 F :=
  ray.origin + t • ray.direction

/-- Method `Plane::intersect`. -/
def Plane.intersect (pl : Plane F) (ray : Ray F) : Option (F × Vec3 F) :=
  let denom := dot pl.normalDir ray.direction
  if |denom| < 1 / 100000 then none
  else
    let t := -(dot pl.normalDir ray.origin + pl.d) / denom
    if t > 1 / 1000 then some (t, pl.normalDir)
    else none

/-- Method `Plane::getPoint`. -/
def Plane.getPoint (_pl : Plane F) (t : F) (ray : Ray F) : Vec3 F :=
  ray.origin + t • ray.direction

/-- Objects behind a `Surface*`: a sphere or a plane. -/
inductive Surface (F : Type) where
  | sphere (s : Sphere F)
  | plane (p : Plane F)

/-- Member `Surface::ka`. -/
def Surface.ka : Surface F → Vec3 F
  | .sphere s => s.ka
  | .plane p => p.ka

/-- Member `Surface::kd`. -/
def Surface.kd : Surface F → Vec3 F
  | .sphere s => s.kd
  | .plane p => p.kd

/-- Member `Surface::ks`. -/
def Surface.ks : Surface F → Vec3 F
  | .sphere s => s.ks
  | .plane p => p.ks

/-- Member `Surface::specPower`. -/
def Surface.specPower : Surface F → F
  | .sphere s => s.specPower
  | .plane p => p.specPower

/-- Virtual call `obj->intersect(ray, t, n)`. -/
def Surface.intersect (ops : FloatOps F) : Surface F → Ray F → Option (F × Vec3 F)
  | .sphere s, ray => s.intersect ops ray
  | .plane p, ray => p.intersect ray

/-- Virtual call `obj->getPoint(t, ray)`. -/
def Surface.getPoint : Surface F → F → Ray F → Vec3 F
  | .sphere s, t, ray => s.getPoint t ray
  | .plane p, t, ray => p.getPoint t ray

/-- Class `Camera` with its member initialisers. -/
structure Camera (F : Type) [LinearOrderedField F] where
  e : Vec3 F := ⟨0, 0, 0⟩
  u : Vec3 F := ⟨1, 0, 0⟩
  v : Vec3 F := ⟨0, 1, 0⟩
  w : Vec3 F := ⟨0, 0, 1⟩
  l : F := -(1 / 10)
  r : F := 1 / 10
  b : F := -(1 / 10)
  t : F := 1 / 10
  d : F := 1 / 10
  nx : Int := 512
  ny : Int := 512

/-- Image-plane abscissa computed in `Camera::getRay(float fx, float fy)`. -/
def Camera.u_s (c : Camera F) (fx : F) : F :=
  c.l + (c.r - c.l) * fx / (c.nx : F)

/-- Image-plane ordinate computed in `Camera::getRay(float fx, float fy)`. -/
def Camera.v_s (c : Camera F) (fy : F) : F :=
  c.b + (c.t - c.b) * fy / (c.ny : F)

/-- Method `Camera::getRay(float fx, float fy)`. -/
def Camera.getRay (ops : FloatOps F) (c : Camera F) (fx fy : F) : Ray F :=
  let dir := normalize ops (c.u_s fx • c.u + c.v_s fy • c.v - c.d • c.w)
  Ray.new ops c.e dir

/-- Class `Scene`. -/
structure Scene (F : Type) where
  objects : List (Surface F) := []

/-- Method `Scene::addObject`. -/
def Scene.addObject (sc : Scene F) (obj : Surface F) : Scene F :=
  { sc with objects := sc.objects ++ [obj] }

/-- Method `Scene::isInShadow`: the loop returns `true` at the first object that the
shadow ray intersects. -/
def Scene.isInShadow (ops : FloatOps F) (sc : Scene F) (point lightDir : Vec3 F) : Bool :=
  let shadowRay := Ray.new ops (point + (1 / 1000 : F) • lightDir) lightDir
  sc.objects.any (fun obj => (obj.intersect ops shadowRay).isSome)

/-- State of `Scene::trace` after its loop; `normal` is not initialised by the source and
is read only when `hit` is set. -/
def Scene.nearest (ops : FloatOps F) (sc : Scene F) (ray : Ray F) : Closest (Surface F) F :=
  traceLoop (fun obj => obj.intersect ops ray) sc.objects 0 ⟨FLT_MAX, none, ⟨0, 0, 0⟩⟩

/-- The `if (hit)` block of `Scene::trace`, up to the sum `ka + diff * kd + spec * ks`. -/
def Scene.shade (ops : FloatOps F) (g : Globals F) (sc : Scene F) (ray : Ray F)
    (hit : Surface F) (closestT : F) (normal : Vec3 F) : Vec3 F :=
  let point := ray.origin + closestT • ray.direction
  let L := normalize ops (g.LightPos - point)
  let V := normalize ops (-ray.direction)
  let R := reflect (-L) normal
  let ds : F × F :=
    if !sc.isInShadow ops point L then
      (max (dot normal L) 0, ops.pow (max (dot R V) 0) hit.specPower)
    else (0, 0)
  let diff := ds.1
  let spec := ds.2
  hit.ka + diff • hit.kd + spec • hit.ks

/-- Method `Scene::trace`. -/
def Scene.trace (ops : FloatOps F) (g : Globals F) (sc : Scene F) (ray : Ray F) : Vec3 F :=
  let st := sc.nearest ops ray
  match st.hit with
  | some (_, hit) =>
    let color := sc.shade ops g ray hit st.closestT st.normal
    let color := clamp color 0 1
    Vec3.pow ops color (Vec3.splat (1 / g.Gamma))
  | none => Vec3.splat 0

/-- Scene built at the start of `render`. -/
def renderScene (ops : FloatOps F) : Scene F :=
  ((((({} : Scene F).addObject
    (.plane (Plane.new ops ⟨0, 1, 0⟩ 2 (Vec3.splat (1 / 5)) (Vec3.splat 1) (Vec3.splat 0) 0))).addObject
    (.sphere ⟨⟨1 / 5, 0, 0⟩, ⟨1, 0, 0⟩, Vec3.splat 0, 0, ⟨-4, 0, -7⟩, 1⟩)).addObject
    (.sphere ⟨⟨0, 1 / 5, 0⟩, ⟨0, 1 / 2, 0⟩, Vec3.splat (1 / 2), 32, ⟨0, 0, -7⟩, 2⟩)).addObject
    (.sphere ⟨⟨0, 0, 1 / 5⟩, ⟨0, 0, 1⟩, Vec3.splat 0, 0, ⟨4, 0, -7⟩, 1⟩))

/-- Body of the sample loop of `render`: two draws of `randf`, one traced ray, added to
`finalColor`.  The state is `finalColor` and the random engine. -/
def renderSample {G : Type} (ops : FloatOps F) (randf : G → F × G) (g : Globals F)
    (camera : Camera F) (scene : Scene F) (i j : Int) (st : Vec3 F × G) (_s : Nat) :
    Vec3 F × G :=
  let r1 := randf st.2
  let dx := r1.1
  let r2 := randf r1.2
  let dy := r2.1
  let ray := camera.getRay ops ((i : F) + dx) ((j : F) + dy)
  (st.1 + scene.trace ops g ray, r2.2)

/-- The sample loop of `render` for the pixel `(i, j)` followed by the division by the
number of samples: `finalColor` and the random engine after the loop. -/
def pixelColor {G : Type} (ops : FloatOps F) (randf : G → F × G) (g : Globals F)
    (camera : Camera F) (scene : Scene F) (i j : Int) (gen : G) : Vec3 F × G :=
  let acc := (List.range g.SamplesPerPixel.toNat).foldl
    (renderSample ops randf g camera scene i j) (Vec3.splat 0, gen)
  (Vec3.divScalar acc.1 (g.SamplesPerPixel : F), acc.2)

/-- Body of the inner loop of `render`: the pixel `(i, j)`.  The state is `OutputImage`
and the random engine. -/
def renderPixel {G : Type} (ops : FloatOps F) (randf : G → F × G) (g : Globals F)
    (camera : Camera F) (scene : Scene F) (j : Int) (st : List F × G) (i : Int) :
    List F × G :=
  let fc := pixelColor ops randf g camera scene i j st.2
  let finalColor := fc.1
  (((st.1 ++ [finalColor.x]) ++ [finalColor.y]) ++ [finalColor.z], fc.2)

/-- Body of the outer loop of `render`: the row `j`. -/
def renderRow {G : Type} (ops : FloatOps F) (randf : G → F × G) (g : Globals F)
    (camera : Camera F) (scene : Scene F) (st : List F × G) (j : Int) : List F × G :=
  ((List.range g.Width.toNat).map Int.ofNat).foldl (renderPixel ops randf g camera scene j) st

/-- Function `render`: the new contents of `OutputImage` and the new state of the random
engine `generator`, given the old ones; `randf` draws one number and advances the engine. -/
def render {G : Type} (ops : FloatOps F) (randf : G → F × G) (g : Globals F)
    (st : List F × G) : List F × G :=
  let camera : Camera F := {}
  let scene := renderScene ops
  let cleared : List F := clear st.1
  ((List.range g.Height.toNat).map Int.ofNat).foldl (renderRow ops randf g camera scene)
    (cleared, st.2)

end Q3

/-! ## Example data -/

/-- Ray from the origin straight down (along `-y`). -/
def downRay : Ray F := ⟨⟨0, 0, 0⟩, ⟨0, -1, 0⟩⟩

/-- Ray from the origin straight up (along `+y`). -/
def upRay : Ray F := ⟨⟨0, 0, 0⟩, ⟨0, 1, 0⟩⟩

/-- A grey plane of normal `(0, 1, 0)` and offset `dVal` of the basic program. -/
def Q1.greyPlane (dVal : F) : Q1.Surface F :=
  .plane ⟨⟨1 / 5, 1 / 5, 1 / 5⟩, ⟨1, 1, 1⟩, ⟨0, 0, 0⟩, 0, ⟨0, 1, 0⟩, dVal⟩

/-- A grey plane of normal `(0, 1, 0)` and offset `dVal` of the sampled program. -/
def Q3.greyPlane (dVal : F) : Q3.Surface F :=
  .plane ⟨⟨1 / 5, 1 / 5, 1 / 5⟩, ⟨1, 1, 1⟩, ⟨0, 0, 0⟩, 0, ⟨0, 1, 0⟩, dVal⟩

/-- Basic-program scene with the single plane `y = -2` (the floor of `render`). -/
def Q1.floorScene : Q1.Scene F := { objects := [Q1.greyPlane 2] }

/-- Sampled-program scene with the single plane `y = -2` (the floor of `render`). -/
def Q3.floorScene : Q3.Scene F := { objects := [Q3.greyPlane 2] }

/-- Basic-program scene with the single plane `y = FLT_MAX`. -/
def Q1.farScene : Q1.Scene F := { objects := [Q1.greyPlane (-FLT_MAX)] }

/-- Sampled-program scene with the single plane `y = FLT_MAX`. -/
def Q3.farScene : Q3.Scene F := { objects := [Q3.greyPlane (-FLT_MAX)] }

/-- Sampled-program scene with the floor `y = -2` and a ceiling `y = 10`. -/
def Q3.roomScene : Q3.Scene F := { objects := [Q3.greyPlane 2, Q3.greyPlane (-10)] }

/-- Global variables of the sampled program with the light moved to `(0, 4, 0)`. -/
def Q3.lightAbove : Q3.Globals F := { LightPos := ⟨0, 4, 0⟩ }

/-- A sphere of the basic program with the material of the green sphere of `render`. -/
def Q1.greenSphere (c : Vec3 F) (r : F) : Q1.Sphere F :=
  ⟨⟨0, 1 / 5, 0⟩, ⟨0, 1 / 2, 0⟩, ⟨1 / 2, 1 / 2, 1 / 2⟩, 32, c, r⟩

/-- A sphere of the sampled program with the material of the green sphere of `render`. -/
def Q3.greenSphere (c : Vec3 F) (r : F) : Q3.Sphere F :=
  ⟨⟨0, 1 / 5, 0⟩, ⟨0, 1 / 2, 0⟩, ⟨1 / 2, 1 / 2, 1 / 2⟩, 32, c, r⟩

/-- Unit sphere at the origin, basic program. -/
def Q1.unitSphere : Q1.Sphere F := Q1.greenSphere ⟨0, 0, 0⟩ 1

/-- Unit sphere at the origin, sampled program. -/
def Q3.unitSphere : Q3.Sphere F := Q3.greenSphere ⟨0, 0, 0⟩ 1

/-- Ray from the origin straight ahead (along `-z`). -/
def forwardRay : Ray F := ⟨⟨0, 0, 0⟩, ⟨0, 0, -1⟩⟩

/-- Global variables of the basic program at the resolution `2 × 1`. -/
def Q1.twoByOne : Q1.Globals := { Width := 2, Height := 1 }

/-- Global variables of the sampled program at the resolution `2 × 1`. -/
def Q3.twoByOne : Q3.Globals F := { Width := 2, Height := 1 }

/-! ## Further forms of the source code -/

/-- Method `Plane::intersect` of the basic program with its division made explicit:
`div a b` is the quotient, or `none` when the division cannot be carried out.  The result
is `none` when a division was attempted and failed, and otherwise `some` of what
`Plane::intersect` reports. -/
def Q1.Plane.intersectChecked (div : F → F → Option F) (pl : Q1.Plane F) (ray : Ray F) :
    Option (Option (F × Vec3 F)) :=
  let denom := dot pl.normalVec ray.direction
  if |denom| < 1 / 100000 then some none
  else
    match div (-(dot pl.normalVec ray.origin + pl.d)) denom with
    | none => none
    | some t => if t < 1 / 1000 then some none else some (some (t, pl.normalVec))

/-- Method `Plane::intersect` of the sampled program with its division made explicit, as
`Q1.Plane.intersectChecked`. -/
def Q3.Plane.intersectChecked (div : F → F → Option F) (pl : Q3.Plane F) (ray : Ray F) :
    Option (Option (F × Vec3 F)) :=
  let denom := dot pl.normalDir ray.direction
  if |denom| < 1 / 100000 then some none
  else
    match div (-(dot pl.normalDir ray.origin + pl.d)) denom with
    | none => none
    | some t => if t > 1 / 1000 then some (some (t, pl.normalDir)) else some none

/-- The diffuse factor `std::max(dot(normal, L), 0.0f)` of `Scene::trace`, as a function of
the value of `dot(normal, L)`. -/
def diffuseFactor (x : F) : F := max x 0

/-- Lines `ambient`, `diffuse`, `specular` and their sum in `Scene::trace` of the basic
program, as a function of the factors `diff` and `spec`. -/
def Q1.Scene.phong (sc : Q1.Scene F) (hit : Q1.Surface F) (diff spec : F) : Vec3 F :=
  let ambient := hit.ka * sc.lightColor
  let diffuse := diff • hit.kd * sc.lightColor
  let specular := spec • hit.ks * sc.lightColor
  ambient + diffuse + specular

/-- The routine `pow` returns `1` for the exponent `0`, whatever the base. -/
structure FloatOps.PowZero (ops : FloatOps F) : Prop where
  pow_zero : ∀ x : F, ops.pow x 0 = 1

/-- Every component of `a` is at most the same component of `b`. -/
def Vec3.AllLe (a b : Vec3 F) : Prop := a.x ≤ b.x ∧ a.y ≤ b.y ∧ a.z ≤ b.z

/-- Ray from `(0, -5, 0)`, below the floor, straight up. -/
def risingRay : Ray F := ⟨⟨0, -5, 0⟩, ⟨0, 1, 0⟩⟩

/-- Ray from `(0, -2, 0)`, a point of the floor, along `+x`. -/
def sideRay : Ray F := ⟨⟨0, -2, 0⟩, ⟨1, 0, 0⟩⟩

/-- The floor plane `y = -2` of the basic program, as a `Plane`. -/
def Q1.floorPlane : Q1.Plane F :=
  ⟨⟨1 / 5, 1 / 5, 1 / 5⟩, ⟨1, 1, 1⟩, ⟨0, 0, 0⟩, 0, ⟨0, 1, 0⟩, 2⟩

/-- The floor plane `y = -2` of the sampled program, as a `Plane`. -/
def Q3.floorPlane : Q3.Plane F :=
  ⟨⟨1 / 5, 1 / 5, 1 / 5⟩, ⟨1, 1, 1⟩, ⟨0, 0, 0⟩, 0, ⟨0, 1, 0⟩, 2⟩

/-- Global variables of the basic program at the resolution `513 × 1`. -/
def Q1.wide : Q1.Globals := { Width := 513, Height := 1 }

/-- The red sphere that `render` of the basic program adds. -/
def Q1.redSphere : Q1.Sphere F :=
  ⟨⟨1 / 5, 0, 0⟩, ⟨1, 0, 0⟩, ⟨0, 0, 0⟩, 0, ⟨-4, 0, -7⟩, 1⟩

/-- The red sphere that `render` of the sampled program adds. -/
def Q3.redSphere : Q3.Sphere F :=
  ⟨⟨1 / 5, 0, 0⟩, ⟨1, 0, 0⟩, Vec3.splat 0, 0, ⟨-4, 0, -7⟩, 1⟩

/-- The plane that `render` of the basic program adds. -/
def Q1.renderPlane (ops : FloatOps F) : Q1.Plane F :=
  Q1.Plane.new ops ⟨0, 1, 0⟩ 2 (Vec3.splat (1 / 5)) ⟨1, 1, 1⟩ ⟨0, 0, 0⟩ 0

/-- The plane that `render` of the sampled program adds. -/
def Q3.renderPlane (ops : FloatOps F) : Q3.Plane F :=
  Q3.Plane.new ops ⟨0, 1, 0⟩ 2 (Vec3.splat (1 / 5)) (Vec3.splat 1) (Vec3.splat 0) 0

/-- Scene of the basic program with the first two objects of `render`: the plane and the
red sphere; the light is the one of `Scene`. -/
def Q1.planeAndRedSphere (ops : FloatOps F) : Q1.Scene F :=
  (({} : Q1.Scene F).addObject (.plane (Q1.renderPlane ops))).addObject (.sphere Q1.redSphere)

/-- Scene of the sampled program with the first two objects of `render`: the plane and the
red sphere. -/
def Q3.planeAndRedSphere (ops : FloatOps F) : Q3.Scene F :=
  (({} : Q3.Scene F).addObject (.plane (Q3.renderPlane ops))).addObject (.sphere Q3.redSphere)

/-- Ray from the eye `(0, 0, 0)` toward the centre `(-4, 0, -7)` of the red sphere. -/
def eyeToRedSphere (ops : FloatOps F) : Ray F :=
  Ray.new ops ⟨0, 0, 0⟩ ((⟨-4, 0, -7⟩ : Vec3 F) - ⟨0, 0, 0⟩)

/-- The object of the sampled program with the same members as an object of the basic
program. -/
def Q1.Surface.toQ3 : Q1.Surface F → Q3.Surface F
  | .sphere s => .sphere ⟨s.ka, s.kd, s.ks, s.specPower, s.center, s.radius⟩
  | .plane p => .plane ⟨p.ka, p.kd, p.ks, p.specPower, p.normalVec, p.d⟩

/-- The scene of the sampled program with the same objects, in the same order, as a scene
of the basic program. -/
def Q1.Scene.toQ3 (sc : Q1.Scene F) : Q3.Scene F := { objects := sc.objects.map Q1.Surface.toQ3 }

/-- The loop state of the sampled program that corresponds to one of the basic program. -/
def Q1.closestToQ3 (st : Closest (Q1.Surface F) F) : Closest (Q3.Surface F) F :=
  ⟨st.closestT, st.hit.map (fun h => (h.1, h.2.toQ3)), st.normal⟩

/-- Basic-program scene with the single plane `y = 0` and the light at `(0, 4, 0)`. -/
def Q1.groundScene : Q1.Scene F := { objects := [Q1.greyPlane 0], lightPos := ⟨0, 4, 0⟩ }

/-- Sampled-program scene with the single plane `y = 0`. -/
def Q3.groundScene : Q3.Scene F := { objects := [Q3.greyPlane 0] }

/-- Ray from `(0, 0.001, 0)` straight down: it meets the plane `y = 0` at `t = 0.001`. -/
def skimRay : Ray F := ⟨⟨0, 1 / 1000, 0⟩, ⟨0, -1, 0⟩⟩

/-- Number of draws of one call of `render` of the sampled program with the initial values
of the global variables: `2 * 64 * 512 * 512`. -/
def frameDraws : Nat := 33554432

/-- A random engine that counts its draws.  Every draw of the first frame yields `0`; from
the second frame on, the draws of odd rank (the `dy` of every sample) yield `0.999`. -/
def countingEngine (n : Nat) : F × Nat :=
  (if frameDraws ≤ n ∧ n % 2 = 1 then 999 / 1000 else 0, n + 1)

/-- Basic-program scene of five surfaces for the ray going straight down from the origin:
the plane `y = 4` (missed), the plane `y = -3` (met at `t = 3`), the sphere of centre
`(0, -3, 0)` and radius `1` (met at `t = 2`), the plane `y = -2` (met at `t = 2` too) and the
plane `y = -5` (met at `t = 5`). -/
def Q1.stackScene : Q1.Scene F :=
  { objects := [Q1.greyPlane (-4), Q1.greyPlane 3, .sphere (Q1.greenSphere ⟨0, -3, 0⟩ 1),
      Q1.greyPlane 2, Q1.greyPlane 5] }

/-- Sampled-program scene with the same five surfaces as `Q1.stackScene`. -/
def Q3.stackScene : Q3.Scene F :=
  { objects := [Q3.greyPlane (-4), Q3.greyPlane 3, .sphere (Q3.greenSphere ⟨0, -3, 0⟩ 1),
      Q3.greyPlane 2, Q3.greyPlane 5] }

/-- A random engine with four states that the draws step through in a cycle; a draw yields
`1/4` in the states `0` and `2` and `3/4` in the states `1` and `3`. -/
def cyclicEngine (n : Nat) : F × Nat :=
  (if n % 2 = 0 then 1 / 4 else 3 / 4, (n + 1) % 4)

/-- A glossy plane `y = -2` of the basic program: `ka = 0.1`, `kd = 0.2`, `ks = 0.5` in
every channel and `specPower = 0`. -/
def Q1.glossyPlane : Q1.Surface F :=
  .plane ⟨⟨1 / 10, 1 / 10, 1 / 10⟩, ⟨1 / 5, 1 / 5, 1 / 5⟩, ⟨1 / 2, 1 / 2, 1 / 2⟩, 0,
    ⟨0, 1, 0⟩, 2⟩

/-- Basic-program scene with the glossy plane alone and the light at `lp`. -/
def Q1.glossyScene (lp : Vec3 F) : Q1.Scene F :=
  { objects := [Q1.glossyPlane], lightPos := lp }

/-! ## The programs with the quotients by zero and the poles of `pow` made explicit -/

/-- Quotient `a / b` of two floats with the case of a zero divisor made explicit: `none`
when `b` is zero, where the floats give an infinity, or NaN for `0 / 0`. -/
def divChecked (a b : F) : Option F := if b = 0 then none else some (a / b)

/-- Function `glm::normalize`, that is `v * inversesqrt(dot(v, v))` with `inversesqrt(x)`
the quotient `1 / sqrt(x)`: `none` when that quotient has a zero divisor.  For the zero
vector the floats compute `0 * inf`, which is NaN in every component. -/
def Vec3.normalizeChecked (ops : FloatOps F) (v : Vec3 F) : Option (Vec3 F) :=
  match divChecked 1 (ops.sqrt (dot v v)) with
  | none => none
  | some k => some (k • v)

/-- Constructor `Ray(o, d)` with the quotient of `normalize` made explicit. -/
def Ray.newChecked (ops : FloatOps F) (o d : Vec3 F) : Option (Ray F) :=
  match normalizeChecked ops d with
  | none => none
  | some direction => some ⟨o, direction⟩

/-- Constructor `Plane(n, dVal, a, kd, s, sp)` of the basic program with the quotient of
`normalize` made explicit. -/
def Q1.Plane.newChecked (ops : FloatOps F) (n : Vec3 F) (dVal : F) (a kd s : Vec3 F) (sp : F) :
    Option (Q1.Plane F) :=
  match normalizeChecked ops n with
  | none => none
  | some normalVec => some ⟨a, kd, s, sp, normalVec, dVal⟩

/-- Method `Sphere::intersect` of the basic program with the quotient of `normalize` made
explicit: `none` when it divides by zero, and otherwise `some` of what the method
reports. -/
def Q1.Sphere.intersectChecked (ops : FloatOps F) (s : Q1.Sphere F) (ray : Ray F) :
    Option (Option (F × Vec3 F)) :=
  let p := ray.origin - s.center
  let d := ray.direction
  let t_m := -dot p d
  let p_dot := dot p d
  let p_len2 := dot p p
  let delta2 := p_dot * p_dot - p_len2 + s.radius * s.radius
  if delta2 < 0 then some none
  else
    let delta := ops.sqrt delta2
    let t0 := t_m - delta
    let t1 := t_m + delta
    let hitAt (t : F) : Option (Option (F × Vec3 F)) :=
      let hitPoint := ray.origin + t • ray.direction
      match normalizeChecked ops (hitPoint - s.center) with
      | none => none
      | some normal => some (some (t, normal))
    if t0 > 1 / 1000 then hitAt t0
    else if t1 > 1 / 1000 then hitAt t1
    else some none

/-- Virtual call `obj->intersect(ray, t, n)` of the basic program with the quotients made
explicit. -/
def Q1.Surface.intersectChecked (ops : FloatOps F) :
    Q1.Surface F → Ray F → Option (Option (F × Vec3 F))
  | .sphere s, ray => s.intersectChecked ops ray
  | .plane p, ray => p.intersectChecked divChecked ray

/-- Method `Camera::getRay(int ix, int iy)` of the basic program with the quotients made
explicit: the divisions by `nx` and `ny` and the two calls of `normalize`. -/
def Q1.Camera.getRayChecked (ops : FloatOps F) (c : Q1.Camera F) (ix iy : Int) :
    Option (Ray F) :=
  match divChecked ((c.r - c.l) * ((ix : F) + 1 / 2)) (c.nx : F) with
  | none => none
  | some qu =>
    match divChecked ((c.t - c.b) * ((iy : F) + 1 / 2)) (c.ny : F) with
    | none => none
    | some qv =>
      let u_s := c.l + qu
      let v_s := c.b + qv
      match normalizeChecked ops (u_s • c.u + v_s • c.v - c.d • c.w) with
      | none => none
      | some dir => Ray.newChecked ops c.e dir

/-- Constructor `Plane(n, dVal, a, kd, ks, sp)` of the sampled program with the quotient of
`normalize` made explicit. -/
def Q3.Plane.newChecked (ops : FloatOps F) (n : Vec3 F) (dVal : F) (a kd ks : Vec3 F) (sp : F) :
    Option (Q3.Plane F) :=
  match normalizeChecked ops n with
  | none => none
  | some normalDir => some ⟨a, kd, ks, sp, normalDir, dVal⟩

/-- Method `Sphere::intersect` of the sampled program with the quotient of `normalize` made
explicit: `none` when it divides by zero, and otherwise `some` of what the method
reports. -/
def Q3.Sphere.intersectChecked (ops : FloatOps F) (s : Q3.Sphere F) (ray : Ray F) :
    Option (Option (F × Vec3 F)) :=
  let p := ray.origin - s.center
  let d := ray.direction
  let t_m := -dot p d
  let delta2 := t_m * t_m - dot p p + s.radius * s.radius
  if delta2 < 0 then some none
  else
    let delta := ops.sqrt delta2
    let t0 := t_m - delta
    let t1 := t_m + delta
    let hitAt (t : F) : Option (Option (F × Vec3 F)) :=
      let hitPoint := ray.origin + t • d
      match normalizeChecked ops (hitPoint - s.center) with
      | none => none
      | some normal => some (some (t, normal))
    if t0 > 1 / 1000 then hitAt t0
    else if t1 > 1 / 1000 then hitAt t1
    else some none

/-- Virtual call `obj->intersect(ray, t, n)` of the sampled program with the quotients made
explicit. -/
def Q3.Surface.intersectChecked (ops : FloatOps F) :
    Q3.Surface F → Ray F → Option (Option (F × Vec3 F))
  | .sphere s, ray => s.intersectChecked ops ray
  | .plane p, ray => p.intersectChecked divChecked ray

/-- Method `Camera::getRay(float fx, float fy)` of the sampled program with the quotients
made explicit: the divisions by `nx` and `ny` and the two calls of `normalize`. -/
def Q3.Camera.getRayChecked (ops : FloatOps F) (c : Q3.Camera F) (fx fy : F) :
    Option (Ray F) :=
  match divChecked ((c.r - c.l) * fx) (c.nx : F) with
  | none => none
  | some qu =>
    match divChecked ((c.t - c.b) * fy) (c.ny : F) with
    | none => none
    | some qv =>
      let u_s := c.l + qu
      let v_s := c.b + qv
      match normalizeChecked ops (u_s • c.u + v_s • c.v - c.d • c.w) with
      | none => none
      | some dir => Ray.newChecked ops c.e dir

section VectorLemmas

variable {F : Type} [LinearOrderedField F]

@[simp] theorem Vec3.add_x (a b : Vec3 F) : (a + b).x = a.x + b.x := rfl
@[simp] theorem Vec3.add_y (a b : Vec3 F) : (a + b).y = a.y + b.y := rfl
@[simp] theorem Vec3.add_z (a b : Vec3 F) : (a + b).z = a.z + b.z := rfl
@[simp] theorem Vec3.sub_x (a b : Vec3 F) : (a - b).x = a.x - b.x := rfl
@[simp] theorem Vec3.sub_y (a b : Vec3 F) : (a - b).y = a.y - b.y := rfl
@[simp] theorem Vec3.sub_z (a b : Vec3 F) : (a - b).z = a.z - b.z := rfl
@[simp] theorem Vec3.neg_x (a : Vec3 F) : (-a).x = -a.x := rfl
@[simp] theorem Vec3.neg_y (a : Vec3 F) : (-a).y = -a.y := rfl
@[simp] theorem Vec3.neg_z (a : Vec3 F) : (-a).z = -a.z := rfl
@[simp] theorem Vec3.mul_x (a b : Vec3 F) : (a * b).x = a.x * b.x := rfl
@[simp] theorem Vec3.mul_y (a b : Vec3 F) : (a * b).y = a.y * b.y := rfl
@[simp] theorem Vec3.mul_z (a b : Vec3 F) : (a * b).z = a.z * b.z := rfl
@[simp] theorem Vec3.smul_x (k : F) (a : Vec3 F) : (k • a).x = k * a.x := rfl
@[simp] theorem Vec3.smul_y (k : F) (a : Vec3 F) : (k • a).y = k * a.y := rfl
@[simp] theorem Vec3.smul_z (k : F) (a : Vec3 F) : (k • a).z = k * a.z := rfl

/-- With a unit direction, the squared distance from the centre to the point of parameter
`t` is the quadratic `(t - t_m)^2 - delta2 + radius^2`. -/
theorem onSphere_pointAt_iff (center : Vec3 F) (radius : F) (ray : Ray F) (t : F)
    (hdir : dot ray.direction ray.direction = 1) :
    onSphere center radius (ray.pointAt t) ↔
      (t - -dot (ray.origin - center) ray.direction)
          * (t - -dot (ray.origin - center) ray.direction)
        = dot (ray.origin - center) ray.direction * dot (ray.origin - center) ray.direction
          - dot (ray.origin - center) (ray.origin - center) + radius * radius := by
  unfold onSphere Ray.pointAt
  simp only [Vec3.dot, Vec3.add_x, Vec3.add_y, Vec3.add_z, Vec3.sub_x, Vec3.sub_y, Vec3.sub_z,
    Vec3.smul_x, Vec3.smul_y, Vec3.smul_z] at hdir ⊢
  constructor
  · intro h
    linear_combination h - (t * t) * hdir
  · intro h
    linear_combination h + (t * t) * hdir

/-- Roots of `(t - t_m)^2 = delta2` when `delta` is a square root of `delta2`. -/
theorem quadratic_roots (t t_m delta delta2 : F) (hd : delta * delta = delta2) :
    (t - t_m) * (t - t_m) = delta2 ↔ t = t_m - delta ∨ t = t_m + delta := by
  constructor
  · intro h
    have h0 : (t - (t_m - delta)) * (t - (t_m + delta)) = 0 := by
      linear_combination h - hd
    rcases mul_eq_zero.mp h0 with h1 | h1
    · left; linear_combination h1
    · right; linear_combination h1
  · rintro (h | h)
    · rw [h, ← hd]; ring
    · rw [h, ← hd]; ring

/-- The root selection of `Sphere::intersect` meets the nearest-valid-hit specification;
`sel` is the selected parameter, if any. -/
theorem nearest_of_selection (ops : FloatOps F) (hops : ops.SqrtExact) (center : Vec3 F)
    (radius : F) (ray : Ray F) (hdir : dot ray.direction ray.direction = 1)
    (res : Option (F × Vec3 F))
    (hres : res =
      if dot (ray.origin - center) ray.direction * dot (ray.origin - center) ray.direction
          - dot (ray.origin - center) (ray.origin - center) + radius * radius < 0 then none
      else if -dot (ray.origin - center) ray.direction
          - ops.sqrt (dot (ray.origin - center) ray.direction
              * dot (ray.origin - center) ray.direction
            - dot (ray.origin - center) (ray.origin - center) + radius * radius) > 1 / 1000 then
        some (-dot (ray.origin - center) ray.direction
          - ops.sqrt (dot (ray.origin - center) ray.direction
              * dot (ray.origin - center) ray.direction
            - dot (ray.origin - center) (ray.origin - center) + radius * radius),
          normalize ops (ray.origin + (-dot (ray.origin - center) ray.direction
          - ops.sqrt (dot (ray.origin - center) ray.direction
              * dot (ray.origin - center) ray.direction
            - dot (ray.origin - center) (ray.origin - center) + radius * radius))
              • ray.direction - center))
      else if -dot (ray.origin - center) ray.direction
          + ops.sqrt (dot (ray.origin - center) ray.direction
              * dot (ray.origin - center) ray.direction
            - dot (ray.origin - center) (ray.origin - center) + radius * radius) > 1 / 1000 then
        some (-dot (ray.origin - center) ray.direction
          + ops.sqrt (dot (ray.origin - center) ray.direction
              * dot (ray.origin - center) ray.direction
            - dot (ray.origin - center) (ray.origin - center) + radius * radius),
          normalize ops (ray.origin + (-dot (ray.origin - center) ray.direction
          + ops.sqrt (dot (ray.origin - center) ray.direction
              * dot (ray.origin - center) ray.direction
            - dot (ray.origin - center) (ray.origin - center) + radius * radius))
              • ray.direction - center))
      else none) :
    NearestValidHit center radius ray res := by
  have key := fun t => onSphere_pointAt_iff center radius ray t hdir
  generalize hD : dot (ray.origin - center) ray.direction * dot (ray.origin - center) ray.direction
          - dot (ray.origin - center) (ray.origin - center) + radius * radius = D at hres key
  generalize hT : -dot (ray.origin - center) ray.direction = t_m at hres key
  by_cases hneg : D < 0
  · rw [if_pos hneg] at hres
    subst hres
    refine ⟨fun t n h => by simp at h, fun _ t' _ hon => ?_⟩
    have h1 := (key t').mp hon
    have h2 := mul_self_nonneg (t' - t_m)
    linarith
  · rw [if_neg hneg] at hres
    have hD0 : 0 ≤ D := not_lt.mp hneg
    have hs0 := hops.sqrt_nonneg D hD0
    have hss := hops.sqrt_mul_self D hD0
    have roots := fun t => (key t).trans (quadratic_roots t t_m (ops.sqrt D) D hss)
    by_cases h0 : t_m - ops.sqrt D > 1 / 1000
    · rw [if_pos h0] at hres
      subst hres
      refine ⟨fun t n h => ?_, fun h => by simp at h⟩
      simp only [Option.some.injEq, Prod.mk.injEq] at h
      obtain ⟨ht, -⟩ := h
      subst ht
      refine ⟨h0, (roots _).mpr (Or.inl rfl), fun t' _ hlt hon => ?_⟩
      rcases (roots t').mp hon with h | h <;> linarith
    · rw [if_neg h0] at hres
      by_cases h1 : t_m + ops.sqrt D > 1 / 1000
      · rw [if_pos h1] at hres
        subst hres
        refine ⟨fun t n h => ?_, fun h => by simp at h⟩
        simp only [Option.some.injEq, Prod.mk.injEq] at h
        obtain ⟨ht, -⟩ := h
        subst ht
        refine ⟨h1, (roots _).mpr (Or.inr rfl), fun t' ht' hlt hon => ?_⟩
        rcases (roots t').mp hon with h | h <;> linarith
      · rw [if_neg h1] at hres
        subst hres
        refine ⟨fun t n h => by simp at h, fun _ t' ht' hon => ?_⟩
        rcases (roots t').mp hon with h | h <;> linarith

/-- Scalar factors come out of `dot` on the right. -/
theorem Vec3.dot_smul_right (k : F) (a b : Vec3 F) : dot a (k • b) = k * dot a b := by
  simp only [Vec3.dot, Vec3.smul_x, Vec3.smul_y, Vec3.smul_z]
  ring

/-- Scalar factors come out of `dot` on both sides. -/
theorem Vec3.dot_smul_smul (k : F) (a : Vec3 F) : dot (k • a) (k • a) = k * k * dot a a := by
  simp only [Vec3.dot, Vec3.smul_x, Vec3.smul_y, Vec3.smul_z]
  ring

/-- Swapping the difference on one side of `dot` changes the sign. -/
theorem Vec3.dot_sub_swap (a b : Vec3 F) : dot (a - b) (b - a) = -dot (b - a) (b - a) := by
  simp only [Vec3.dot, Vec3.sub_x, Vec3.sub_y, Vec3.sub_z]
  ring

/-- Swapping the difference on both sides of `dot` changes nothing. -/
theorem Vec3.dot_sub_swap_both (a b : Vec3 F) : dot (a - b) (a - b) = dot (b - a) (b - a) := by
  simp only [Vec3.dot, Vec3.sub_x, Vec3.sub_y, Vec3.sub_z]
  ring

/-- A vector has a non-negative squared length. -/
theorem Vec3.dot_self_nonneg (a : Vec3 F) : 0 ≤ dot a a := by
  simp only [Vec3.dot]
  nlinarith [mul_self_nonneg a.x, mul_self_nonneg a.y, mul_self_nonneg a.z]

/-- An exact `sqrt` maps `r * r` to `r` for non-negative `r`. -/
theorem FloatOps.SqrtExact.sqrt_mul_self_eq {ops : FloatOps F} (hops : ops.SqrtExact)
    (r : F) (hr : 0 ≤ r) : ops.sqrt (r * r) = r := by
  have h0 := hops.sqrt_nonneg (r * r) (mul_self_nonneg r)
  have h1 := hops.sqrt_mul_self (r * r) (mul_self_nonneg r)
  have h2 : (ops.sqrt (r * r) - r) * (ops.sqrt (r * r) + r) = 0 := by
    linear_combination h1
  rcases mul_eq_zero.mp h2 with h | h
  · linear_combination h
  · have hr0 : r = 0 := by linarith
    have hs0 : ops.sqrt (r * r) = 0 := by linarith
    rw [hs0, hr0]

/-- With an exact `sqrt`, a vector of positive length is its length times its normalised
vector. -/
theorem smul_normalize (ops : FloatOps F) (v : Vec3 F) (hpos : 0 < ops.sqrt (dot v v)) :
    ops.sqrt (dot v v) • normalize ops v = v := by
  have hne : ops.sqrt (dot v v) ≠ 0 := ne_of_gt hpos
  unfold Vec3.normalize
  ext <;> simp only [Vec3.smul_x, Vec3.smul_y, Vec3.smul_z] <;> field_simp

/-- With an exact `sqrt`, the normalised vector of a vector of positive length is a unit
vector. -/
theorem dot_normalize_self {ops : FloatOps F} (hops : ops.SqrtExact) (v : Vec3 F)
    (hpos : 0 < ops.sqrt (dot v v)) : dot (normalize ops v) (normalize ops v) = 1 := by
  have hne : ops.sqrt (dot v v) ≠ 0 := ne_of_gt hpos
  have hss := hops.sqrt_mul_self (dot v v) (Vec3.dot_self_nonneg v)
  unfold Vec3.normalize
  rw [Vec3.dot_smul_smul]
  field_simp
  linear_combination -hss

end VectorLemmas

/-! ## Sphere intersection -/

section SphereTheorems

variable {F : Type} [LinearOrderedField F]

/-- Claim C1.  In both programs `Sphere::intersect` returns the nearest valid hit: for a
ray with unit direction and exact `sqrt`, a reported parameter `t` satisfies `t > 0.001`,
the point `origin + t * direction` is on the sphere, and no `t'` with `0.001 < t' < t` is
on the sphere; when no hit is reported, no `t' > 0.001` is on the sphere.  (The radius may
be any number; in particular any positive one.) -/
theorem sphere_intersect_nearest_valid_hit (ops : FloatOps F) (hops : ops.SqrtExact)
    (ray : Ray F) (hdir : dot ray.direction ray.direction = 1)
    (s1 : Q1.Sphere F) (s3 : Q3.Sphere F) :
    NearestValidHit s1.center s1.radius ray (s1.intersect ops ray) ∧
      NearestValidHit s3.center s3.radius ray (s3.intersect ops ray) := by
  constructor
  · apply nearest_of_selection ops hops _ _ ray hdir
    simp only [Q1.Sphere.intersect]
  · apply nearest_of_selection ops hops _ _ ray hdir
    simp only [Q3.Sphere.intersect, neg_mul_neg]

/-- Witness for C1 over the reals, with `Real.sqrt`: the ray from the origin along `-z` and
the spheres of centre `(0, 0, -7)` and radius `2`. -/
theorem sphere_intersect_nearest_valid_hit_witness :
    dot (⟨0, 0, -1⟩ : Vec3 ℝ) ⟨0, 0, -1⟩ = 1 ∧
      (NearestValidHit (⟨0, 0, -7⟩ : Vec3 ℝ) 2 ⟨⟨0, 0, 0⟩, ⟨0, 0, -1⟩⟩
          (Q1.Sphere.intersect ⟨Real.sqrt, Real.rpow⟩
            ⟨⟨0, 1 / 5, 0⟩, ⟨0, 1 / 2, 0⟩, ⟨1 / 2, 1 / 2, 1 / 2⟩, 32, ⟨0, 0, -7⟩, 2⟩
            ⟨⟨0, 0, 0⟩, ⟨0, 0, -1⟩⟩) ∧
        NearestValidHit (⟨0, 0, -7⟩ : Vec3 ℝ) 2 ⟨⟨0, 0, 0⟩, ⟨0, 0, -1⟩⟩
          (Q3.Sphere.intersect ⟨Real.sqrt, Real.rpow⟩
            ⟨⟨0, 1 / 5, 0⟩, ⟨0, 1 / 2, 0⟩, ⟨1 / 2, 1 / 2, 1 / 2⟩, 32, ⟨0, 0, -7⟩, 2⟩
            ⟨⟨0, 0, 0⟩, ⟨0, 0, -1⟩⟩)) :=
  ⟨by norm_num [Vec3.dot],
    sphere_intersect_nearest_valid_hit ⟨Real.sqrt, Real.rpow⟩
      ⟨fun x _ => Real.sqrt_nonneg x, fun _ hx => Real.mul_self_sqrt hx⟩
      ⟨⟨0, 0, 0⟩, ⟨0, 0, -1⟩⟩ (by norm_num [Vec3.dot])
      ⟨⟨0, 1 / 5, 0⟩, ⟨0, 1 / 2, 0⟩, ⟨1 / 2, 1 / 2, 1 / 2⟩, 32, ⟨0, 0, -7⟩, 2⟩
      ⟨⟨0, 1 / 5, 0⟩, ⟨0, 1 / 2, 0⟩, ⟨1 / 2, 1 / 2, 1 / 2⟩, 32, ⟨0, 0, -7⟩, 2⟩⟩

/-- In exact arithmetic `Sphere::intersect` of the sampled program computes what
`Sphere::intersect` of the basic program computes. -/
theorem Q3.Sphere.intersect_eq_Q1 (ops : FloatOps F) (s : Q3.Sphere F) (ray : Ray F) :
    s.intersect ops ray
      = Q1.Sphere.intersect ops ⟨s.ka, s.kd, s.ks, s.specPower, s.center, s.radius⟩ ray := by
  simp only [Q3.Sphere.intersect, Q1.Sphere.intersect, neg_mul_neg]

/-- Basic program: a ray aimed at the centre from a point further than `radius + 0.001`
from it hits at the distance to the centre minus the radius, with the normal opposite to
the ray. -/
theorem Q1.Sphere.intersect_aimed_at_center {ops : FloatOps F} (hops : ops.SqrtExact)
    (s : Q1.Sphere F) (ray : Ray F) (hr : 0 < s.radius)
    (hd : ray.direction = normalize ops (s.center - ray.origin))
    (hfar : ops.sqrt (dot (s.center - ray.origin) (s.center - ray.origin)) - s.radius
      > 1 / 1000) :
    s.intersect ops ray
      = some (ops.sqrt (dot (s.center - ray.origin) (s.center - ray.origin)) - s.radius,
          -ray.direction) := by
  obtain ⟨o, d⟩ := ray
  obtain ⟨ka, kd, ks, sp, c, r⟩ := s
  simp only at hr hd hfar ⊢
  have hq0 := Vec3.dot_self_nonneg (c - o)
  have hDD := hops.sqrt_mul_self (dot (c - o) (c - o)) hq0
  have hDpos : 0 < ops.sqrt (dot (c - o) (c - o)) := by linarith
  have hDN := smul_normalize ops (c - o) hDpos
  have hNN := dot_normalize_self hops (c - o) hDpos
  have hpp : dot (o - c) (o - c)
      = ops.sqrt (dot (c - o) (c - o)) * ops.sqrt (dot (c - o) (c - o)) := by
    rw [hDD, Vec3.dot_sub_swap_both]
  rw [← hd] at hDN hNN
  generalize ops.sqrt (dot (c - o) (c - o)) = D at hDD hDpos hDN hfar hpp ⊢
  have hpd : dot (o - c) d = -D := by
    have h1 : dot (o - c) (D • d) = -(D * D) := by
      rw [hDN, Vec3.dot_sub_swap, hDD]
    rw [Vec3.dot_smul_right] at h1
    have hne : D ≠ 0 := ne_of_gt hDpos
    have h2 : D * (dot (o - c) d + D) = 0 := by linear_combination h1
    rcases mul_eq_zero.mp h2 with h | h
    · exact absurd h hne
    · linear_combination h
  have hdelta : -D * -D - D * D + r * r = r * r := by ring
  have hvec : o + (D - r) • d - c = (-r) • d := by
    have hx := congrArg Vec3.x hDN
    have hy := congrArg Vec3.y hDN
    have hz := congrArg Vec3.z hDN
    simp only [Vec3.smul_x, Vec3.smul_y, Vec3.smul_z, Vec3.sub_x, Vec3.sub_y,
      Vec3.sub_z] at hx hy hz
    ext
    · simp only [Vec3.add_x, Vec3.sub_x, Vec3.smul_x]; linear_combination hx
    · simp only [Vec3.add_y, Vec3.sub_y, Vec3.smul_y]; linear_combination hy
    · simp only [Vec3.add_z, Vec3.sub_z, Vec3.smul_z]; linear_combination hz
  have hnorm : normalize ops ((-r) • d) = -d := by
    have hrne : r ≠ 0 := ne_of_gt hr
    unfold Vec3.normalize
    rw [Vec3.dot_smul_smul, hNN, mul_one, neg_mul_neg, hops.sqrt_mul_self_eq r (le_of_lt hr)]
    ext <;> simp only [Vec3.smul_x, Vec3.smul_y, Vec3.smul_z, Vec3.neg_x, Vec3.neg_y,
      Vec3.neg_z] <;> field_simp <;> ring
  simp only [Q1.Sphere.intersect, hpd, hpp, hdelta, hops.sqrt_mul_self_eq r (le_of_lt hr),
    neg_neg, not_lt.mpr (mul_self_nonneg r), if_false, gt_iff_lt]
  rw [if_pos hfar, hvec, hnorm]

/-- Claim C9, as amended.  In both programs, with an exact `sqrt`, for a sphere of positive
radius and a ray whose direction is `normalize(center - origin)` and whose origin is further
than `radius + 0.001` from the centre, `Sphere::intersect` reports a hit with
`t = |center - origin| - radius` and a normal equal to the negated ray direction. -/
theorem sphere_aimed_at_center (ops : FloatOps F) (hops : ops.SqrtExact) (ray : Ray F)
    (s1 : Q1.Sphere F) (s3 : Q3.Sphere F) :
    (0 < s1.radius → ray.direction = normalize ops (s1.center - ray.origin) →
      ops.sqrt (dot (s1.center - ray.origin) (s1.center - ray.origin)) - s1.radius
        > 1 / 1000 →
      s1.intersect ops ray
        = some (ops.sqrt (dot (s1.center - ray.origin) (s1.center - ray.origin)) - s1.radius,
            -ray.direction)) ∧
    (0 < s3.radius → ray.direction = normalize ops (s3.center - ray.origin) →
      ops.sqrt (dot (s3.center - ray.origin) (s3.center - ray.origin)) - s3.radius
        > 1 / 1000 →
      s3.intersect ops ray
        = some (ops.sqrt (dot (s3.center - ray.origin) (s3.center - ray.origin)) - s3.radius,
            -ray.direction)) := by
  constructor
  · intro hr hd hfar
    exact Q1.Sphere.intersect_aimed_at_center hops s1 ray hr hd hfar
  · intro hr hd hfar
    rw [Q3.Sphere.intersect_eq_Q1]
    exact Q1.Sphere.intersect_aimed_at_center hops
      ⟨s3.ka, s3.kd, s3.ks, s3.specPower, s3.center, s3.radius⟩ ray hr hd hfar

/-- Over the reals, the square root of `y * y` written as a number `x` is `y`. -/
theorem real_sqrt_eq_of_sq (x y : ℝ) (hy : 0 ≤ y) (h : y * y = x) : Real.sqrt x = y := by
  rw [← h]
  exact Real.sqrt_mul_self hy

/-- Witness for C9 over the reals: the sphere of centre `(0, 0, -7)` and radius `2` and the
ray from the origin aimed at its centre, which is hit at `t = 7 - 2`. -/
theorem sphere_aimed_at_center_witness :
    (0 : ℝ) < 2 ∧
      Real.sqrt (dot ((⟨0, 0, -7⟩ : Vec3 ℝ) - ⟨0, 0, 0⟩) (⟨0, 0, -7⟩ - ⟨0, 0, 0⟩)) - 2
        > 1 / 1000 ∧
      (Q1.greenSphere (⟨0, 0, -7⟩ : Vec3 ℝ) 2).intersect ⟨Real.sqrt, Real.rpow⟩
          ⟨⟨0, 0, 0⟩, normalize ⟨Real.sqrt, Real.rpow⟩ (⟨0, 0, -7⟩ - ⟨0, 0, 0⟩)⟩
        = some (Real.sqrt (dot ((⟨0, 0, -7⟩ : Vec3 ℝ) - ⟨0, 0, 0⟩) (⟨0, 0, -7⟩ - ⟨0, 0, 0⟩)) - 2,
            -normalize ⟨Real.sqrt, Real.rpow⟩ (⟨0, 0, -7⟩ - ⟨0, 0, 0⟩)) ∧
      (Q3.greenSphere (⟨0, 0, -7⟩ : Vec3 ℝ) 2).intersect ⟨Real.sqrt, Real.rpow⟩
          ⟨⟨0, 0, 0⟩, normalize ⟨Real.sqrt, Real.rpow⟩ (⟨0, 0, -7⟩ - ⟨0, 0, 0⟩)⟩
        = some (Real.sqrt (dot ((⟨0, 0, -7⟩ : Vec3 ℝ) - ⟨0, 0, 0⟩) (⟨0, 0, -7⟩ - ⟨0, 0, 0⟩)) - 2,
            -normalize ⟨Real.sqrt, Real.rpow⟩ (⟨0, 0, -7⟩ - ⟨0, 0, 0⟩)) :=
  have hfar : Real.sqrt (dot ((⟨0, 0, -7⟩ : Vec3 ℝ) - ⟨0, 0, 0⟩) (⟨0, 0, -7⟩ - ⟨0, 0, 0⟩)) - 2
      > 1 / 1000 := by
    rw [real_sqrt_eq_of_sq _ 7 (by norm_num) (by norm_num [Vec3.dot])]
    norm_num
  ⟨by norm_num, hfar,
    (sphere_aimed_at_center ⟨Real.sqrt, Real.rpow⟩
      ⟨fun x _ => Real.sqrt_nonneg x, fun _ hx => Real.mul_self_sqrt hx⟩
      ⟨⟨0, 0, 0⟩, normalize ⟨Real.sqrt, Real.rpow⟩ (⟨0, 0, -7⟩ - ⟨0, 0, 0⟩)⟩
      (Q1.greenSphere ⟨0, 0, -7⟩ 2) (Q3.greenSphere ⟨0, 0, -7⟩ 2)).1
      (by norm_num [Q1.greenSphere]) rfl hfar,
    (sphere_aimed_at_center ⟨Real.sqrt, Real.rpow⟩
      ⟨fun x _ => Real.sqrt_nonneg x, fun _ hx => Real.mul_self_sqrt hx⟩
      ⟨⟨0, 0, 0⟩, normalize ⟨Real.sqrt, Real.rpow⟩ (⟨0, 0, -7⟩ - ⟨0, 0, 0⟩)⟩
      (Q1.greenSphere ⟨0, 0, -7⟩ 2) (Q3.greenSphere ⟨0, 0, -7⟩ 2)).2
      (by norm_num [Q3.greenSphere]) rfl hfar⟩

/-- Over the reals, the unit sphere at the origin and the ray from `(0, 0, z)` along `-z`,
for `1 < z ≤ 1.001`: the near root `z - 1` is not beyond `0.001` and the far root
`z + 1` is returned, with the normal `(0, 0, -1)`. -/
theorem Q1.unitSphere_from_just_outside :
    (Q1.greenSphere (⟨0, 0, 0⟩ : Vec3 ℝ) 1).intersect ⟨Real.sqrt, Real.rpow⟩
        ⟨⟨0, 0, 2001 / 2000⟩, ⟨0, 0, -1⟩⟩ = some (4001 / 2000, ⟨0, 0, -1⟩) := by
  norm_num [Q1.Sphere.intersect, Q1.greenSphere, Vec3.dot, Vec3.normalize]
  ext <;> norm_num

/-- Claim C9 as stated fails: over the reals, the ray from `(0, 0, 1.0005)` aimed at the
centre of the unit sphere at the origin starts outside the sphere with the direction
`(center - origin) / |center - origin|`, yet `Sphere::intersect` (of either program) returns
`t = 2.0005`, which is not `|center - origin| - radius = 0.0005`, and the normal
`(0, 0, -1)`, which is the ray direction and not its negation. -/
theorem sphere_aimed_at_center_counterexample :
    (0 : ℝ) < 1 ∧
      Real.sqrt (dot ((⟨0, 0, 2001 / 2000⟩ : Vec3 ℝ) - ⟨0, 0, 0⟩)
        (⟨0, 0, 2001 / 2000⟩ - ⟨0, 0, 0⟩)) > 1 ∧
      (⟨0, 0, -1⟩ : Vec3 ℝ)
        = normalize ⟨Real.sqrt, Real.rpow⟩ (⟨0, 0, 0⟩ - ⟨0, 0, 2001 / 2000⟩) ∧
      (Q1.greenSphere (⟨0, 0, 0⟩ : Vec3 ℝ) 1).intersect ⟨Real.sqrt, Real.rpow⟩
        ⟨⟨0, 0, 2001 / 2000⟩, ⟨0, 0, -1⟩⟩ = some (4001 / 2000, ⟨0, 0, -1⟩) ∧
      (Q3.greenSphere (⟨0, 0, 0⟩ : Vec3 ℝ) 1).intersect ⟨Real.sqrt, Real.rpow⟩
        ⟨⟨0, 0, 2001 / 2000⟩, ⟨0, 0, -1⟩⟩ = some (4001 / 2000, ⟨0, 0, -1⟩) ∧
      (4001 / 2000 : ℝ)
        ≠ Real.sqrt (dot ((⟨0, 0, 0⟩ : Vec3 ℝ) - ⟨0, 0, 2001 / 2000⟩)
            (⟨0, 0, 0⟩ - ⟨0, 0, 2001 / 2000⟩)) - 1 ∧
      (⟨0, 0, -1⟩ : Vec3 ℝ) ≠ -(⟨0, 0, -1⟩ : Vec3 ℝ) := by
  have hs1 : Real.sqrt (dot ((⟨0, 0, 2001 / 2000⟩ : Vec3 ℝ) - ⟨0, 0, 0⟩)
      (⟨0, 0, 2001 / 2000⟩ - ⟨0, 0, 0⟩)) = 2001 / 2000 :=
    real_sqrt_eq_of_sq _ _ (by norm_num) (by norm_num [Vec3.dot])
  have hs2 : Real.sqrt (dot ((⟨0, 0, 0⟩ : Vec3 ℝ) - ⟨0, 0, 2001 / 2000⟩)
      (⟨0, 0, 0⟩ - ⟨0, 0, 2001 / 2000⟩)) = 2001 / 2000 :=
    real_sqrt_eq_of_sq _ _ (by norm_num) (by norm_num [Vec3.dot])
  refine ⟨by norm_num, by rw [hs1]; norm_num, ?_, Q1.unitSphere_from_just_outside, ?_,
    by rw [hs2]; norm_num, ?_⟩
  · unfold Vec3.normalize
    rw [show (⟨Real.sqrt, Real.rpow⟩ : FloatOps ℝ).sqrt = Real.sqrt from rfl, hs2]
    ext <;> norm_num
  · rw [Q3.Sphere.intersect_eq_Q1]
    exact Q1.unitSphere_from_just_outside
  · intro h
    have hz := congrArg Vec3.z h
    norm_num at hz

/-- Basic program: for a ray of unit direction that starts inside the sphere, the near root
is negative, the far root is positive, and the far root is what is returned when it is
beyond `0.001`; otherwise no hit is reported. -/
theorem Q1.Sphere.intersect_from_inside {ops : FloatOps F} (hops : ops.SqrtExact)
    (s : Q1.Sphere F) (ray : Ray F)
    (hin : ops.sqrt (dot (ray.origin - s.center) (ray.origin - s.center)) < s.radius) :
    -dot (ray.origin - s.center) ray.direction
        - ops.sqrt (dot (ray.origin - s.center) ray.direction
              * dot (ray.origin - s.center) ray.direction
            - dot (ray.origin - s.center) (ray.origin - s.center) + s.radius * s.radius) < 0 ∧
      0 < -dot (ray.origin - s.center) ray.direction
        + ops.sqrt (dot (ray.origin - s.center) ray.direction
              * dot (ray.origin - s.center) ray.direction
            - dot (ray.origin - s.center) (ray.origin - s.center) + s.radius * s.radius) ∧
      s.intersect ops ray =
        if -dot (ray.origin - s.center) ray.direction
          + ops.sqrt (dot (ray.origin - s.center) ray.direction
              * dot (ray.origin - s.center) ray.direction
            - dot (ray.origin - s.center) (ray.origin - s.center) + s.radius * s.radius)
            > 1 / 1000 then
          some (-dot (ray.origin - s.center) ray.direction
            + ops.sqrt (dot (ray.origin - s.center) ray.direction
                * dot (ray.origin - s.center) ray.direction
              - dot (ray.origin - s.center) (ray.origin - s.center) + s.radius * s.radius),
            normalize ops (ray.pointAt (-dot (ray.origin - s.center) ray.direction
            + ops.sqrt (dot (ray.origin - s.center) ray.direction
                * dot (ray.origin - s.center) ray.direction
              - dot (ray.origin - s.center) (ray.origin - s.center) + s.radius * s.radius))
              - s.center))
        else none := by
  have hp0 := Vec3.dot_self_nonneg (ray.origin - s.center)
  have hn0 := hops.sqrt_nonneg _ hp0
  have hnn := hops.sqrt_mul_self _ hp0
  have hrpos : 0 < s.radius := lt_of_le_of_lt hn0 hin
  have hpp : dot (ray.origin - s.center) (ray.origin - s.center) < s.radius * s.radius := by
    rw [← hnn]
    exact mul_self_lt_mul_self hn0 hin
  have hD : 0 < dot (ray.origin - s.center) ray.direction
        * dot (ray.origin - s.center) ray.direction
      - dot (ray.origin - s.center) (ray.origin - s.center) + s.radius * s.radius := by
    nlinarith [mul_self_nonneg (dot (ray.origin - s.center) ray.direction)]
  have hs0 := hops.sqrt_nonneg _ (le_of_lt hD)
  have hss := hops.sqrt_mul_self _ (le_of_lt hD)
  simp only [Q1.Sphere.intersect, Ray.pointAt, not_lt.mpr (le_of_lt hD), if_false]
  generalize ops.sqrt (dot (ray.origin - s.center) ray.direction
        * dot (ray.origin - s.center) ray.direction
      - dot (ray.origin - s.center) (ray.origin - s.center) + s.radius * s.radius) = δ
    at hs0 hss ⊢
  generalize dot (ray.origin - s.center) ray.direction = pd at hD hss ⊢
  have hsq : pd * pd < δ * δ := by linarith
  have h1 : pd < δ := by
    by_contra hcon
    have hle : δ ≤ pd := not_lt.mp hcon
    nlinarith [mul_le_mul hle hle hs0 (le_trans hs0 hle)]
  have h2 : -δ < pd := by
    by_contra hcon
    have hle : pd ≤ -δ := not_lt.mp hcon
    nlinarith [mul_le_mul (neg_le_neg hle) (neg_le_neg hle) (by linarith : (0 : F) ≤ - -δ)
      (by linarith : (0 : F) ≤ -pd)]
  have ht0 : ¬ (-pd - δ > 1 / 1000) := by
    intro h
    linarith
  refine ⟨by linarith, by linarith, ?_⟩
  rw [if_neg ht0]

/-- Claim C10, as amended.  In both programs, with an exact `sqrt`, for a ray whose origin
is inside the sphere (`|origin - center| < radius`): the near root `t0` is negative and the
far root `t1` positive; a hit is reported exactly when `t1 > 0.001`, its parameter is then
`t1` (never `t0`) and its normal `normalize(origin + t1 * direction - center)`; when
`t1 ≤ 0.001` no hit is reported. -/
theorem sphere_from_inside_far_root (ops : FloatOps F) (hops : ops.SqrtExact) (ray : Ray F)
    (s1 : Q1.Sphere F) (s3 : Q3.Sphere F) :
    (ops.sqrt (dot (ray.origin - s1.center) (ray.origin - s1.center)) < s1.radius →
      sphere_t0 ops s1.center s1.radius ray < 0 ∧
      0 < sphere_t1 ops s1.center s1.radius ray ∧
      s1.intersect ops ray =
        if sphere_t1 ops s1.center s1.radius ray > 1 / 1000 then
          some (sphere_t1 ops s1.center s1.radius ray,
            normalize ops (ray.pointAt (sphere_t1 ops s1.center s1.radius ray) - s1.center))
        else none) ∧
    (ops.sqrt (dot (ray.origin - s3.center) (ray.origin - s3.center)) < s3.radius →
      sphere_t0 ops s3.center s3.radius ray < 0 ∧
      0 < sphere_t1 ops s3.center s3.radius ray ∧
      s3.intersect ops ray =
        if sphere_t1 ops s3.center s3.radius ray > 1 / 1000 then
          some (sphere_t1 ops s3.center s3.radius ray,
            normalize ops (ray.pointAt (sphere_t1 ops s3.center s3.radius ray) - s3.center))
        else none) := by
  constructor
  · intro hin
    exact Q1.Sphere.intersect_from_inside hops s1 ray hin
  · intro hin
    rw [Q3.Sphere.intersect_eq_Q1]
    exact Q1.Sphere.intersect_from_inside hops
      ⟨s3.ka, s3.kd, s3.ks, s3.specPower, s3.center, s3.radius⟩ ray hin

/-- Witness for C10 over the reals: the unit sphere at the origin and the ray from its
centre along `-z`. -/
theorem sphere_from_inside_far_root_witness :
    Real.sqrt (dot ((forwardRay : Ray ℝ).origin - (Q1.unitSphere : Q1.Sphere ℝ).center)
        ((forwardRay : Ray ℝ).origin - (Q1.unitSphere : Q1.Sphere ℝ).center))
        < (Q1.unitSphere : Q1.Sphere ℝ).radius ∧
      (Q1.unitSphere : Q1.Sphere ℝ).intersect ⟨Real.sqrt, Real.rpow⟩ forwardRay =
        (if sphere_t1 ⟨Real.sqrt, Real.rpow⟩ (⟨0, 0, 0⟩ : Vec3 ℝ) 1 forwardRay > 1 / 1000 then
          some (sphere_t1 ⟨Real.sqrt, Real.rpow⟩ (⟨0, 0, 0⟩ : Vec3 ℝ) 1 forwardRay,
            normalize ⟨Real.sqrt, Real.rpow⟩
              ((forwardRay : Ray ℝ).pointAt
                (sphere_t1 ⟨Real.sqrt, Real.rpow⟩ (⟨0, 0, 0⟩ : Vec3 ℝ) 1 forwardRay)
                - ⟨0, 0, 0⟩))
        else none) ∧
      Real.sqrt (dot ((forwardRay : Ray ℝ).origin - (Q3.unitSphere : Q3.Sphere ℝ).center)
        ((forwardRay : Ray ℝ).origin - (Q3.unitSphere : Q3.Sphere ℝ).center))
        < (Q3.unitSphere : Q3.Sphere ℝ).radius ∧
      (Q3.unitSphere : Q3.Sphere ℝ).intersect ⟨Real.sqrt, Real.rpow⟩ forwardRay =
        (if sphere_t1 ⟨Real.sqrt, Real.rpow⟩ (⟨0, 0, 0⟩ : Vec3 ℝ) 1 forwardRay > 1 / 1000 then
          some (sphere_t1 ⟨Real.sqrt, Real.rpow⟩ (⟨0, 0, 0⟩ : Vec3 ℝ) 1 forwardRay,
            normalize ⟨Real.sqrt, Real.rpow⟩
              ((forwardRay : Ray ℝ).pointAt
                (sphere_t1 ⟨Real.sqrt, Real.rpow⟩ (⟨0, 0, 0⟩ : Vec3 ℝ) 1 forwardRay)
                - ⟨0, 0, 0⟩))
        else none) :=
  have hin1 : Real.sqrt
      (dot ((forwardRay : Ray ℝ).origin - (Q1.unitSphere : Q1.Sphere ℝ).center)
        ((forwardRay : Ray ℝ).origin - (Q1.unitSphere : Q1.Sphere ℝ).center))
      < (Q1.unitSphere : Q1.Sphere ℝ).radius := by
    norm_num [Vec3.dot, forwardRay, Q1.unitSphere, Q1.greenSphere]
  have hin3 : Real.sqrt
      (dot ((forwardRay : Ray ℝ).origin - (Q3.unitSphere : Q3.Sphere ℝ).center)
        ((forwardRay : Ray ℝ).origin - (Q3.unitSphere : Q3.Sphere ℝ).center))
      < (Q3.unitSphere : Q3.Sphere ℝ).radius := by
    norm_num [Vec3.dot, forwardRay, Q3.unitSphere, Q3.greenSphere]
  ⟨hin1,
    ((sphere_from_inside_far_root ⟨Real.sqrt, Real.rpow⟩
      ⟨fun x _ => Real.sqrt_nonneg x, fun _ hx => Real.mul_self_sqrt hx⟩
      forwardRay Q1.unitSphere Q3.unitSphere).1 hin1).2.2,
    hin3,
    ((sphere_from_inside_far_root ⟨Real.sqrt, Real.rpow⟩
      ⟨fun x _ => Real.sqrt_nonneg x, fun _ hx => Real.mul_self_sqrt hx⟩
      forwardRay Q1.unitSphere Q3.unitSphere).2 hin3).2.2⟩

/-- Over the reals, the unit sphere at the origin reports no hit for the ray that starts at
`(0, 0, 0.9995)`, inside it, and goes along `+z`: the far root is `0.0005`. -/
theorem Q1.unitSphere_from_just_inside :
    (Q1.greenSphere (⟨0, 0, 0⟩ : Vec3 ℝ) 1).intersect ⟨Real.sqrt, Real.rpow⟩
        ⟨⟨0, 0, 1999 / 2000⟩, ⟨0, 0, 1⟩⟩ = none := by
  norm_num [Q1.Sphere.intersect, Q1.greenSphere, Vec3.dot]

/-- Claim C10 as stated fails: over the reals, the ray from `(0, 0, 0.9995)` along `+z` has
a unit direction and starts inside the unit sphere at the origin, yet `Sphere::intersect`
(of either program) reports no hit. -/
theorem sphere_from_inside_far_root_counterexample :
    dot (⟨0, 0, 1⟩ : Vec3 ℝ) ⟨0, 0, 1⟩ = 1 ∧
      Real.sqrt (dot ((⟨0, 0, 1999 / 2000⟩ : Vec3 ℝ) - ⟨0, 0, 0⟩)
        (⟨0, 0, 1999 / 2000⟩ - ⟨0, 0, 0⟩)) < 1 ∧
      (Q1.greenSphere (⟨0, 0, 0⟩ : Vec3 ℝ) 1).intersect ⟨Real.sqrt, Real.rpow⟩
        ⟨⟨0, 0, 1999 / 2000⟩, ⟨0, 0, 1⟩⟩ = none ∧
      (Q3.greenSphere (⟨0, 0, 0⟩ : Vec3 ℝ) 1).intersect ⟨Real.sqrt, Real.rpow⟩
        ⟨⟨0, 0, 1999 / 2000⟩, ⟨0, 0, 1⟩⟩ = none := by
  refine ⟨by norm_num [Vec3.dot], ?_, Q1.unitSphere_from_just_inside, ?_⟩
  · rw [real_sqrt_eq_of_sq _ (1999 / 2000) (by norm_num) (by norm_num [Vec3.dot])]
    norm_num
  · rw [Q3.Sphere.intersect_eq_Q1]
    exact Q1.unitSphere_from_just_inside

end SphereTheorems

/-! ## Plane intersection -/

section PlaneTheorems

variable {F : Type} [LinearOrderedField F]

/-- In the sampled program a hit reported by `Plane::intersect` has `t > 0.001`. -/
theorem Q3.Plane.intersect_gt_epsilon (pl : Q3.Plane F) (ray : Ray F) (t : F) (n : Vec3 F)
    (h : pl.intersect ray = some (t, n)) : 1 / 1000 < t := by
  simp only [Q3.Plane.intersect] at h
  split_ifs at h with h1 h2
  simp only [Option.some.injEq, Prod.mk.injEq] at h
  rw [← h.1]
  exact h2

/-- In the basic program a hit reported by `Plane::intersect` has `t ≥ 0.001`. -/
theorem Q1.Plane.intersect_ge_epsilon (pl : Q1.Plane F) (ray : Ray F) (t : F) (n : Vec3 F)
    (h : pl.intersect ray = some (t, n)) : 1 / 1000 ≤ t := by
  simp only [Q1.Plane.intersect] at h
  split_ifs at h with h1 h2
  simp only [Option.some.injEq, Prod.mk.injEq] at h
  rw [← h.1]
  exact not_lt.mp h2

/-- Claim C2, the basic program at the boundary.  For the plane `y = 0` (normal `(0, 1, 0)`,
offset `0`) and the ray from `(0, 0.001, 0)` along `(0, -1, 0)`, `Plane::intersect` of
`main_Q1.cpp` reports a hit whose parameter is `0.001` itself, which is not beyond
`0.001`; on the same input `Plane::intersect` of `main_Q3.cpp` reports no hit. -/
theorem plane_intersect_Q1_accepts_epsilon :
    Q1.Plane.intersect
        (⟨⟨1 / 5, 1 / 5, 1 / 5⟩, ⟨1, 1, 1⟩, ⟨0, 0, 0⟩, 0, ⟨0, 1, 0⟩, 0⟩ : Q1.Plane ℚ)
        ⟨⟨0, 1 / 1000, 0⟩, ⟨0, -1, 0⟩⟩ = some (1 / 1000, ⟨0, 1, 0⟩) ∧
      ¬ ((1 / 1000 : ℚ) > 1 / 1000) ∧
      Q3.Plane.intersect
        (⟨⟨1 / 5, 1 / 5, 1 / 5⟩, ⟨1, 1, 1⟩, ⟨0, 0, 0⟩, 0, ⟨0, 1, 0⟩, 0⟩ : Q3.Plane ℚ)
        ⟨⟨0, 1 / 1000, 0⟩, ⟨0, -1, 0⟩⟩ = none := by
  refine ⟨?_, lt_irrefl _, ?_⟩
  · norm_num [Q1.Plane.intersect, Vec3.dot]
  · norm_num [Q3.Plane.intersect, Vec3.dot]

end PlaneTheorems

/-! ## Nearest-hit loop -/

section LoopTheorems

variable {F : Type} [LinearOrderedField F]

/-- Outcome of the loop of `Scene::trace` started in state `st` at position `i`: either
the state is unchanged and no object reports a hit below `st.closestT`, or the state holds
the first object among those reporting the least parameter, which is below
`st.closestT`. -/
theorem traceLoop_spec {S : Type} (isect : S → Option (F × Vec3 F)) (objs : List S) :
    ∀ (i : Nat) (st : Closest S F),
      (traceLoop isect objs i st = st ∧
        ∀ (k : Nat) obj t n, objs[k]? = some obj → isect obj = some (t, n) →
          st.closestT ≤ t) ∨
      (∃ (k : Nat) (obj : S) (t : F) (n : Vec3 F), objs[k]? = some obj ∧
        isect obj = some (t, n) ∧
        traceLoop isect objs i st = ⟨t, some (i + k, obj), n⟩ ∧ t < st.closestT ∧
        ∀ (k' : Nat) obj' t' n', objs[k']? = some obj' → isect obj' = some (t', n') →
          t ≤ t' ∧ (t' = t → k ≤ k')) := by
  induction objs with
  | nil =>
    intro i st
    left
    exact ⟨rfl, by simp⟩
  | cons obj rest ih =>
    intro i st
    by_cases himp : ∃ t n, isect obj = some (t, n) ∧ t < st.closestT
    · obtain ⟨t, n, hobj, hlt⟩ := himp
      have hstep : traceLoop isect (obj :: rest) i st
          = traceLoop isect rest (i + 1) ⟨t, some (i, obj), n⟩ := by
        simp [traceLoop, hobj, hlt]
      right
      rcases ih (i + 1) ⟨t, some (i, obj), n⟩ with
        ⟨h1, h2⟩ | ⟨k, o, t2, n2, hk, ho, hres, hlt2, hmin⟩
      · refine ⟨0, obj, t, n, by simp, hobj, by rw [hstep, h1]; rfl, hlt, ?_⟩
        intro k' obj' t' n' hk' ho'
        cases k' with
        | zero =>
          simp only [List.getElem?_cons_zero, Option.some.injEq] at hk'
          subst hk'
          rw [hobj] at ho'
          simp only [Option.some.injEq, Prod.mk.injEq] at ho'
          exact ⟨le_of_eq ho'.1, fun _ => le_refl _⟩
        | succ k' =>
          simp only [List.getElem?_cons_succ] at hk'
          exact ⟨h2 k' obj' t' n' hk' ho', fun _ => Nat.zero_le _⟩
      · refine ⟨k + 1, o, t2, n2, by simpa using hk, ho, ?_, lt_trans hlt2 hlt, ?_⟩
        · rw [hstep, hres, show i + 1 + k = i + (k + 1) by omega]
        · intro k' obj' t' n' hk' ho'
          cases k' with
          | zero =>
            simp only [List.getElem?_cons_zero, Option.some.injEq] at hk'
            subst hk'
            rw [hobj] at ho'
            simp only [Option.some.injEq, Prod.mk.injEq] at ho'
            have hlt3 : t2 < t' := by rw [← ho'.1]; exact hlt2
            exact ⟨le_of_lt hlt3, fun h => absurd h (ne_of_gt hlt3)⟩
          | succ k' =>
            simp only [List.getElem?_cons_succ] at hk'
            obtain ⟨h3, h4⟩ := hmin k' obj' t' n' hk' ho'
            exact ⟨h3, fun h => Nat.succ_le_succ (h4 h)⟩
    · have hstep : traceLoop isect (obj :: rest) i st = traceLoop isect rest (i + 1) st := by
        cases hobj : isect obj with
        | none => simp [traceLoop, hobj]
        | some tn =>
          obtain ⟨t, n⟩ := tn
          have : ¬ t < st.closestT := fun h => himp ⟨t, n, hobj, h⟩
          simp [traceLoop, hobj, this]
      have hhead : ∀ t n, isect obj = some (t, n) → st.closestT ≤ t :=
        fun t n h => not_lt.mp (fun hlt => himp ⟨t, n, h, hlt⟩)
      rcases ih (i + 1) st with ⟨h1, h2⟩ | ⟨k, o, t2, n2, hk, ho, hres, hlt2, hmin⟩
      · left
        refine ⟨by rw [hstep, h1], ?_⟩
        intro k' obj' t' n' hk' ho'
        cases k' with
        | zero =>
          simp only [List.getElem?_cons_zero, Option.some.injEq] at hk'
          subst hk'
          exact hhead t' n' ho'
        | succ k' =>
          simp only [List.getElem?_cons_succ] at hk'
          exact h2 k' obj' t' n' hk' ho'
      · right
        refine ⟨k + 1, o, t2, n2, by simpa using hk, ho, ?_, hlt2, ?_⟩
        · rw [hstep, hres, show i + 1 + k = i + (k + 1) by omega]
        · intro k' obj' t' n' hk' ho'
          cases k' with
          | zero =>
            simp only [List.getElem?_cons_zero, Option.some.injEq] at hk'
            subst hk'
            have hlt3 : t2 < t' := lt_of_lt_of_le hlt2 (hhead t' n' ho')
            exact ⟨le_of_lt hlt3, fun h => absurd h (ne_of_gt hlt3)⟩
          | succ k' =>
            simp only [List.getElem?_cons_succ] at hk'
            obtain ⟨h3, h4⟩ := hmin k' obj' t' n' hk' ho'
            exact ⟨h3, fun h => Nat.succ_le_succ (h4 h)⟩

/-- When some object reports a hit below `FLT_MAX`, the loop started from the initial state
of `Scene::trace` ends on the first nearest hit. -/
theorem traceLoop_hit {S : Type} (isect : S → Option (F × Vec3 F)) (objs : List S)
    (n0 : Vec3 F)
    (h : ∃ obj ∈ objs, ∃ t n, isect obj = some (t, n) ∧ t < FLT_MAX) :
    ∃ i obj t n, FirstNearestHit isect objs i obj t n ∧
      traceLoop isect objs 0 ⟨FLT_MAX, none, n0⟩ = ⟨t, some (i, obj), n⟩ := by
  obtain ⟨obj, hmem, t, n, hobj, hlt⟩ := h
  obtain ⟨k, hk⟩ := List.getElem?_of_mem hmem
  rcases traceLoop_spec isect objs 0 ⟨FLT_MAX, none, n0⟩ with
    ⟨-, h2⟩ | ⟨k2, o2, t2, n2, hk2, ho2, hres, -, hmin⟩
  · exact absurd (h2 k obj t n hk hobj) (not_le.mpr hlt)
  · refine ⟨k2, o2, t2, n2, ⟨hk2, ho2, hmin⟩, ?_⟩
    rw [hres, Nat.zero_add]

/-- When no object reports a hit, the loop of `Scene::trace` leaves its state unchanged. -/
theorem traceLoop_miss {S : Type} (isect : S → Option (F × Vec3 F)) (objs : List S)
    (st : Closest S F) (h : ∀ obj ∈ objs, isect obj = none) :
    traceLoop isect objs 0 st = st := by
  rcases traceLoop_spec isect objs 0 st with ⟨h1, -⟩ | ⟨k, o, t, n, hk, ho, -, -, -⟩
  · exact h1
  · rw [h o (List.getElem?_mem hk)] at ho
    cases ho

/-- Claim C3, as amended.  In both programs, when at least one surface reports a hit with
parameter below `FLT_MAX`, the loop of `Scene::trace` ends with the surface that is first in
list order among those reporting the least parameter over all surfaces that report a hit,
and the returned colour is the shading of that surface at that parameter and normal. -/
theorem trace_shades_first_nearest (ops : FloatOps F) (ray : Ray F)
    (sc1 : Q1.Scene F) (sc3 : Q3.Scene F) (g : Q3.Globals F) :
    ((∃ obj ∈ sc1.objects, ∃ t n, obj.intersect ops ray = some (t, n) ∧ t < FLT_MAX) →
      ∃ i obj t n,
        FirstNearestHit (fun o : Q1.Surface F => o.intersect ops ray) sc1.objects i obj t n ∧
        sc1.nearest ops ray = ⟨t, some (i, obj), n⟩ ∧
        sc1.trace ops ray = clamp (sc1.shade ops ray obj t n) 0 1) ∧
    ((∃ obj ∈ sc3.objects, ∃ t n, obj.intersect ops ray = some (t, n) ∧ t < FLT_MAX) →
      ∃ i obj t n,
        FirstNearestHit (fun o : Q3.Surface F => o.intersect ops ray) sc3.objects i obj t n ∧
        sc3.nearest ops ray = ⟨t, some (i, obj), n⟩ ∧
        sc3.trace ops g ray
          = Vec3.pow ops (clamp (sc3.shade ops g ray obj t n) 0 1)
              (Vec3.splat (1 / g.Gamma))) := by
  constructor
  · intro h
    obtain ⟨i, obj, t, n, hfirst, hres⟩ :=
      traceLoop_hit (fun o : Q1.Surface F => o.intersect ops ray) sc1.objects ⟨0, 0, 0⟩ h
    refine ⟨i, obj, t, n, hfirst, hres, ?_⟩
    have hres' : sc1.nearest ops ray = ⟨t, some (i, obj), n⟩ := hres
    simp only [Q1.Scene.trace, hres']
  · intro h
    obtain ⟨i, obj, t, n, hfirst, hres⟩ :=
      traceLoop_hit (fun o : Q3.Surface F => o.intersect ops ray) sc3.objects ⟨0, 0, 0⟩ h
    refine ⟨i, obj, t, n, hfirst, hres, ?_⟩
    have hres' : sc3.nearest ops ray = ⟨t, some (i, obj), n⟩ := hres
    simp only [Q3.Scene.trace, hres']

/-- Claim C8.  In both programs a ray for which no surface of the scene reports a hit is
traced to the colour `(0, 0, 0)`; the empty scene is a case of it. -/
theorem trace_miss_is_black (ops : FloatOps F) (ray : Ray F)
    (sc1 : Q1.Scene F) (sc3 : Q3.Scene F) (g : Q3.Globals F) :
    ((∀ obj ∈ sc1.objects, obj.intersect ops ray = none) →
      sc1.trace ops ray = ⟨0, 0, 0⟩) ∧
    ((∀ obj ∈ sc3.objects, obj.intersect ops ray = none) →
      sc3.trace ops g ray = ⟨0, 0, 0⟩) := by
  constructor
  · intro h
    have hres : sc1.nearest ops ray = ⟨FLT_MAX, none, ⟨0, 0, 0⟩⟩ :=
      traceLoop_miss (fun o : Q1.Surface F => o.intersect ops ray) sc1.objects _ h
    simp only [Q1.Scene.trace, hres, Vec3.splat]
  · intro h
    have hres : sc3.nearest ops ray = ⟨FLT_MAX, none, ⟨0, 0, 0⟩⟩ :=
      traceLoop_miss (fun o : Q3.Surface F => o.intersect ops ray) sc3.objects _ h
    simp only [Q3.Scene.trace, hres, Vec3.splat]

/-- The floor plane is hit at `t = 2` by the ray going straight down (sampled program). -/
theorem Q3.greyPlane_downRay_Q3 (ops : FloatOps F) :
    (Q3.greyPlane (2 : F)).intersect ops downRay = some (2, ⟨0, 1, 0⟩) := by
  norm_num [Q3.greyPlane, Q3.Surface.intersect, Q3.Plane.intersect, downRay, Vec3.dot]

/-- The floor plane is missed by the ray going straight up (basic program). -/
theorem Q1.greyPlane_upRay_Q1 (ops : FloatOps F) :
    (Q1.greyPlane (2 : F)).intersect ops upRay = none := by
  norm_num [Q1.greyPlane, Q1.Surface.intersect, Q1.Plane.intersect, upRay, Vec3.dot]

/-- The floor plane is missed by the ray going straight up (sampled program). -/
theorem Q3.greyPlane_upRay_Q3 (ops : FloatOps F) :
    (Q3.greyPlane (2 : F)).intersect ops upRay = none := by
  norm_num [Q3.greyPlane, Q3.Surface.intersect, Q3.Plane.intersect, upRay, Vec3.dot]

/-- The number two is below `FLT_MAX`. -/
theorem two_lt_FLT_MAX : (2 : F) < FLT_MAX := by
  norm_num [FLT_MAX]

/-- Claim C3 as stated fails: in the scene whose only surface is the plane `y = FLT_MAX`,
the ray going straight up is reported a hit by that plane (at `t = FLT_MAX`), yet the loop
of `Scene::trace` ends with no surface (`hit` is null) and the colour is black, in both
programs. -/
theorem trace_shades_first_nearest_counterexample :
    ((∃ obj ∈ (Q1.farScene : Q1.Scene ℝ).objects, ∃ t n,
        obj.intersect ⟨Real.sqrt, Real.rpow⟩ upRay = some (t, n)) ∧
      ((Q1.farScene : Q1.Scene ℝ).nearest ⟨Real.sqrt, Real.rpow⟩ upRay).hit = none ∧
      (Q1.farScene : Q1.Scene ℝ).trace ⟨Real.sqrt, Real.rpow⟩ upRay = ⟨0, 0, 0⟩) ∧
    ((∃ obj ∈ (Q3.farScene : Q3.Scene ℝ).objects, ∃ t n,
        obj.intersect ⟨Real.sqrt, Real.rpow⟩ upRay = some (t, n)) ∧
      ((Q3.farScene : Q3.Scene ℝ).nearest ⟨Real.sqrt, Real.rpow⟩ upRay).hit = none ∧
      (Q3.farScene : Q3.Scene ℝ).trace ⟨Real.sqrt, Real.rpow⟩ {} upRay = ⟨0, 0, 0⟩) := by
  have e1 : (Q1.greyPlane (-FLT_MAX : ℝ)).intersect ⟨Real.sqrt, Real.rpow⟩ upRay
      = some (FLT_MAX, ⟨0, 1, 0⟩) := by
    norm_num [Q1.greyPlane, Q1.Surface.intersect, Q1.Plane.intersect, upRay, Vec3.dot, FLT_MAX]
  have e3 : (Q3.greyPlane (-FLT_MAX : ℝ)).intersect ⟨Real.sqrt, Real.rpow⟩ upRay
      = some (FLT_MAX, ⟨0, 1, 0⟩) := by
    norm_num [Q3.greyPlane, Q3.Surface.intersect, Q3.Plane.intersect, upRay, Vec3.dot, FLT_MAX]
  have n1 : (Q1.farScene : Q1.Scene ℝ).nearest ⟨Real.sqrt, Real.rpow⟩ upRay
      = ⟨FLT_MAX, none, ⟨0, 0, 0⟩⟩ := by
    simp [Q1.Scene.nearest, Q1.farScene, traceLoop, e1]
  have n3 : (Q3.farScene : Q3.Scene ℝ).nearest ⟨Real.sqrt, Real.rpow⟩ upRay
      = ⟨FLT_MAX, none, ⟨0, 0, 0⟩⟩ := by
    simp [Q3.Scene.nearest, Q3.farScene, traceLoop, e3]
  refine ⟨⟨⟨_, List.mem_singleton.mpr rfl, _, _, e1⟩, by rw [n1], ?_⟩,
    ⟨⟨_, List.mem_singleton.mpr rfl, _, _, e3⟩, by rw [n3], ?_⟩⟩
  · simp only [Q1.Scene.trace, n1, Vec3.splat]
  · simp only [Q3.Scene.trace, n3, Vec3.splat]

/-- Witness for C8 over the reals: the floor scene and the ray going straight up. -/
theorem trace_miss_is_black_witness :
    (∀ obj ∈ (Q1.floorScene : Q1.Scene ℝ).objects,
        obj.intersect ⟨Real.sqrt, Real.rpow⟩ upRay = none) ∧
      (Q1.floorScene : Q1.Scene ℝ).trace ⟨Real.sqrt, Real.rpow⟩ upRay = ⟨0, 0, 0⟩ ∧
      (∀ obj ∈ (Q3.floorScene : Q3.Scene ℝ).objects,
        obj.intersect ⟨Real.sqrt, Real.rpow⟩ upRay = none) ∧
      (Q3.floorScene : Q3.Scene ℝ).trace ⟨Real.sqrt, Real.rpow⟩ {} upRay = ⟨0, 0, 0⟩ :=
  have h1 : ∀ obj ∈ (Q1.floorScene : Q1.Scene ℝ).objects,
      obj.intersect ⟨Real.sqrt, Real.rpow⟩ upRay = none := fun obj hobj => by
    rw [List.mem_singleton.mp hobj]
    exact Q1.greyPlane_upRay_Q1 _
  have h3 : ∀ obj ∈ (Q3.floorScene : Q3.Scene ℝ).objects,
      obj.intersect ⟨Real.sqrt, Real.rpow⟩ upRay = none := fun obj hobj => by
    rw [List.mem_singleton.mp hobj]
    exact Q3.greyPlane_upRay_Q3 _
  ⟨h1,
    (trace_miss_is_black ⟨Real.sqrt, Real.rpow⟩ upRay Q1.floorScene Q3.floorScene {}).1 h1,
    h3,
    (trace_miss_is_black ⟨Real.sqrt, Real.rpow⟩ upRay Q1.floorScene Q3.floorScene {}).2 h3⟩

end LoopTheorems

/-! ## Shadow query and shadowed shading (sampled program) -/

section ShadowTheorems

variable {F : Type} [LinearOrderedField F]

/-- An exact `sqrt` maps `1` to `1`. -/
theorem FloatOps.SqrtExact.sqrt_one {ops : FloatOps F} (hops : ops.SqrtExact) :
    ops.sqrt 1 = 1 := by
  have h0 := hops.sqrt_nonneg 1 zero_le_one
  have h1 := hops.sqrt_mul_self 1 zero_le_one
  nlinarith

/-- With an exact `sqrt`, normalising a unit vector leaves it unchanged. -/
theorem normalize_of_unit {ops : FloatOps F} (hops : ops.SqrtExact) (v : Vec3 F)
    (hv : dot v v = 1) : normalize ops v = v := by
  unfold Vec3.normalize
  rw [hv, hops.sqrt_one]
  ext <;> simp

/-- Claim C4.  `Scene::isInShadow(point, lightDir)` is true exactly when some surface of
the scene reports a hit for the ray constructed from the origin `point + 0.001 * lightDir`
and the direction `lightDir`, at whatever parameter: no distance to the light enters (the
function is not given the light position).  The ray constructor normalises its direction,
which for a unit `lightDir` (and exact `sqrt`) is `lightDir` itself. -/
theorem isInShadow_iff_some_hit (ops : FloatOps F) (sc : Q3.Scene F) (point lightDir : Vec3 F) :
    (sc.isInShadow ops point lightDir = true ↔
      ∃ obj ∈ sc.objects, ∃ t n,
        obj.intersect ops (Ray.new ops (point + (1 / 1000 : F) • lightDir) lightDir)
          = some (t, n)) ∧
    (ops.SqrtExact → dot lightDir lightDir = 1 →
      Ray.new ops (point + (1 / 1000 : F) • lightDir) lightDir
        = ⟨point + (1 / 1000 : F) • lightDir, lightDir⟩) := by
  constructor
  · simp only [Q3.Scene.isInShadow, List.any_eq_true, Option.isSome_iff_exists, Prod.exists]
  · intro hops hunit
    simp only [Ray.new, normalize_of_unit hops lightDir hunit]

/-- Over the reals, the point `(0, -2, 0)` of the floor is shadowed in the room scene for
the light direction `(0, 1, 0)`: the ceiling is hit by the shadow ray. -/
theorem Q3.roomScene_shadow :
    (Q3.roomScene : Q3.Scene ℝ).isInShadow ⟨Real.sqrt, Real.rpow⟩ ⟨0, -2, 0⟩ ⟨0, 1, 0⟩
      = true := by
  norm_num [Q3.Scene.isInShadow, Q3.roomScene, Q3.greyPlane, Q3.Surface.intersect,
    Q3.Plane.intersect, Ray.new, Vec3.normalize, Vec3.dot]

/-- Witness for C4 over the reals: the room scene, the floor point `(0, -2, 0)` and the
light direction `(0, 1, 0)`.  The ceiling `y = 10` lies beyond a light placed at
`(0, 4, 0)` and the point is reported shadowed. -/
theorem isInShadow_iff_some_hit_witness :
    dot (⟨0, 1, 0⟩ : Vec3 ℝ) ⟨0, 1, 0⟩ = 1 ∧
      Ray.new ⟨Real.sqrt, Real.rpow⟩ ((⟨0, -2, 0⟩ : Vec3 ℝ) + (1 / 1000 : ℝ) • ⟨0, 1, 0⟩)
          ⟨0, 1, 0⟩
        = ⟨(⟨0, -2, 0⟩ : Vec3 ℝ) + (1 / 1000 : ℝ) • ⟨0, 1, 0⟩, ⟨0, 1, 0⟩⟩ ∧
      ∃ obj ∈ (Q3.roomScene : Q3.Scene ℝ).objects, ∃ t n,
        obj.intersect ⟨Real.sqrt, Real.rpow⟩
          (Ray.new ⟨Real.sqrt, Real.rpow⟩
            ((⟨0, -2, 0⟩ : Vec3 ℝ) + (1 / 1000 : ℝ) • ⟨0, 1, 0⟩) ⟨0, 1, 0⟩) = some (t, n) :=
  ⟨by norm_num [Vec3.dot],
    (isInShadow_iff_some_hit ⟨Real.sqrt, Real.rpow⟩ Q3.roomScene ⟨0, -2, 0⟩ ⟨0, 1, 0⟩).2
      ⟨fun x _ => Real.sqrt_nonneg x, fun _ hx => Real.mul_self_sqrt hx⟩
      (by norm_num [Vec3.dot]),
    (isInShadow_iff_some_hit ⟨Real.sqrt, Real.rpow⟩ Q3.roomScene ⟨0, -2, 0⟩ ⟨0, 1, 0⟩).1.mp
      Q3.roomScene_shadow⟩

/-- Sum `ka + 0 * kd + 0 * ks` is `ka`. -/
theorem Vec3.add_zero_smul (a b c : Vec3 F) : a + (0 : F) • b + (0 : F) • c = a := by
  ext <;> simp

/-- Claim C5.  In the sampled program, when the loop of `Scene::trace` ends on a surface
`hit` at parameter `t` and `isInShadow` is true for the hit point and the light direction
`L = normalize(LightPos - point)`, the returned colour is `clamp(ka, 0, 1)` raised
component-wise to the power `1 / Gamma`: neither `kd`, `ks`, `specPower` nor the normal
enter. -/
theorem trace_shadowed_is_ambient (ops : FloatOps F) (g : Q3.Globals F) (sc : Q3.Scene F)
    (ray : Ray F) (i : Nat) (hit : Q3.Surface F) (t : F) (n : Vec3 F)
    (hnear : sc.nearest ops ray = ⟨t, some (i, hit), n⟩)
    (hshadow : sc.isInShadow ops (ray.origin + t • ray.direction)
      (normalize ops (g.LightPos - (ray.origin + t • ray.direction))) = true) :
    sc.trace ops g ray = Vec3.pow ops (clamp hit.ka 0 1) (Vec3.splat (1 / g.Gamma)) := by
  simp only [Q3.Scene.trace, hnear, Q3.Scene.shade, hshadow, Bool.not_true,
    Bool.false_eq_true, if_false, Vec3.add_zero_smul]

/-- Over the reals, `sqrt 36 = 6`. -/
theorem real_sqrt_36 : Real.sqrt 36 = 6 := by
  rw [show (36 : ℝ) = 6 * 6 by norm_num]
  exact Real.sqrt_mul_self (by norm_num)

/-- In the room scene the ray going straight down ends the loop on the floor at `t = 2`. -/
theorem Q3.roomScene_nearest (ops : FloatOps F) :
    (Q3.roomScene : Q3.Scene F).nearest ops downRay
      = ⟨2, some (0, Q3.greyPlane 2), ⟨0, 1, 0⟩⟩ := by
  have e2 : (Q3.greyPlane (-10 : F)).intersect ops downRay = none := by
    norm_num [Q3.greyPlane, Q3.Surface.intersect, Q3.Plane.intersect, downRay, Vec3.dot]
  simp [Q3.Scene.nearest, Q3.roomScene, traceLoop, Q3.greyPlane_downRay_Q3, e2, two_lt_FLT_MAX]

/-- Witness for C5 over the reals: the room scene with the light at `(0, 4, 0)` and the
ray going straight down; the floor point `(0, -2, 0)` is shadowed by the ceiling. -/
theorem trace_shadowed_is_ambient_witness :
    (Q3.roomScene : Q3.Scene ℝ).nearest ⟨Real.sqrt, Real.rpow⟩ downRay
        = ⟨2, some (0, Q3.greyPlane 2), ⟨0, 1, 0⟩⟩ ∧
      (Q3.roomScene : Q3.Scene ℝ).trace ⟨Real.sqrt, Real.rpow⟩ Q3.lightAbove downRay
        = Vec3.pow ⟨Real.sqrt, Real.rpow⟩ (clamp (Q3.greyPlane (2 : ℝ)).ka 0 1)
            (Vec3.splat (1 / (Q3.lightAbove : Q3.Globals ℝ).Gamma)) :=
  ⟨Q3.roomScene_nearest _,
    trace_shadowed_is_ambient ⟨Real.sqrt, Real.rpow⟩ Q3.lightAbove Q3.roomScene downRay
      0 (Q3.greyPlane 2) 2 ⟨0, 1, 0⟩ (Q3.roomScene_nearest _) (by
        have hp : (downRay : Ray ℝ).origin + (2 : ℝ) • (downRay : Ray ℝ).direction
            = ⟨0, -2, 0⟩ := by
          ext <;> norm_num [downRay]
        have hL : normalize ⟨Real.sqrt, Real.rpow⟩
            ((Q3.lightAbove : Q3.Globals ℝ).LightPos - ⟨0, -2, 0⟩) = ⟨0, 1, 0⟩ := by
          ext <;> norm_num [Vec3.normalize, Vec3.dot, Q3.lightAbove, real_sqrt_36]
        rw [hp, hL]
        exact Q3.roomScene_shadow)⟩

end ShadowTheorems

/-! ## Nearest hit among several surfaces -/

section StackTheorems

variable {F : Type} [LinearOrderedField F]

/-- The plane `y = -dVal` with `dVal ≥ 0.001` is met by the ray going straight down at
`t = dVal` (basic program). -/
theorem greyPlane_downRay_at_Q1 (ops : FloatOps F) (dVal : F) (h : 1 / 1000 ≤ dVal) :
    (Q1.greyPlane dVal).intersect ops downRay = some (dVal, ⟨0, 1, 0⟩) := by
  have h' : ¬ dVal < 1 / 1000 := not_lt.mpr h
  norm_num [Q1.greyPlane, Q1.Surface.intersect, Q1.Plane.intersect, downRay, Vec3.dot]
  intro h2
  exact absurd h2 (by simpa using h')

/-- The plane `y = -dVal` with `dVal > 0.001` is met by the ray going straight down at
`t = dVal` (sampled program). -/
theorem greyPlane_downRay_at_Q3 (ops : FloatOps F) (dVal : F) (h : 1 / 1000 < dVal) :
    (Q3.greyPlane dVal).intersect ops downRay = some (dVal, ⟨0, 1, 0⟩) := by
  norm_num [Q3.greyPlane, Q3.Surface.intersect, Q3.Plane.intersect, downRay, Vec3.dot]
  simpa using h

/-- The plane `y = 4` is missed by the ray going straight down (basic program). -/
theorem greyPlane_above_downRay_Q1 (ops : FloatOps F) :
    (Q1.greyPlane (-4 : F)).intersect ops downRay = none := by
  norm_num [Q1.greyPlane, Q1.Surface.intersect, Q1.Plane.intersect, downRay, Vec3.dot]

/-- The plane `y = 4` is missed by the ray going straight down (sampled program). -/
theorem greyPlane_above_downRay_Q3 (ops : FloatOps F) :
    (Q3.greyPlane (-4 : F)).intersect ops downRay = none := by
  norm_num [Q3.greyPlane, Q3.Surface.intersect, Q3.Plane.intersect, downRay, Vec3.dot]

/-- With an exact `sqrt`, the sphere of centre `(0, -3, 0)` and radius `1` is met by the ray
going straight down at `t = 2`, with the normal `(0, 1, 0)` (basic program). -/
theorem sphere_downRay_Q1 {ops : FloatOps F} (hops : ops.SqrtExact) :
    (Q1.Surface.sphere (Q1.greenSphere (⟨0, -3, 0⟩ : Vec3 F) 1)).intersect ops downRay
      = some (2, ⟨0, 1, 0⟩) := by
  have h1 := hops.sqrt_one
  norm_num [Q1.Surface.intersect, Q1.Sphere.intersect, Q1.greenSphere, downRay, Vec3.dot,
    Vec3.normalize, h1]
  ext <;> norm_num [h1]

/-- With an exact `sqrt`, the sphere of centre `(0, -3, 0)` and radius `1` is met by the ray
going straight down at `t = 2`, with the normal `(0, 1, 0)` (sampled program). -/
theorem sphere_downRay_Q3 {ops : FloatOps F} (hops : ops.SqrtExact) :
    (Q3.Surface.sphere (Q3.greenSphere (⟨0, -3, 0⟩ : Vec3 F) 1)).intersect ops downRay
      = some (2, ⟨0, 1, 0⟩) := by
  have h1 := hops.sqrt_one
  norm_num [Q3.Surface.intersect, Q3.Sphere.intersect, Q3.greenSphere, downRay, Vec3.dot,
    Vec3.normalize, h1]
  ext <;> norm_num [h1]

/-- The routine `Real.sqrt` is exact. -/
theorem real_sqrtExact : (⟨Real.sqrt, Real.rpow⟩ : FloatOps ℝ).SqrtExact :=
  ⟨fun x _ => Real.sqrt_nonneg x, fun _ hx => Real.mul_self_sqrt hx⟩

/-- Basic program, exact `sqrt`: in the scene of five surfaces the loop of `Scene::trace`
for the ray going straight down ends on the sphere, at position `2`, with `t = 2`. -/
theorem stackScene_nearest_Q1 {ops : FloatOps F} (hops : ops.SqrtExact) :
    (Q1.stackScene : Q1.Scene F).nearest ops downRay
      = ⟨2, some (2, .sphere (Q1.greenSphere ⟨0, -3, 0⟩ 1)), ⟨0, 1, 0⟩⟩ := by
  have h3 : (3 : F) < FLT_MAX := by norm_num [FLT_MAX]
  simp only [Q1.Scene.nearest, Q1.stackScene, traceLoop, greyPlane_above_downRay_Q1,
    greyPlane_downRay_at_Q1 ops 3 (by norm_num), greyPlane_downRay_at_Q1 ops 2 (by norm_num),
    greyPlane_downRay_at_Q1 ops 5 (by norm_num), sphere_downRay_Q1 hops, if_pos h3]
  norm_num

/-- Sampled program, exact `sqrt`: in the scene of five surfaces the loop of `Scene::trace`
for the ray going straight down ends on the sphere, at position `2`, with `t = 2`. -/
theorem stackScene_nearest_Q3 {ops : FloatOps F} (hops : ops.SqrtExact) :
    (Q3.stackScene : Q3.Scene F).nearest ops downRay
      = ⟨2, some (2, .sphere (Q3.greenSphere ⟨0, -3, 0⟩ 1)), ⟨0, 1, 0⟩⟩ := by
  have h3 : (3 : F) < FLT_MAX := by norm_num [FLT_MAX]
  simp only [Q3.Scene.nearest, Q3.stackScene, traceLoop, greyPlane_above_downRay_Q3,
    greyPlane_downRay_at_Q3 ops 3 (by norm_num), greyPlane_downRay_at_Q3 ops 2 (by norm_num),
    greyPlane_downRay_at_Q3 ops 5 (by norm_num), sphere_downRay_Q3 hops, if_pos h3]
  norm_num

/-- Witness for C3 over the reals: the scenes of five surfaces and the ray going straight
down.  The surfaces report no hit, `t = 3`, `t = 2`, `t = 2` and `t = 5` in list order; the
loop ends on the surface at position `2`, the first of the two that report the least
parameter, and not on the plane at position `3` that reports the same parameter. -/
theorem trace_shades_first_nearest_witness :
    ((∃ obj ∈ (Q1.stackScene : Q1.Scene ℝ).objects, ∃ t n,
        obj.intersect ⟨Real.sqrt, Real.rpow⟩ downRay = some (t, n) ∧ t < FLT_MAX) ∧
      (∃ i obj t n,
        FirstNearestHit (fun o : Q1.Surface ℝ => o.intersect ⟨Real.sqrt, Real.rpow⟩ downRay)
          (Q1.stackScene : Q1.Scene ℝ).objects i obj t n ∧
        (Q1.stackScene : Q1.Scene ℝ).nearest ⟨Real.sqrt, Real.rpow⟩ downRay
          = ⟨t, some (i, obj), n⟩ ∧
        (Q1.stackScene : Q1.Scene ℝ).trace ⟨Real.sqrt, Real.rpow⟩ downRay
          = clamp ((Q1.stackScene : Q1.Scene ℝ).shade ⟨Real.sqrt, Real.rpow⟩ downRay obj t n)
              0 1) ∧
      (Q1.stackScene : Q1.Scene ℝ).objects.map
          (fun o => (o.intersect ⟨Real.sqrt, Real.rpow⟩ downRay).map Prod.fst)
        = [none, some 3, some 2, some 2, some 5] ∧
      (Q1.stackScene : Q1.Scene ℝ).nearest ⟨Real.sqrt, Real.rpow⟩ downRay
        = ⟨2, some (2, .sphere (Q1.greenSphere ⟨0, -3, 0⟩ 1)), ⟨0, 1, 0⟩⟩) ∧
    ((∃ obj ∈ (Q3.stackScene : Q3.Scene ℝ).objects, ∃ t n,
        obj.intersect ⟨Real.sqrt, Real.rpow⟩ downRay = some (t, n) ∧ t < FLT_MAX) ∧
      (∃ i obj t n,
        FirstNearestHit (fun o : Q3.Surface ℝ => o.intersect ⟨Real.sqrt, Real.rpow⟩ downRay)
          (Q3.stackScene : Q3.Scene ℝ).objects i obj t n ∧
        (Q3.stackScene : Q3.Scene ℝ).nearest ⟨Real.sqrt, Real.rpow⟩ downRay
          = ⟨t, some (i, obj), n⟩ ∧
        (Q3.stackScene : Q3.Scene ℝ).trace ⟨Real.sqrt, Real.rpow⟩ {} downRay
          = Vec3.pow ⟨Real.sqrt, Real.rpow⟩
              (clamp ((Q3.stackScene : Q3.Scene ℝ).shade ⟨Real.sqrt, Real.rpow⟩ {} downRay
                obj t n) 0 1)
              (Vec3.splat (1 / ({} : Q3.Globals ℝ).Gamma))) ∧
      (Q3.stackScene : Q3.Scene ℝ).objects.map
          (fun o => (o.intersect ⟨Real.sqrt, Real.rpow⟩ downRay).map Prod.fst)
        = [none, some 3, some 2, some 2, some 5] ∧
      (Q3.stackScene : Q3.Scene ℝ).nearest ⟨Real.sqrt, Real.rpow⟩ downRay
        = ⟨2, some (2, .sphere (Q3.greenSphere ⟨0, -3, 0⟩ 1)), ⟨0, 1, 0⟩⟩) :=
  have h1 : ∃ obj ∈ (Q1.stackScene : Q1.Scene ℝ).objects, ∃ t n,
      obj.intersect ⟨Real.sqrt, Real.rpow⟩ downRay = some (t, n) ∧ t < FLT_MAX :=
    ⟨Q1.greyPlane 2, by simp [Q1.stackScene], 2, ⟨0, 1, 0⟩,
      greyPlane_downRay_at_Q1 _ 2 (by norm_num), two_lt_FLT_MAX⟩
  have h3 : ∃ obj ∈ (Q3.stackScene : Q3.Scene ℝ).objects, ∃ t n,
      obj.intersect ⟨Real.sqrt, Real.rpow⟩ downRay = some (t, n) ∧ t < FLT_MAX :=
    ⟨Q3.greyPlane 2, by simp [Q3.stackScene], 2, ⟨0, 1, 0⟩,
      greyPlane_downRay_at_Q3 _ 2 (by norm_num), two_lt_FLT_MAX⟩
  ⟨⟨h1,
      (trace_shades_first_nearest ⟨Real.sqrt, Real.rpow⟩ downRay Q1.stackScene Q3.stackScene
        {}).1 h1,
      by
        simp [Q1.stackScene, greyPlane_above_downRay_Q1,
          greyPlane_downRay_at_Q1 _ (3 : ℝ) (by norm_num),
          greyPlane_downRay_at_Q1 _ (2 : ℝ) (by norm_num),
          greyPlane_downRay_at_Q1 _ (5 : ℝ) (by norm_num), sphere_downRay_Q1 real_sqrtExact],
      stackScene_nearest_Q1 real_sqrtExact⟩,
    ⟨h3,
      (trace_shades_first_nearest ⟨Real.sqrt, Real.rpow⟩ downRay Q1.stackScene Q3.stackScene
        {}).2 h3,
      by
        simp [Q3.stackScene, greyPlane_above_downRay_Q3,
          greyPlane_downRay_at_Q3 _ (3 : ℝ) (by norm_num),
          greyPlane_downRay_at_Q3 _ (2 : ℝ) (by norm_num),
          greyPlane_downRay_at_Q3 _ (5 : ℝ) (by norm_num), sphere_downRay_Q3 real_sqrtExact],
      stackScene_nearest_Q3 real_sqrtExact⟩⟩

end StackTheorems

/-! ## Range of the output values -/

section RangeTheorems

variable {F : Type} [LinearOrderedField F]

end RangeTheorems

/-! ## Layout of the output buffer -/

section LayoutTheorems

variable {F : Type} [LinearOrderedField F]

/-- Length of the concatenation of `n` blocks of length `m`. -/
theorem length_flatMap_range {α : Type} (f : Nat → List α) (m : Nat)
    (hlen : ∀ k, (f k).length = m) (n : Nat) :
    ((List.range n).flatMap f).length = n * m := by
  induction n with
  | zero => simp
  | succ n ih =>
    rw [List.range_succ, List.flatMap_append, List.length_append, ih, List.flatMap_singleton,
      hlen, Nat.succ_mul]

/-- Entry `r` of block `k` in the concatenation of `n` blocks of length `m`. -/
theorem getElem?_flatMap_range {α : Type} (f : Nat → List α) (m : Nat)
    (hlen : ∀ k, (f k).length = m) (n k r : Nat) (hk : k < n) (hr : r < m) :
    ((List.range n).flatMap f)[k * m + r]? = (f k)[r]? := by
  induction n with
  | zero => omega
  | succ n ih =>
    rw [List.range_succ, List.flatMap_append, List.flatMap_singleton]
    have hl := length_flatMap_range f m hlen n
    by_cases hkn : k < n
    · have hlt : k * m + r < ((List.range n).flatMap f).length := by
        rw [hl]
        calc k * m + r < k * m + m := by omega
          _ = (k + 1) * m := by rw [Nat.succ_mul]
          _ ≤ n * m := Nat.mul_le_mul_right m hkn
      rw [List.getElem?_append_left hlt]
      exact ih hkn
    · have hkeq : k = n := by omega
      subst hkeq
      have hge : ((List.range k).flatMap f).length ≤ k * m + r := by
        rw [hl]
        omega
      rw [List.getElem?_append_right hge, hl, Nat.add_sub_cancel_left]

/-- A loop over `0 .. n-1` whose body appends a block to the buffer builds the
concatenation of the blocks. -/
theorem foldl_append_blocks {α ι : Type} (c : Nat → ι) (f : ι → List α)
    (step : List α → ι → List α) (hstep : ∀ out i, step out i = out ++ f i) :
    ∀ (n : Nat) (out : List α),
      ((List.range n).map c).foldl step out = out ++ (List.range n).flatMap (fun k => f (c k)) := by
  intro n
  induction n with
  | zero => intro out; simp
  | succ n ih =>
    intro out
    rw [List.range_succ, List.map_append, List.foldl_append, ih, List.flatMap_append,
      List.map_singleton, List.foldl_cons, List.foldl_nil, hstep, List.flatMap_singleton,
      List.append_assoc]

/-- A loop over `0 .. n-1` whose body appends a block to the buffer and advances a state
builds the concatenation of the blocks, block `k` being computed in the state advanced `k`
times. -/
theorem foldl_append_blocks_state {α ι G : Type} (c : Nat → ι) (f : ι → G → List α)
    (nxt : G → G) (step : List α × G → ι → List α × G)
    (hstep : ∀ st i, step st i = (st.1 ++ f i st.2, nxt st.2)) :
    ∀ (n : Nat) (out : List α) (gen : G),
      ((List.range n).map c).foldl step (out, gen)
        = (out ++ (List.range n).flatMap (fun k => f (c k) (nxt^[k] gen)), nxt^[n] gen) := by
  intro n
  induction n with
  | zero => intro out gen; simp
  | succ n ih =>
    intro out gen
    rw [List.range_succ, List.map_append, List.foldl_append, ih, List.flatMap_append,
      List.map_singleton, List.foldl_cons, List.foldl_nil, hstep, List.flatMap_singleton,
      List.append_assoc, Function.iterate_succ_apply']

/-- A colour has three channels. -/
theorem channels_length {K : Type} (c : Vec3 K) : (channels c).length = 3 := rfl

/-- Basic program: `render` builds the concatenation, over the rows `j` and then the
columns `i`, of the three channels of the traced colour of the pixel `(i, j)`. -/
theorem render_eq_blocks_Q1 (ops : FloatOps F) (g : Q1.Globals) (out : List F) :
    Q1.render ops g out
      = (List.range g.Height.toNat).flatMap (fun j =>
          (List.range g.Width.toNat).flatMap (fun i =>
            channels ((Q1.renderScene ops).trace ops
              (({} : Q1.Camera F).getRay ops (Int.ofNat i) (Int.ofNat j))))) := by
  unfold Q1.render
  simp only [clear]
  rw [foldl_append_blocks Int.ofNat
    (fun j : Int => (List.range g.Width.toNat).flatMap (fun i =>
      channels ((Q1.renderScene ops).trace ops (({} : Q1.Camera F).getRay ops (Int.ofNat i) j))))
    (Q1.renderRow ops g {} (Q1.renderScene ops))]
  · simp
  · intro buf j
    unfold Q1.renderRow
    rw [foldl_append_blocks Int.ofNat
      (fun i : Int => channels ((Q1.renderScene ops).trace ops
        (({} : Q1.Camera F).getRay ops i j)))
      (Q1.renderPixel ops {} (Q1.renderScene ops) j)]
    intro buf' i
    simp [Q1.renderPixel, channels]

/-- Two advances of the random engine add up. -/
theorem advance_advance {G K : Type} (randf : G → K × G) (a b : Nat) (gen : G) :
    advance randf a (advance randf b gen) = advance randf (a + b) gen := by
  unfold advance
  rw [Function.iterate_add_apply]

/-- Repeating `k` times an advance of `a` draws is an advance of `a * k` draws. -/
theorem advance_iterate {G K : Type} (randf : G → K × G) (a k : Nat) (gen : G) :
    (advance randf a)^[k] gen = advance randf (a * k) gen := by
  unfold advance
  rw [Function.iterate_mul]

/-- Sampled program: the sample loop over `l` draws `2 * length l` numbers. -/
theorem sampleLoop_gen {G : Type} (ops : FloatOps F) (randf : G → F × G) (g : Q3.Globals F)
    (camera : Q3.Camera F) (scene : Q3.Scene F) (i j : Int) :
    ∀ (l : List Nat) (acc : Vec3 F × G),
      (l.foldl (Q3.renderSample ops randf g camera scene i j) acc).2
        = advance randf (2 * l.length) acc.2 := by
  intro l
  induction l with
  | nil => intro acc; rfl
  | cons s l ih =>
    intro acc
    rw [List.foldl_cons, ih]
    have h2 : (Q3.renderSample ops randf g camera scene i j acc s).2
        = advance randf 2 acc.2 := rfl
    rw [h2, advance_advance, List.length_cons, Nat.mul_succ]

/-- Sampled program: a pixel draws `2 * SamplesPerPixel` numbers. -/
theorem pixelColor_gen {G : Type} (ops : FloatOps F) (randf : G → F × G) (g : Q3.Globals F)
    (camera : Q3.Camera F) (scene : Q3.Scene F) (i j : Int) (gen : G) :
    (Q3.pixelColor ops randf g camera scene i j gen).2
      = advance randf (2 * g.SamplesPerPixel.toNat) gen := by
  unfold Q3.pixelColor
  simp only []
  rw [sampleLoop_gen, List.length_range]

/-- Sampled program: `render` builds the concatenation, over the rows `j` and then the
columns `i`, of the three channels of the averaged colour of the pixel `(i, j)`, computed
with the random engine advanced by the draws of the pixels before it. -/
theorem render_eq_blocks_Q3 {G : Type} (ops : FloatOps F) (randf : G → F × G)
    (g : Q3.Globals F) (st : List F × G) :
    (Q3.render ops randf g st).1
      = (List.range g.Height.toNat).flatMap (fun j =>
          (List.range g.Width.toNat).flatMap (fun i =>
            channels (Q3.pixelColor ops randf g {} (Q3.renderScene ops)
              (Int.ofNat i) (Int.ofNat j)
              (advance randf (2 * g.SamplesPerPixel.toNat * (j * g.Width.toNat + i)) st.2)).1)) := by
  have hrow : ∀ (s : List F × G) (j : Int),
      Q3.renderRow ops randf g {} (Q3.renderScene ops) s j
        = (s.1 ++ (List.range g.Width.toNat).flatMap (fun k =>
            channels (Q3.pixelColor ops randf g {} (Q3.renderScene ops) (Int.ofNat k) j
              ((advance randf (2 * g.SamplesPerPixel.toNat))^[k] s.2)).1),
          (advance randf (2 * g.SamplesPerPixel.toNat))^[g.Width.toNat] s.2) := by
    intro s j
    unfold Q3.renderRow
    rw [show s = (s.1, s.2) from rfl]
    rw [foldl_append_blocks_state Int.ofNat
      (fun (i : Int) (gen : G) =>
        channels (Q3.pixelColor ops randf g {} (Q3.renderScene ops) i j gen).1)
      (advance randf (2 * g.SamplesPerPixel.toNat))
      (Q3.renderPixel ops randf g {} (Q3.renderScene ops) j)]
    intro s' i
    simp [Q3.renderPixel, channels, pixelColor_gen]
  unfold Q3.render
  simp only [clear]
  rw [foldl_append_blocks_state Int.ofNat
    (fun (j : Int) (gen : G) => (List.range g.Width.toNat).flatMap (fun k =>
      channels (Q3.pixelColor ops randf g {} (Q3.renderScene ops) (Int.ofNat k) j
        ((advance randf (2 * g.SamplesPerPixel.toNat))^[k] gen)).1))
    ((advance randf (2 * g.SamplesPerPixel.toNat))^[g.Width.toNat])
    (Q3.renderRow ops randf g {} (Q3.renderScene ops)) hrow]
  simp only [List.nil_append]
  congr 1
  funext j
  congr 1
  funext i
  rw [advance_iterate, ← Function.iterate_mul, advance_iterate, advance_advance]
  have harith : 2 * g.SamplesPerPixel.toNat * i
        + 2 * g.SamplesPerPixel.toNat * (g.Width.toNat * j)
      = 2 * g.SamplesPerPixel.toNat * (j * g.Width.toNat + i) := by ring
  rw [harith]

/-- Length of a buffer made of `H` rows of `W` pixels of three channels. -/
theorem length_pixel_blocks {K : Type} (color : Nat → Nat → Vec3 K) (W H : Nat) :
    ((List.range H).flatMap (fun j =>
      (List.range W).flatMap (fun i => channels (color i j)))).length = H * (W * 3) :=
  length_flatMap_range _ (W * 3)
    (fun j => length_flatMap_range (fun i => channels (color i j)) 3 (fun _ => rfl) W) H

/-- Channel `c` of the pixel `(i, j)` in a buffer made of `H` rows of `W` pixels of three
channels is at the index `3 * (j * W + i) + c`. -/
theorem getElem?_pixel_blocks {K : Type} (color : Nat → Nat → Vec3 K) (W H i j c : Nat)
    (hi : i < W)
    (hj : j < H) (hc : c < 3) :
    ((List.range H).flatMap (fun j =>
      (List.range W).flatMap (fun i => channels (color i j))))[3 * (j * W + i) + c]?
      = (channels (color i j))[c]? := by
  have hidx : 3 * (j * W + i) + c = j * (W * 3) + (i * 3 + c) := by ring
  rw [hidx, getElem?_flatMap_range
    (fun j => (List.range W).flatMap (fun i => channels (color i j))) (W * 3)
    (fun j => length_flatMap_range (fun i => channels (color i j)) 3 (fun _ => rfl) W)
    H j (i * 3 + c) hj (by omega)]
  exact getElem?_flatMap_range (fun i => channels (color i j)) 3 (fun _ => rfl) W i c hi hc

/-- The three channels of the pixel `(i, j)` in a buffer made of `H` rows of `W` pixels. -/
theorem pixel_blocks_triplet {K : Type} (color : Nat → Nat → Vec3 K) (W H i j : Nat)
    (hi : i < W) (hj : j < H) (buf : List K)
    (hbuf : buf = (List.range H).flatMap (fun j =>
      (List.range W).flatMap (fun i => channels (color i j)))) :
    buf[3 * (j * W + i)]? = some (color i j).x ∧
      buf[3 * (j * W + i) + 1]? = some (color i j).y ∧
      buf[3 * (j * W + i) + 2]? = some (color i j).z := by
  subst hbuf
  have h0 := getElem?_pixel_blocks color W H i j 0 hi hj (by omega)
  have h1 := getElem?_pixel_blocks color W H i j 1 hi hj (by omega)
  have h2 := getElem?_pixel_blocks color W H i j 2 hi hj (by omega)
  rw [Nat.add_zero] at h0
  exact ⟨h0, h1, h2⟩

/-- Length `Width * Height * 3` of a buffer of `Height` rows of `Width` pixels. -/
theorem length_cast (W H : Int) (hW : 1 ≤ W) (hH : 1 ≤ H) (n : Nat)
    (hn : n = H.toNat * (W.toNat * 3)) : (n : Int) = W * H * 3 := by
  subst hn
  push_cast
  rw [Int.toNat_of_nonneg (by omega : (0 : Int) ≤ W),
    Int.toNat_of_nonneg (by omega : (0 : Int) ≤ H)]
  ring

/-- Claim C7.  In both programs, for `Width ≥ 1` and `Height ≥ 1` and whatever the buffer
held before, `render` leaves a buffer of length `Width * Height * 3` in which the pixel
`(i, j)`, `0 ≤ i < Width`, `0 ≤ j < Height`, has its `r`, `g`, `b` values at the indices
`3 * (j * Width + i)`, `3 * (j * Width + i) + 1` and `3 * (j * Width + i) + 2`.  The
pixel's colour is the traced colour of `getRay(i, j)` in the basic program, and in the
sampled program the average computed by the sample loop with the random engine advanced by
the `2 * SamplesPerPixel` draws of each pixel before it in row-major order. -/
theorem render_buffer_layout {G : Type} (ops : FloatOps F) (randf : G → F × G)
    (g1 : Q1.Globals) (g3 : Q3.Globals F) (out : List F) (st : List F × G) :
    (1 ≤ g1.Width → 1 ≤ g1.Height →
      ((Q1.render ops g1 out).length : Int) = g1.Width * g1.Height * 3 ∧
      ∀ i j : Nat, (i : Int) < g1.Width → (j : Int) < g1.Height →
        (Q1.render ops g1 out)[3 * (j * g1.Width.toNat + i)]?
          = some ((Q1.renderScene ops).trace ops (({} : Q1.Camera F).getRay ops i j)).x ∧
        (Q1.render ops g1 out)[3 * (j * g1.Width.toNat + i) + 1]?
          = some ((Q1.renderScene ops).trace ops (({} : Q1.Camera F).getRay ops i j)).y ∧
        (Q1.render ops g1 out)[3 * (j * g1.Width.toNat + i) + 2]?
          = some ((Q1.renderScene ops).trace ops (({} : Q1.Camera F).getRay ops i j)).z) ∧
    (1 ≤ g3.Width → 1 ≤ g3.Height →
      ((Q3.render ops randf g3 st).1.length : Int) = g3.Width * g3.Height * 3 ∧
      ∀ i j : Nat, (i : Int) < g3.Width → (j : Int) < g3.Height →
        (Q3.render ops randf g3 st).1[3 * (j * g3.Width.toNat + i)]?
          = some (Q3.pixelColor ops randf g3 {} (Q3.renderScene ops) i j
              (advance randf (2 * g3.SamplesPerPixel.toNat * (j * g3.Width.toNat + i))
                st.2)).1.x ∧
        (Q3.render ops randf g3 st).1[3 * (j * g3.Width.toNat + i) + 1]?
          = some (Q3.pixelColor ops randf g3 {} (Q3.renderScene ops) i j
              (advance randf (2 * g3.SamplesPerPixel.toNat * (j * g3.Width.toNat + i))
                st.2)).1.y ∧
        (Q3.render ops randf g3 st).1[3 * (j * g3.Width.toNat + i) + 2]?
          = some (Q3.pixelColor ops randf g3 {} (Q3.renderScene ops) i j
              (advance randf (2 * g3.SamplesPerPixel.toNat * (j * g3.Width.toNat + i))
                st.2)).1.z) := by
  constructor
  · intro hW hH
    have hbuf := render_eq_blocks_Q1 ops g1 out
    refine ⟨?_, ?_⟩
    · apply length_cast _ _ hW hH
      rw [hbuf]
      exact length_pixel_blocks _ _ _
    · intro i j hi hj
      exact pixel_blocks_triplet
        (fun i j => (Q1.renderScene ops).trace ops
          (({} : Q1.Camera F).getRay ops (Int.ofNat i) (Int.ofNat j)))
        g1.Width.toNat g1.Height.toNat i j (by omega) (by omega) _ hbuf
  · intro hW hH
    have hbuf := render_eq_blocks_Q3 ops randf g3 st
    refine ⟨?_, ?_⟩
    · apply length_cast _ _ hW hH
      rw [hbuf]
      exact length_pixel_blocks _ _ _
    · intro i j hi hj
      exact pixel_blocks_triplet
        (fun i j => (Q3.pixelColor ops randf g3 {} (Q3.renderScene ops)
          (Int.ofNat i) (Int.ofNat j)
          (advance randf (2 * g3.SamplesPerPixel.toNat * (j * g3.Width.toNat + i)) st.2)).1)
        g3.Width.toNat g3.Height.toNat i j (by omega) (by omega) _ hbuf

/-- Resolution `2 × 1` of the basic program. -/
theorem twoByOne_Q1_width : (1 : Int) ≤ Q1.twoByOne.Width ∧ (1 : Int) ≤ Q1.twoByOne.Height := by
  decide

/-- Witness for C7 over the reals: both programs at the resolution `2 × 1`, started on a
buffer that holds three values, with a random engine that counts its draws; the length is
`6` and the pixel `(1, 0)` starts at the index `3`. -/
theorem render_buffer_layout_witness :
    ((1 : Int) ≤ Q1.twoByOne.Width ∧ (1 : Int) ≤ Q1.twoByOne.Height) ∧
      (((Q1.render (⟨Real.sqrt, Real.rpow⟩ : FloatOps ℝ) Q1.twoByOne [1, 1, 1]).length : Int)
          = 2 * 1 * 3 ∧
        (Q1.render (⟨Real.sqrt, Real.rpow⟩ : FloatOps ℝ) Q1.twoByOne [1, 1, 1])[3]?
          = some ((Q1.renderScene ⟨Real.sqrt, Real.rpow⟩).trace ⟨Real.sqrt, Real.rpow⟩
              (({} : Q1.Camera ℝ).getRay ⟨Real.sqrt, Real.rpow⟩ 1 0)).x) ∧
      (((Q3.render (⟨Real.sqrt, Real.rpow⟩ : FloatOps ℝ) (fun n : Nat => ((1 / 2 : ℝ), n + 1))
          Q3.twoByOne ([1, 1, 1], 0)).1.length : Int) = 2 * 1 * 3 ∧
        (Q3.render (⟨Real.sqrt, Real.rpow⟩ : FloatOps ℝ) (fun n : Nat => ((1 / 2 : ℝ), n + 1))
          Q3.twoByOne ([1, 1, 1], 0)).1[3]?
          = some (Q3.pixelColor ⟨Real.sqrt, Real.rpow⟩ (fun n : Nat => ((1 / 2 : ℝ), n + 1))
              Q3.twoByOne {} (Q3.renderScene ⟨Real.sqrt, Real.rpow⟩) 1 0
              (advance (fun n : Nat => ((1 / 2 : ℝ), n + 1)) 128 0)).1.x) :=
  have h := render_buffer_layout (⟨Real.sqrt, Real.rpow⟩ : FloatOps ℝ)
    (fun n : Nat => ((1 / 2 : ℝ), n + 1)) Q1.twoByOne Q3.twoByOne [1, 1, 1] ([1, 1, 1], 0)
  ⟨twoByOne_Q1_width,
    ⟨(h.1 (by decide) (by decide)).1,
      ((h.1 (by decide) (by decide)).2 1 0 (by decide) (by decide)).1⟩,
    ⟨(h.2 (by decide) (by decide)).1,
      ((h.2 (by decide) (by decide)).2 1 0 (by decide) (by decide)).1⟩⟩

end LayoutTheorems

/-! ## Plane hits -/

section PlaneHitTheorems

variable {F : Type} [LinearOrderedField F]

/-- A number of absolute value at least `1e-5` is not zero. -/
theorem ne_zero_of_not_abs_lt (x : F) (h : ¬ |x| < 1 / 100000) : x ≠ 0 := by
  intro hx
  apply h
  rw [hx, abs_zero]
  norm_num

/-- The plane equation at the point of parameter `t` of a ray. -/
theorem plane_equation_at (n o dir : Vec3 F) (d t : F) :
    dot n (o + t • dir) + d = dot n o + d + t * dot n dir := by
  simp only [Vec3.dot, Vec3.add_x, Vec3.add_y, Vec3.add_z, Vec3.smul_x, Vec3.smul_y,
    Vec3.smul_z]
  ring

/-- The parameter `-(a) / b` solves `a + t * b = 0` when `b` is not zero. -/
theorem plane_root (a b : F) (hb : b ≠ 0) : a + -a / b * b = 0 := by
  field_simp

/-- Claim C11.  In both programs, a hit reported by `Plane::intersect` has
`t = -(dot(n, origin) + d) / dot(n, direction)`, the point `origin + t * direction`
satisfies `dot(n, point) + d = 0`, and the returned normal is the stored normal `n`,
whatever the sign of `dot(n, direction)`.  (The normal need not be a unit vector.) -/
theorem plane_hit_on_plane (ray : Ray F) (t : F) (nrm : Vec3 F)
    (pl1 : Q1.Plane F) (pl3 : Q3.Plane F) :
    (pl1.intersect ray = some (t, nrm) →
      t = -(dot pl1.normalVec ray.origin + pl1.d) / dot pl1.normalVec ray.direction ∧
      dot pl1.normalVec (ray.pointAt t) + pl1.d = 0 ∧ nrm = pl1.normalVec) ∧
    (pl3.intersect ray = some (t, nrm) →
      t = -(dot pl3.normalDir ray.origin + pl3.d) / dot pl3.normalDir ray.direction ∧
      dot pl3.normalDir (ray.pointAt t) + pl3.d = 0 ∧ nrm = pl3.normalDir) := by
  constructor
  · intro h
    simp only [Q1.Plane.intersect] at h
    split_ifs at h with h1 h2
    simp only [Option.some.injEq, Prod.mk.injEq] at h
    obtain ⟨ht, hn⟩ := h
    refine ⟨ht.symm, ?_, hn.symm⟩
    rw [← ht, Ray.pointAt, plane_equation_at]
    exact plane_root _ _ (ne_zero_of_not_abs_lt _ h1)
  · intro h
    simp only [Q3.Plane.intersect] at h
    split_ifs at h with h1 h2
    simp only [Option.some.injEq, Prod.mk.injEq] at h
    obtain ⟨ht, hn⟩ := h
    refine ⟨ht.symm, ?_, hn.symm⟩
    rw [← ht, Ray.pointAt, plane_equation_at]
    exact plane_root _ _ (ne_zero_of_not_abs_lt _ h1)

/-- The floor plane is hit at `t = 3` from below by the rising ray (basic program). -/
theorem floorPlane_risingRay_Q1 :
    (Q1.floorPlane : Q1.Plane F).intersect risingRay = some (3, ⟨0, 1, 0⟩) := by
  norm_num [Q1.floorPlane, Q1.Plane.intersect, risingRay, Vec3.dot]

/-- The floor plane is hit at `t = 3` from below by the rising ray (sampled program). -/
theorem floorPlane_risingRay_Q3 :
    (Q3.floorPlane : Q3.Plane F).intersect risingRay = some (3, ⟨0, 1, 0⟩) := by
  norm_num [Q3.floorPlane, Q3.Plane.intersect, risingRay, Vec3.dot]

/-- Witness for C11 over the rationals: the floor `y = -2` reached from below, where
`dot(n, direction) = 1 > 0`; the normal stays `(0, 1, 0)`. -/
theorem plane_hit_on_plane_witness :
    (Q1.floorPlane : Q1.Plane ℚ).intersect risingRay = some (3, ⟨0, 1, 0⟩) ∧
      (0 : ℚ) < dot (Q1.floorPlane : Q1.Plane ℚ).normalVec (risingRay : Ray ℚ).direction ∧
      ((3 : ℚ) = -(dot (Q1.floorPlane : Q1.Plane ℚ).normalVec (risingRay : Ray ℚ).origin
            + (Q1.floorPlane : Q1.Plane ℚ).d)
          / dot (Q1.floorPlane : Q1.Plane ℚ).normalVec (risingRay : Ray ℚ).direction ∧
        dot (Q1.floorPlane : Q1.Plane ℚ).normalVec ((risingRay : Ray ℚ).pointAt 3)
          + (Q1.floorPlane : Q1.Plane ℚ).d = 0 ∧
        (⟨0, 1, 0⟩ : Vec3 ℚ) = (Q1.floorPlane : Q1.Plane ℚ).normalVec) ∧
      (Q3.floorPlane : Q3.Plane ℚ).intersect risingRay = some (3, ⟨0, 1, 0⟩) ∧
      ((3 : ℚ) = -(dot (Q3.floorPlane : Q3.Plane ℚ).normalDir (risingRay : Ray ℚ).origin
            + (Q3.floorPlane : Q3.Plane ℚ).d)
          / dot (Q3.floorPlane : Q3.Plane ℚ).normalDir (risingRay : Ray ℚ).direction ∧
        dot (Q3.floorPlane : Q3.Plane ℚ).normalDir ((risingRay : Ray ℚ).pointAt 3)
          + (Q3.floorPlane : Q3.Plane ℚ).d = 0 ∧
        (⟨0, 1, 0⟩ : Vec3 ℚ) = (Q3.floorPlane : Q3.Plane ℚ).normalDir) :=
  ⟨floorPlane_risingRay_Q1,
    by norm_num [Q1.floorPlane, risingRay, Vec3.dot],
    (plane_hit_on_plane (risingRay : Ray ℚ) 3 ⟨0, 1, 0⟩ Q1.floorPlane Q3.floorPlane).1
      floorPlane_risingRay_Q1,
    floorPlane_risingRay_Q3,
    (plane_hit_on_plane (risingRay : Ray ℚ) 3 ⟨0, 1, 0⟩ Q1.floorPlane Q3.floorPlane).2
      floorPlane_risingRay_Q3⟩

/-- Claim C12.  In both programs, for a ray with `|dot(normal, direction)| < 1e-5`,
`Plane::intersect` reports no hit, whatever the origin and the offset, and performs no
division: the form of the method with the division made explicit returns "no hit" for
every division routine, also one that always fails.  That form agrees with
`Plane::intersect` when the division is the division of the field. -/
theorem plane_parallel_no_hit (ray : Ray F) (pl1 : Q1.Plane F) (pl3 : Q3.Plane F) :
    (|dot pl1.normalVec ray.direction| < 1 / 100000 →
      pl1.intersect ray = none ∧
      ∀ div : F → F → Option F, pl1.intersectChecked div ray = some none) ∧
    (|dot pl3.normalDir ray.direction| < 1 / 100000 →
      pl3.intersect ray = none ∧
      ∀ div : F → F → Option F, pl3.intersectChecked div ray = some none) ∧
    pl1.intersectChecked (fun a b => some (a / b)) ray = some (pl1.intersect ray) ∧
    pl3.intersectChecked (fun a b => some (a / b)) ray = some (pl3.intersect ray) := by
  refine ⟨?_, ?_, ?_, ?_⟩
  · intro h
    refine ⟨?_, fun div => ?_⟩
    · simp only [Q1.Plane.intersect, if_pos h]
    · simp only [Q1.Plane.intersectChecked, if_pos h]
  · intro h
    refine ⟨?_, fun div => ?_⟩
    · simp only [Q3.Plane.intersect, if_pos h]
    · simp only [Q3.Plane.intersectChecked, if_pos h]
  · simp only [Q1.Plane.intersectChecked, Q1.Plane.intersect]
    split_ifs <;> rfl
  · simp only [Q3.Plane.intersectChecked, Q3.Plane.intersect]
    split_ifs <;> rfl

/-- Witness for C12 over the rationals: the floor `y = -2` and a ray along `+x` whose
origin lies on the plane; the division routine always fails. -/
theorem plane_parallel_no_hit_witness :
    |dot (Q1.floorPlane : Q1.Plane ℚ).normalVec (sideRay : Ray ℚ).direction| < 1 / 100000 ∧
      (Q1.floorPlane : Q1.Plane ℚ).intersect sideRay = none ∧
      (Q1.floorPlane : Q1.Plane ℚ).intersectChecked (fun _ _ => none) sideRay = some none ∧
      (Q3.floorPlane : Q3.Plane ℚ).intersect sideRay = none ∧
      (Q3.floorPlane : Q3.Plane ℚ).intersectChecked (fun _ _ => none) sideRay = some none :=
  have h1 : |dot (Q1.floorPlane : Q1.Plane ℚ).normalVec (sideRay : Ray ℚ).direction|
      < 1 / 100000 := by
    norm_num [Q1.floorPlane, sideRay, Vec3.dot]
  have h3 : |dot (Q3.floorPlane : Q3.Plane ℚ).normalDir (sideRay : Ray ℚ).direction|
      < 1 / 100000 := by
    norm_num [Q3.floorPlane, sideRay, Vec3.dot]
  ⟨h1,
    ((plane_parallel_no_hit (sideRay : Ray ℚ) Q1.floorPlane Q3.floorPlane).1 h1).1,
    ((plane_parallel_no_hit (sideRay : Ray ℚ) Q1.floorPlane Q3.floorPlane).1 h1).2 _,
    ((plane_parallel_no_hit (sideRay : Ray ℚ) Q1.floorPlane Q3.floorPlane).2.1 h3).1,
    ((plane_parallel_no_hit (sideRay : Ray ℚ) Q1.floorPlane Q3.floorPlane).2.1 h3).2 _⟩

end PlaneHitTheorems

/-! ## Camera rays -/

section CameraTheorems

variable {F : Type} [LinearOrderedField F]

/-- A vector of squared length zero is the zero vector. -/
theorem eq_zero_of_dot_self_eq_zero (v : Vec3 F) (h : dot v v = 0) : v = ⟨0, 0, 0⟩ := by
  simp only [Vec3.dot] at h
  have hx : v.x * v.x = 0 := by
    nlinarith [mul_self_nonneg v.x, mul_self_nonneg v.y, mul_self_nonneg v.z]
  have hy : v.y * v.y = 0 := by
    nlinarith [mul_self_nonneg v.x, mul_self_nonneg v.y, mul_self_nonneg v.z]
  have hz : v.z * v.z = 0 := by
    nlinarith [mul_self_nonneg v.x, mul_self_nonneg v.y, mul_self_nonneg v.z]
  ext
  · exact mul_self_eq_zero.mp hx
  · exact mul_self_eq_zero.mp hy
  · exact mul_self_eq_zero.mp hz

/-- Normalising the zero vector gives the zero vector (a quotient by zero is zero in a
field). -/
theorem normalize_zero (ops : FloatOps F) : normalize ops (⟨0, 0, 0⟩ : Vec3 F) = ⟨0, 0, 0⟩ := by
  unfold Vec3.normalize
  ext <;> simp

/-- With an exact `sqrt`, normalising twice is normalising once. -/
theorem normalize_normalize {ops : FloatOps F} (hops : ops.SqrtExact) (v : Vec3 F) :
    normalize ops (normalize ops v) = normalize ops v := by
  have h0 := Vec3.dot_self_nonneg v
  rcases eq_or_lt_of_le h0 with h | h
  · rw [eq_zero_of_dot_self_eq_zero v h.symm, normalize_zero, normalize_zero]
  · have hs0 := hops.sqrt_nonneg _ h0
    have hss := hops.sqrt_mul_self _ h0
    have hpos : 0 < ops.sqrt (dot v v) := by
      rcases eq_or_lt_of_le hs0 with hz | hz
      · rw [← hz] at hss
        linarith
      · exact hz
    exact normalize_of_unit hops _ (dot_normalize_self hops v hpos)

/-- Claim C14.  For every camera and integer pixel `(i, j)`, `Camera::getRay(i, j)` of the
basic program is `Camera::getRay(i + 0.5, j + 0.5)` of the sampled program for the camera
with the same members; with an exact `sqrt` it is the ray with origin `e` and direction
`normalize(u_s * u + v_s * v - d * w)`, where `u_s = l + (r - l) * (i + 0.5) / nx` and
`v_s = b + (t - b) * (j + 0.5) / ny` (the constructor of `Ray` normalises once more, which
changes nothing). -/
theorem getRay_through_pixel_center (ops : FloatOps F) (e u v w : Vec3 F) (l r b t d : F)
    (nx ny i j : Int) :
    Q1.Camera.getRay ops ⟨e, u, v, w, l, r, b, t, d, nx, ny⟩ i j
        = Q3.Camera.getRay ops ⟨e, u, v, w, l, r, b, t, d, nx, ny⟩
            ((i : F) + 1 / 2) ((j : F) + 1 / 2) ∧
      (ops.SqrtExact →
        Q1.Camera.getRay ops ⟨e, u, v, w, l, r, b, t, d, nx, ny⟩ i j
          = ⟨e, normalize ops ((l + (r - l) * ((i : F) + 1 / 2) / (nx : F)) • u
              + (b + (t - b) * ((j : F) + 1 / 2) / (ny : F)) • v - d • w)⟩) := by
  refine ⟨rfl, fun hops => ?_⟩
  simp only [Q1.Camera.getRay, Q1.Camera.u_s, Q1.Camera.v_s, Ray.new,
    normalize_normalize hops]

/-- Witness for C14 over the reals: the camera of `render` and the pixel `(256, 256)`. -/
theorem getRay_through_pixel_center_witness :
    Q1.Camera.getRay (⟨Real.sqrt, Real.rpow⟩ : FloatOps ℝ) {} 256 256
      = ⟨⟨0, 0, 0⟩, normalize ⟨Real.sqrt, Real.rpow⟩
          ((-(1 / 10) + (1 / 10 - -(1 / 10)) * (((256 : Int) : ℝ) + 1 / 2) / ((512 : Int) : ℝ))
              • (⟨1, 0, 0⟩ : Vec3 ℝ)
            + (-(1 / 10) + (1 / 10 - -(1 / 10)) * (((256 : Int) : ℝ) + 1 / 2)
                / ((512 : Int) : ℝ)) • (⟨0, 1, 0⟩ : Vec3 ℝ)
            - (1 / 10 : ℝ) • (⟨0, 0, 1⟩ : Vec3 ℝ))⟩ :=
  (getRay_through_pixel_center (⟨Real.sqrt, Real.rpow⟩ : FloatOps ℝ) ⟨0, 0, 0⟩ ⟨1, 0, 0⟩
    ⟨0, 1, 0⟩ ⟨0, 0, 1⟩ (-(1 / 10)) (1 / 10) (-(1 / 10)) (1 / 10) (1 / 10) 512 512 256 256).2
    ⟨fun x _ => Real.sqrt_nonneg x, fun _ hx => Real.mul_self_sqrt hx⟩

/-- Claim C19, as amended.  With the camera that `render` constructs (`nx = ny = 512`,
`l = b = -0.1`, `r = t = 0.1`), for every resolution `1 ≤ Width ≤ 512`, `1 ≤ Height ≤ 512`
and pixel `0 ≤ i < Width`, `0 ≤ j < Height`, the image-plane coordinates of the basic
program satisfy `l ≤ u_s ≤ r` and `b ≤ v_s ≤ t`. -/
theorem pixel_ray_within_image_plane (g : Q1.Globals) (i j : Int)
    (hW : 1 ≤ g.Width) (hW' : g.Width ≤ 512) (hH : 1 ≤ g.Height) (hH' : g.Height ≤ 512)
    (hi : 0 ≤ i) (hi' : i < g.Width) (hj : 0 ≤ j) (hj' : j < g.Height) :
    (({} : Q1.Camera F).l ≤ ({} : Q1.Camera F).u_s i ∧
        ({} : Q1.Camera F).u_s i ≤ ({} : Q1.Camera F).r) ∧
      (({} : Q1.Camera F).b ≤ ({} : Q1.Camera F).v_s j ∧
        ({} : Q1.Camera F).v_s j ≤ ({} : Q1.Camera F).t) := by
  have hi0 : (0 : F) ≤ (i : F) := by exact_mod_cast hi
  have hj0 : (0 : F) ≤ (j : F) := by exact_mod_cast hj
  have hi1 : (i : F) ≤ 511 := by
    have : i ≤ 511 := by omega
    exact_mod_cast this
  have hj1 : (j : F) ≤ 511 := by
    have : j ≤ 511 := by omega
    exact_mod_cast this
  simp only [Q1.Camera.u_s, Q1.Camera.v_s]
  norm_num
  refine ⟨⟨?_, ?_⟩, ⟨?_, ?_⟩⟩
  · rw [le_div_iff₀ (by norm_num)]; nlinarith
  · rw [div_le_iff₀ (by norm_num)]; nlinarith
  · rw [le_div_iff₀ (by norm_num)]; nlinarith
  · rw [div_le_iff₀ (by norm_num)]; nlinarith

/-- Witness for C19 over the rationals: the initial resolution `512 × 512` and its last
pixel `(511, 511)`. -/
theorem pixel_ray_within_image_plane_witness :
    (({} : Q1.Camera ℚ).l ≤ ({} : Q1.Camera ℚ).u_s 511 ∧
        ({} : Q1.Camera ℚ).u_s 511 ≤ ({} : Q1.Camera ℚ).r) ∧
      (({} : Q1.Camera ℚ).b ≤ ({} : Q1.Camera ℚ).v_s 511 ∧
        ({} : Q1.Camera ℚ).v_s 511 ≤ ({} : Q1.Camera ℚ).t) :=
  pixel_ray_within_image_plane {} 511 511 (by decide) (by decide) (by decide) (by decide)
    (by decide) (by decide) (by decide) (by decide)

/-- Claim C19 as stated fails: at the resolution `513 × 1` the pixel `(512, 0)` is inside
the image, yet its `u_s = -0.1 + 0.2 * 512.5 / 512` exceeds `r = 0.1`, because the camera
keeps `nx = 512`. -/
theorem pixel_ray_within_image_plane_counterexample :
    (1 ≤ Q1.wide.Width ∧ 1 ≤ Q1.wide.Height) ∧
      ((0 : Int) ≤ 512 ∧ (512 : Int) < Q1.wide.Width) ∧
      ((0 : Int) ≤ 0 ∧ (0 : Int) < Q1.wide.Height) ∧
      ¬ (({} : Q1.Camera ℚ).u_s 512 ≤ ({} : Q1.Camera ℚ).r) := by
  refine ⟨by decide, by decide, by decide, ?_⟩
  norm_num [Q1.Camera.u_s]

end CameraTheorems


/-! ## Shading factors -/

section ShadingTheorems

variable {F : Type} [LinearOrderedField F]

/-- The sum of the three terms is monotone in the diffuse factor when `kd` and the light
colour are non-negative. -/
theorem phong_mono (sc : Q1.Scene F) (hit : Q1.Surface F) (spec d1 d2 : F)
    (hkd : Vec3.AllLe ⟨0, 0, 0⟩ hit.kd) (hlc : Vec3.AllLe ⟨0, 0, 0⟩ sc.lightColor)
    (hd : d1 ≤ d2) : Vec3.AllLe (sc.phong hit d1 spec) (sc.phong hit d2 spec) := by
  obtain ⟨k1, k2, k3⟩ := hkd
  obtain ⟨c1, c2, c3⟩ := hlc
  simp only [Vec3.AllLe, Q1.Scene.phong, Vec3.add_x, Vec3.add_y, Vec3.add_z, Vec3.mul_x,
    Vec3.mul_y, Vec3.mul_z, Vec3.smul_x, Vec3.smul_y, Vec3.smul_z] at k1 k2 k3 c1 c2 c3 ⊢
  refine ⟨?_, ?_, ?_⟩
  · have := mul_le_mul_of_nonneg_right hd (mul_nonneg k1 c1)
    nlinarith
  · have := mul_le_mul_of_nonneg_right hd (mul_nonneg k2 c2)
    nlinarith
  · have := mul_le_mul_of_nonneg_right hd (mul_nonneg k3 c3)
    nlinarith

/-- Claim C16.  The diffuse factor of `Scene::trace` is `max(dot(normal, L), 0)`: the
colour before `clamp` of the basic program is the sum of the three terms taken at that
factor, and so is that of the sampled program for a point that is not in shadow.  The
factor is `0` when `dot(normal, L) < 0`, non-decreasing in `dot(normal, L)`, and strictly
increasing where `dot(normal, L) ≥ 0`.  Hence in the basic program, with non-negative `kd`
and `lightColor` and a fixed `spec`, every component of the colour before `clamp` is
non-decreasing in `dot(normal, L)`. -/
theorem diffuse_monotone_in_alignment (ops : FloatOps F) (sc1 : Q1.Scene F)
    (hit1 : Q1.Surface F) (sc3 : Q3.Scene F) (g : Q3.Globals F) (hit3 : Q3.Surface F)
    (ray : Ray F) (t : F) (n : Vec3 F) :
    sc1.shade ops ray hit1 t n
        = sc1.phong hit1
            (diffuseFactor (dot n (normalize ops (sc1.lightPos - hit1.getPoint t ray))))
            (ops.pow (max (dot (reflect (-normalize ops (sc1.lightPos - hit1.getPoint t ray)) n)
              (normalize ops (-ray.direction))) 0) hit1.specPower) ∧
      (sc3.isInShadow ops (ray.origin + t • ray.direction)
          (normalize ops (g.LightPos - (ray.origin + t • ray.direction))) = false →
        sc3.shade ops g ray hit3 t n
          = hit3.ka
            + diffuseFactor
                (dot n (normalize ops (g.LightPos - (ray.origin + t • ray.direction))))
              • hit3.kd
            + ops.pow (max (dot (reflect
                (-normalize ops (g.LightPos - (ray.origin + t • ray.direction))) n)
                (normalize ops (-ray.direction))) 0) hit3.specPower • hit3.ks) ∧
      (∀ x : F, x < 0 → diffuseFactor x = 0) ∧
      (∀ x y : F, x ≤ y → diffuseFactor x ≤ diffuseFactor y) ∧
      (∀ x y : F, 0 ≤ x → x < y → diffuseFactor x < diffuseFactor y) ∧
      (Vec3.AllLe ⟨0, 0, 0⟩ hit1.kd → Vec3.AllLe ⟨0, 0, 0⟩ sc1.lightColor →
        ∀ spec x y : F, x ≤ y →
          Vec3.AllLe (sc1.phong hit1 (diffuseFactor x) spec)
            (sc1.phong hit1 (diffuseFactor y) spec)) := by
  refine ⟨rfl, ?_, ?_, ?_, ?_, ?_⟩
  · intro hsh
    simp only [Q3.Scene.shade, hsh, Bool.not_false, if_true, diffuseFactor]
  · intro x hx
    exact max_eq_right (le_of_lt hx)
  · intro x y hxy
    exact max_le_max hxy (le_refl 0)
  · intro x y hx hxy
    simp only [diffuseFactor]
    rw [max_eq_left hx, max_eq_left (le_of_lt (lt_of_le_of_lt hx hxy))]
    exact hxy
  · intro hkd hlc spec x y hxy
    exact phong_mono sc1 hit1 spec _ _ hkd hlc (max_le_max hxy (le_refl 0))

/-- The point of parameter `2` of the ray going straight down is `(0, -2, 0)`. -/
theorem downRay_point : (downRay : Ray F).origin + (2 : F) • (downRay : Ray F).direction
    = ⟨0, -2, 0⟩ := by
  ext <;> norm_num [downRay]

/-- Over the reals, the direction from `(0, -2, 0)` to the light at `(0, 4, 0)` is
`(0, 1, 0)`. -/
theorem lightAbove_direction :
    normalize ⟨Real.sqrt, Real.rpow⟩ ((Q3.lightAbove : Q3.Globals ℝ).LightPos - ⟨0, -2, 0⟩)
      = ⟨0, 1, 0⟩ := by
  ext <;> norm_num [Vec3.normalize, Vec3.dot, Q3.lightAbove, real_sqrt_36]

/-- Over the reals, the point `(0, -2, 0)` of the floor is not shadowed in the floor scene
for the light direction `(0, 1, 0)`. -/
theorem floorScene_no_shadow :
    (Q3.floorScene : Q3.Scene ℝ).isInShadow ⟨Real.sqrt, Real.rpow⟩ ⟨0, -2, 0⟩ ⟨0, 1, 0⟩
      = false := by
  norm_num [Q3.Scene.isInShadow, Q3.floorScene, Q3.greyPlane, Q3.Surface.intersect,
    Q3.Plane.intersect, Ray.new, Vec3.normalize, Vec3.dot]

/-- Witness for C16 over the reals: the floor scenes, the ray going straight down and the
light at `(0, 4, 0)` for the sampled program. -/
theorem diffuse_monotone_in_alignment_witness :
    diffuseFactor (-1 : ℝ) = 0 ∧ diffuseFactor (0 : ℝ) < diffuseFactor (1 : ℝ) ∧
      (Q3.floorScene : Q3.Scene ℝ).shade ⟨Real.sqrt, Real.rpow⟩ Q3.lightAbove downRay
          (Q3.greyPlane 2) 2 ⟨0, 1, 0⟩
        = (Q3.greyPlane (2 : ℝ)).ka
          + diffuseFactor (dot (⟨0, 1, 0⟩ : Vec3 ℝ)
              (normalize ⟨Real.sqrt, Real.rpow⟩ ((Q3.lightAbove : Q3.Globals ℝ).LightPos
                - ((downRay : Ray ℝ).origin + (2 : ℝ) • (downRay : Ray ℝ).direction))))
            • (Q3.greyPlane (2 : ℝ)).kd
          + Real.rpow (max (dot (reflect
              (-normalize ⟨Real.sqrt, Real.rpow⟩ ((Q3.lightAbove : Q3.Globals ℝ).LightPos
                - ((downRay : Ray ℝ).origin + (2 : ℝ) • (downRay : Ray ℝ).direction)))
              ⟨0, 1, 0⟩)
              (normalize ⟨Real.sqrt, Real.rpow⟩ (-(downRay : Ray ℝ).direction))) 0)
              (Q3.greyPlane (2 : ℝ)).specPower • (Q3.greyPlane (2 : ℝ)).ks ∧
      Vec3.AllLe
        ((Q1.floorScene : Q1.Scene ℝ).phong (Q1.greyPlane 2) (diffuseFactor (1 / 2)) 1)
        ((Q1.floorScene : Q1.Scene ℝ).phong (Q1.greyPlane 2) (diffuseFactor 1) 1) :=
  have h := diffuse_monotone_in_alignment (⟨Real.sqrt, Real.rpow⟩ : FloatOps ℝ)
    Q1.floorScene (Q1.greyPlane 2) Q3.floorScene Q3.lightAbove (Q3.greyPlane 2) downRay 2
    ⟨0, 1, 0⟩
  ⟨h.2.2.1 (-1) (by norm_num), h.2.2.2.2.1 0 1 (le_refl 0) (by norm_num),
    h.2.1 (by rw [downRay_point, lightAbove_direction]; exact floorScene_no_shadow),
    h.2.2.2.2.2
      (by norm_num [Vec3.AllLe, Q1.greyPlane, Q1.Surface.kd])
      (by norm_num [Vec3.AllLe, Q1.floorScene, Vec3.splat])
      1 (1 / 2) 1 (by norm_num)⟩

/-- The product `1 * v` is `v`. -/
theorem Vec3.one_smul' (v : Vec3 F) : (1 : F) • v = v := by
  ext <;> simp

/-- Claim C20.  In the basic program, with a `pow` that returns `1` for the exponent `0`,
a hit on a surface with `specPower = 0` has `spec = pow(max(dot(R, V), 0), 0) = 1`, whatever
`dot(R, V)` is, and `Scene::trace` returns
`clamp(ka * lightColor + diff * kd * lightColor + ks * lightColor, 0, 1)` with
`diff = max(dot(normal, L), 0)`. -/
theorem specular_exponent_zero (ops : FloatOps F) (hpz : ops.PowZero) (sc : Q1.Scene F)
    (ray : Ray F) (i : Nat) (hit : Q1.Surface F) (t : F) (n : Vec3 F)
    (hnear : sc.nearest ops ray = ⟨t, some (i, hit), n⟩) (hsp : hit.specPower = 0) :
    ops.pow (max (dot (reflect (-normalize ops (sc.lightPos - hit.getPoint t ray)) n)
        (normalize ops (-ray.direction))) 0) hit.specPower = 1 ∧
      sc.trace ops ray
        = clamp (hit.ka * sc.lightColor
            + diffuseFactor (dot n (normalize ops (sc.lightPos - hit.getPoint t ray)))
                • hit.kd * sc.lightColor
            + hit.ks * sc.lightColor) 0 1 := by
  constructor
  · rw [hsp]
    exact hpz.pow_zero _
  · simp only [Q1.Scene.trace, hnear, Q1.Scene.shade, hsp, hpz.pow_zero, Vec3.one_smul',
      diffuseFactor]

end ShadingTheorems

/-! ## Sphere normals -/

section NormalTheorems

variable {F : Type} [LinearOrderedField F]

/-- Basic program: the normal returned by `Sphere::intersect` is
`normalize(hitPoint - center)`. -/
theorem intersect_normal_Q1 (ops : FloatOps F) (s : Q1.Sphere F) (ray : Ray F) (t : F)
    (nrm : Vec3 F) (h : s.intersect ops ray = some (t, nrm)) :
    nrm = normalize ops (ray.pointAt t - s.center) := by
  simp only [Q1.Sphere.intersect] at h
  split_ifs at h <;>
    simp only [Option.some.injEq, Prod.mk.injEq] at h <;>
    (obtain ⟨ht, hn⟩ := h; rw [← hn, ← ht]; rfl)

/-- Basic program: with an exact `sqrt`, a unit direction and a positive radius, the normal
returned by `Sphere::intersect` is a unit vector and is `(hitPoint - center) / radius`. -/
theorem intersect_unit_normal_Q1 {ops : FloatOps F} (hops : ops.SqrtExact) (s : Q1.Sphere F)
    (ray : Ray F) (hdir : dot ray.direction ray.direction = 1) (hr : 0 < s.radius) (t : F)
    (nrm : Vec3 F) (h : s.intersect ops ray = some (t, nrm)) :
    dot nrm nrm = 1 ∧ nrm = (1 / s.radius) • (ray.pointAt t - s.center) := by
  have hsel : NearestValidHit s.center s.radius ray (s.intersect ops ray) := by
    apply nearest_of_selection ops hops _ _ ray hdir
    simp only [Q1.Sphere.intersect]
  have hon : dot (ray.pointAt t - s.center) (ray.pointAt t - s.center)
      = s.radius * s.radius := (hsel.1 t nrm h).2.1
  have hn := intersect_normal_Q1 ops s ray t nrm h
  have hne : s.radius ≠ 0 := ne_of_gt hr
  have heq : nrm = (1 / s.radius) • (ray.pointAt t - s.center) := by
    rw [hn, Vec3.normalize, hon, hops.sqrt_mul_self_eq _ (le_of_lt hr)]
  refine ⟨?_, heq⟩
  rw [heq, Vec3.dot_smul_smul, hon]
  field_simp

/-- Claim C17.  In both programs, with an exact `sqrt`, for a sphere of positive radius
and a ray of unit direction, the normal returned by `Sphere::intersect` with a hit at `t`
has length `1` (`dot(normal, normal) = 1`) and equals
`(origin + t * direction - center) / radius`. -/
theorem sphere_normal_outward_unit (ops : FloatOps F) (hops : ops.SqrtExact) (ray : Ray F)
    (hdir : dot ray.direction ray.direction = 1) (t : F) (nrm : Vec3 F)
    (s1 : Q1.Sphere F) (s3 : Q3.Sphere F) :
    (0 < s1.radius → s1.intersect ops ray = some (t, nrm) →
      dot nrm nrm = 1 ∧ nrm = (1 / s1.radius) • (ray.pointAt t - s1.center)) ∧
    (0 < s3.radius → s3.intersect ops ray = some (t, nrm) →
      dot nrm nrm = 1 ∧ nrm = (1 / s3.radius) • (ray.pointAt t - s3.center)) := by
  constructor
  · intro hr h
    exact intersect_unit_normal_Q1 hops s1 ray hdir hr t nrm h
  · intro hr h
    rw [Q3.Sphere.intersect_eq_Q1] at h
    exact intersect_unit_normal_Q1 hops
      ⟨s3.ka, s3.kd, s3.ks, s3.specPower, s3.center, s3.radius⟩ ray hdir hr t nrm h

/-- Over the reals, `sqrt 4 = 2`. -/
theorem real_sqrt_4 : Real.sqrt 4 = 2 :=
  real_sqrt_eq_of_sq 4 2 (by norm_num) (by norm_num)

/-- Over the reals, the sphere of centre `(0, 0, -7)` and radius `2` is hit at `t = 5` by
the ray from the origin along `-z`, with the normal `(0, 0, 1)` (basic program). -/
theorem greenSphere_forwardRay_Q1 :
    (Q1.greenSphere (⟨0, 0, -7⟩ : Vec3 ℝ) 2).intersect ⟨Real.sqrt, Real.rpow⟩ forwardRay
      = some (5, ⟨0, 0, 1⟩) := by
  norm_num [Q1.Sphere.intersect, Q1.greenSphere, forwardRay, Vec3.dot, Vec3.normalize,
    real_sqrt_4]
  ext <;> norm_num

/-- Witness for C17 over the reals: the sphere of centre `(0, 0, -7)` and radius `2` and
the ray from the origin along `-z`, hit at `t = 5` with the normal `(0, 0, 1)`. -/
theorem sphere_normal_outward_unit_witness :
    dot (forwardRay : Ray ℝ).direction (forwardRay : Ray ℝ).direction = 1 ∧
      (dot (⟨0, 0, 1⟩ : Vec3 ℝ) ⟨0, 0, 1⟩ = 1 ∧
        (⟨0, 0, 1⟩ : Vec3 ℝ) = (1 / (Q1.greenSphere (⟨0, 0, -7⟩ : Vec3 ℝ) 2).radius)
          • ((forwardRay : Ray ℝ).pointAt 5 - (Q1.greenSphere (⟨0, 0, -7⟩ : Vec3 ℝ) 2).center)) ∧
      (dot (⟨0, 0, 1⟩ : Vec3 ℝ) ⟨0, 0, 1⟩ = 1 ∧
        (⟨0, 0, 1⟩ : Vec3 ℝ) = (1 / (Q3.greenSphere (⟨0, 0, -7⟩ : Vec3 ℝ) 2).radius)
          • ((forwardRay : Ray ℝ).pointAt 5 - (Q3.greenSphere (⟨0, 0, -7⟩ : Vec3 ℝ) 2).center)) :=
  have hdir : dot (forwardRay : Ray ℝ).direction (forwardRay : Ray ℝ).direction = 1 := by
    norm_num [forwardRay, Vec3.dot]
  have h := sphere_normal_outward_unit (⟨Real.sqrt, Real.rpow⟩ : FloatOps ℝ)
    ⟨fun x _ => Real.sqrt_nonneg x, fun _ hx => Real.mul_self_sqrt hx⟩ forwardRay hdir 5
    ⟨0, 0, 1⟩ (Q1.greenSphere ⟨0, 0, -7⟩ 2) (Q3.greenSphere ⟨0, 0, -7⟩ 2)
  ⟨hdir,
    h.1 (by norm_num [Q1.greenSphere]) greenSphere_forwardRay_Q1,
    h.2 (by norm_num [Q3.greenSphere])
      (by rw [Q3.Sphere.intersect_eq_Q1]; exact greenSphere_forwardRay_Q1)⟩

end NormalTheorems

/-! ## End-to-end scenario: the plane and the red sphere -/

section ScenarioTheorems

variable {F : Type} [LinearOrderedField F]

/-- Sampled program: a plane is not hit by a ray that starts on its positive side (or on
it) and does not go toward it. -/
theorem plane_none_of_leaving_Q3 (pl : Q3.Plane F) (ray : Ray F)
    (hb : 0 ≤ dot pl.normalDir ray.direction)
    (ha : 0 ≤ dot pl.normalDir ray.origin + pl.d) : pl.intersect ray = none := by
  simp only [Q3.Plane.intersect]
  split_ifs with h1 h2
  · rfl
  · exfalso
    have hne := ne_zero_of_not_abs_lt _ h1
    have hpos : 0 < dot pl.normalDir ray.direction := lt_of_le_of_ne hb (Ne.symm hne)
    have hle : -(dot pl.normalDir ray.origin + pl.d) / dot pl.normalDir ray.direction ≤ 0 :=
      div_nonpos_of_nonpos_of_nonneg (by linarith) (le_of_lt hpos)
    linarith
  · rfl

/-- Basic program: a sphere is not hit by a ray that starts outside it (or on it) and does
not go toward its centre. -/
theorem sphere_none_of_leaving_Q1 {ops : FloatOps F} (hops : ops.SqrtExact) (s : Q1.Sphere F)
    (ray : Ray F) (hpd : 0 ≤ dot (ray.origin - s.center) ray.direction)
    (hpp : s.radius * s.radius ≤ dot (ray.origin - s.center) (ray.origin - s.center)) :
    s.intersect ops ray = none := by
  simp only [Q1.Sphere.intersect]
  split_ifs with h1 h2 h3
  · rfl
  · exfalso
    have hs0 := hops.sqrt_nonneg _ (not_lt.mp h1)
    linarith
  · exfalso
    have hD := not_lt.mp h1
    have hs0 := hops.sqrt_nonneg _ hD
    have hss := hops.sqrt_mul_self _ hD
    generalize ops.sqrt (dot (ray.origin - s.center) ray.direction
          * dot (ray.origin - s.center) ray.direction
        - dot (ray.origin - s.center) (ray.origin - s.center) + s.radius * s.radius) = δ
      at hs0 hss h3
    generalize dot (ray.origin - s.center) ray.direction = pd at hpd hss h3
    have hlt : pd < δ := by linarith
    nlinarith [mul_lt_mul'' hlt hlt hpd hpd]
  · rfl

/-- With an exact `sqrt`, the inverse `a` of `sqrt 65` satisfies `65 * a * a = 1`,
`a * sqrt 65 = 1` and `1/9 < a < 1/8`. -/
theorem inv_sqrt65 {ops : FloatOps F} (hops : ops.SqrtExact) :
    8 < ops.sqrt 65 ∧ ops.sqrt 65 < 9 ∧ (1 / ops.sqrt 65) * ops.sqrt 65 = 1 ∧
      65 * (1 / ops.sqrt 65) * (1 / ops.sqrt 65) = 1 ∧ 1 / 9 < 1 / ops.sqrt 65 ∧
      1 / ops.sqrt 65 < 1 / 8 := by
  have h0 := hops.sqrt_nonneg 65 (by norm_num)
  have hss := hops.sqrt_mul_self 65 (by norm_num)
  have h8 : 8 < ops.sqrt 65 := by nlinarith
  have h9 : ops.sqrt 65 < 9 := by nlinarith
  have hne : ops.sqrt 65 ≠ 0 := by linarith
  refine ⟨h8, h9, by field_simp, ?_, ?_, ?_⟩
  · field_simp
    linarith
  · exact one_div_lt_one_div_of_lt (by linarith) h9
  · exact one_div_lt_one_div_of_lt (by norm_num) h8

/-- The ray toward the red sphere has the direction `(-4, 0, -7) / sqrt 65`. -/
theorem eyeToRedSphere_direction (ops : FloatOps F) :
    (eyeToRedSphere ops).direction
      = ⟨(1 / ops.sqrt 65) * -4, (1 / ops.sqrt 65) * 0, (1 / ops.sqrt 65) * -7⟩ := by
  have hdot : dot ((⟨-4, 0, -7⟩ : Vec3 F) - ⟨0, 0, 0⟩) ((⟨-4, 0, -7⟩ : Vec3 F) - ⟨0, 0, 0⟩)
      = 65 := by
    norm_num [Vec3.dot]
  simp only [eyeToRedSphere, Ray.new, Vec3.normalize, hdot]
  ext <;> simp

/-- With an exact `sqrt`, the planes of `render` have the normal `(0, 1, 0)`. -/
theorem renderPlane_normal {ops : FloatOps F} (hops : ops.SqrtExact) :
    (Q1.renderPlane ops).normalVec = ⟨0, 1, 0⟩ ∧ (Q3.renderPlane ops).normalDir = ⟨0, 1, 0⟩ := by
  have h : normalize ops (⟨0, 1, 0⟩ : Vec3 F) = ⟨0, 1, 0⟩ :=
    normalize_of_unit hops _ (by norm_num [Vec3.dot])
  exact ⟨h, h⟩

/-- With an exact `sqrt`, the ray toward the red sphere is parallel to the plane of
`render`, which reports no hit, in both programs. -/
theorem renderPlane_eyeToRedSphere {ops : FloatOps F} (hops : ops.SqrtExact) :
    (Q1.renderPlane ops).intersect (eyeToRedSphere ops) = none ∧
      (Q3.renderPlane ops).intersect (eyeToRedSphere ops) = none := by
  have hden : dot (⟨0, 1, 0⟩ : Vec3 F) (eyeToRedSphere ops).direction = 0 := by
    rw [eyeToRedSphere_direction]
    simp [Vec3.dot]
  have hlt : |(0 : F)| < 1 / 100000 := by
    rw [abs_zero]
    norm_num
  constructor
  · simp only [Q1.Plane.intersect, (renderPlane_normal hops).1, hden, if_pos hlt]
  · simp only [Q3.Plane.intersect, (renderPlane_normal hops).2, hden, if_pos hlt]

/-- With an exact `sqrt`, the ray toward the red sphere hits it at `t = sqrt 65 - 1` with
the normal opposite to the ray (basic program). -/
theorem redSphere_eyeToRedSphere_Q1 {ops : FloatOps F} (hops : ops.SqrtExact) :
    (Q1.redSphere : Q1.Sphere F).intersect ops (eyeToRedSphere ops)
      = some (ops.sqrt 65 - 1, -(eyeToRedSphere ops).direction) := by
  have hdot : dot ((Q1.redSphere : Q1.Sphere F).center - (eyeToRedSphere ops).origin)
      ((Q1.redSphere : Q1.Sphere F).center - (eyeToRedSphere ops).origin) = 65 := by
    norm_num [Vec3.dot, Q1.redSphere, eyeToRedSphere, Ray.new]
  have h := Q1.Sphere.intersect_aimed_at_center hops (Q1.redSphere : Q1.Sphere F)
    (eyeToRedSphere ops) (by norm_num [Q1.redSphere]) rfl
    (by rw [hdot]; have := (inv_sqrt65 hops).1; norm_num [Q1.redSphere]; linarith)
  rw [hdot] at h
  exact h

/-- With an exact `sqrt`, `sqrt 65 - 1` is below `FLT_MAX`. -/
theorem sqrt65_lt_FLT_MAX {ops : FloatOps F} (hops : ops.SqrtExact) :
    ops.sqrt 65 - 1 < (FLT_MAX : F) := by
  have h9 := (inv_sqrt65 hops).2.1
  have : (9 : F) < FLT_MAX := by norm_num [FLT_MAX]
  linarith

/-- With an exact `sqrt`, in the scene of the plane and the red sphere the loop of
`Scene::trace` ends on the red sphere, at `t = sqrt 65 - 1` (basic program). -/
theorem planeAndRedSphere_nearest_Q1 {ops : FloatOps F} (hops : ops.SqrtExact) :
    (Q1.planeAndRedSphere ops).nearest ops (eyeToRedSphere ops)
      = ⟨ops.sqrt 65 - 1, some (1, .sphere Q1.redSphere), -(eyeToRedSphere ops).direction⟩ := by
  simp [Q1.Scene.nearest, Q1.planeAndRedSphere, Q1.Scene.addObject, traceLoop,
    Q1.Surface.intersect, (renderPlane_eyeToRedSphere hops).1,
    redSphere_eyeToRedSphere_Q1 hops, sqrt65_lt_FLT_MAX hops]

/-- With an exact `sqrt`, in the scene of the plane and the red sphere the loop of
`Scene::trace` ends on the red sphere, at `t = sqrt 65 - 1` (sampled program). -/
theorem planeAndRedSphere_nearest_Q3 {ops : FloatOps F} (hops : ops.SqrtExact) :
    (Q3.planeAndRedSphere ops).nearest ops (eyeToRedSphere ops)
      = ⟨ops.sqrt 65 - 1, some (1, .sphere Q3.redSphere), -(eyeToRedSphere ops).direction⟩ := by
  have hs : (Q3.redSphere : Q3.Sphere F).intersect ops (eyeToRedSphere ops)
      = some (ops.sqrt 65 - 1, -(eyeToRedSphere ops).direction) := by
    rw [Q3.Sphere.intersect_eq_Q1]
    exact redSphere_eyeToRedSphere_Q1 hops
  simp [Q3.Scene.nearest, Q3.planeAndRedSphere, Q3.Scene.addObject, traceLoop,
    Q3.Surface.intersect, (renderPlane_eyeToRedSphere hops).2, hs, sqrt65_lt_FLT_MAX hops]

/-- The hit point on the red sphere, with `a = 1 / sqrt 65`. -/
theorem eyeToRedSphere_point {ops : FloatOps F} (hops : ops.SqrtExact) :
    (eyeToRedSphere ops).origin + (ops.sqrt 65 - 1) • (eyeToRedSphere ops).direction
      = ⟨-4 + 4 * (1 / ops.sqrt 65), 0, -7 + 7 * (1 / ops.sqrt 65)⟩ := by
  have ha := (inv_sqrt65 hops).2.2.1
  rw [eyeToRedSphere_direction]
  generalize 1 / ops.sqrt 65 = a at ha
  ext
  · simp only [eyeToRedSphere, Ray.new, Vec3.add_x, Vec3.smul_x]
    linear_combination (-4 : F) * ha
  · simp only [eyeToRedSphere, Ray.new, Vec3.add_y, Vec3.smul_y]
    ring
  · simp only [eyeToRedSphere, Ray.new, Vec3.add_z, Vec3.smul_z]
    linear_combination (-7 : F) * ha

/-- Expansion of `dot(p + k * L - c, L)`. -/
theorem dot_offset_right (p c L : Vec3 F) (k : F) :
    dot (p + k • L - c) L = dot (p - c) L + k * dot L L := by
  simp only [Vec3.dot, Vec3.add_x, Vec3.add_y, Vec3.add_z, Vec3.sub_x, Vec3.sub_y, Vec3.sub_z,
    Vec3.smul_x, Vec3.smul_y, Vec3.smul_z]
  ring

/-- Expansion of `dot(p + k * L - c, p + k * L - c)`. -/
theorem dot_offset_self (p c L : Vec3 F) (k : F) :
    dot (p + k • L - c) (p + k • L - c)
      = dot (p - c) (p - c) + 2 * k * dot (p - c) L + k * k * dot L L := by
  simp only [Vec3.dot, Vec3.add_x, Vec3.add_y, Vec3.add_z, Vec3.sub_x, Vec3.sub_y, Vec3.sub_z,
    Vec3.smul_x, Vec3.smul_y, Vec3.smul_z]
  ring

/-- With an exact `sqrt`, a ray built by `Ray` from a unit direction that leaves a sphere
from a point outside it (or on it), after the offset `0.001` along the direction, does not
hit the sphere (sampled program). -/
theorem sphere_none_of_shadow_ray_Q3 {ops : FloatOps F} (hops : ops.SqrtExact)
    (s : Q3.Sphere F) (p L : Vec3 F) (hL : dot L L = 1) (hpL : 0 ≤ dot (p - s.center) L)
    (hpp : s.radius * s.radius ≤ dot (p - s.center) (p - s.center)) :
    s.intersect ops (Ray.new ops (p + (1 / 1000 : F) • L) L) = none := by
  rw [Q3.Sphere.intersect_eq_Q1]
  apply sphere_none_of_leaving_Q1 hops
  · simp only [Ray.new, normalize_of_unit hops L hL]
    rw [dot_offset_right, hL]
    linarith
  · simp only [Ray.new, normalize_of_unit hops L hL]
    rw [dot_offset_self, hL]
    nlinarith

/-- With an exact `sqrt`, the hit point on the red sphere is not in shadow in the scene of
the plane and the red sphere, for the light of the sampled program. -/
theorem planeAndRedSphere_no_shadow {ops : FloatOps F} (hops : ops.SqrtExact) :
    (Q3.planeAndRedSphere ops).isInShadow ops
      ((eyeToRedSphere ops).origin + (ops.sqrt 65 - 1) • (eyeToRedSphere ops).direction)
      (normalize ops (({} : Q3.Globals F).LightPos
        - ((eyeToRedSphere ops).origin
          + (ops.sqrt 65 - 1) • (eyeToRedSphere ops).direction))) = false := by
  obtain ⟨-, -, -, haa, ha9, ha8⟩ := inv_sqrt65 hops
  rw [eyeToRedSphere_point hops]
  generalize 1 / ops.sqrt 65 = a at haa ha9 ha8
  have hLl : ({} : Q3.Globals F).LightPos - (⟨-4 + 4 * a, 0, -7 + 7 * a⟩ : Vec3 F)
      = ⟨-4 * a, 4, 4 - 7 * a⟩ := by
    ext <;> simp
    ring
  rw [hLl]
  have hdotpos : 0 < dot (⟨-4 * a, 4, 4 - 7 * a⟩ : Vec3 F) ⟨-4 * a, 4, 4 - 7 * a⟩ := by
    simp only [Vec3.dot]
    nlinarith [mul_self_nonneg (4 * a), mul_self_nonneg (4 - 7 * a)]
  have hM0 := hops.sqrt_nonneg _ (le_of_lt hdotpos)
  have hMM := hops.sqrt_mul_self _ (le_of_lt hdotpos)
  have hMpos : 0 < ops.sqrt (dot (⟨-4 * a, 4, 4 - 7 * a⟩ : Vec3 F) ⟨-4 * a, 4, 4 - 7 * a⟩) := by
    rcases eq_or_lt_of_le hM0 with hz | hz
    · rw [← hz] at hMM
      linarith
    · exact hz
  have hunit := dot_normalize_self hops _ hMpos
  have hLy : 0 ≤ (normalize ops (⟨-4 * a, 4, 4 - 7 * a⟩ : Vec3 F)).y := by
    simp only [Vec3.normalize, Vec3.smul_y]
    exact mul_nonneg (le_of_lt (one_div_pos.mpr hMpos)) (by norm_num)
  have hpc : (⟨-4 + 4 * a, 0, -7 + 7 * a⟩ : Vec3 F) - (Q3.redSphere : Q3.Sphere F).center
      = ⟨4 * a, 0, 7 * a⟩ := by
    ext <;> simp [Q3.redSphere]
  have hpL : 0 ≤ dot ((⟨-4 + 4 * a, 0, -7 + 7 * a⟩ : Vec3 F)
      - (Q3.redSphere : Q3.Sphere F).center)
      (normalize ops (⟨-4 * a, 4, 4 - 7 * a⟩ : Vec3 F)) := by
    rw [hpc, Vec3.normalize, Vec3.dot_smul_right]
    apply mul_nonneg (le_of_lt (one_div_pos.mpr hMpos))
    simp only [Vec3.dot]
    nlinarith
  have hpp : (Q3.redSphere : Q3.Sphere F).radius * (Q3.redSphere : Q3.Sphere F).radius
      ≤ dot ((⟨-4 + 4 * a, 0, -7 + 7 * a⟩ : Vec3 F) - (Q3.redSphere : Q3.Sphere F).center)
        ((⟨-4 + 4 * a, 0, -7 + 7 * a⟩ : Vec3 F) - (Q3.redSphere : Q3.Sphere F).center) := by
    rw [hpc]
    simp only [Vec3.dot, Q3.redSphere]
    nlinarith
  have hsphere := sphere_none_of_shadow_ray_Q3 hops (Q3.redSphere : Q3.Sphere F)
    ⟨-4 + 4 * a, 0, -7 + 7 * a⟩ _ hunit hpL hpp
  have hplane : (Q3.renderPlane ops).intersect
      (Ray.new ops ((⟨-4 + 4 * a, 0, -7 + 7 * a⟩ : Vec3 F)
        + (1 / 1000 : F) • normalize ops (⟨-4 * a, 4, 4 - 7 * a⟩ : Vec3 F))
        (normalize ops (⟨-4 * a, 4, 4 - 7 * a⟩ : Vec3 F))) = none := by
    apply plane_none_of_leaving_Q3
    · rw [(renderPlane_normal hops).2]
      simp only [Ray.new, normalize_of_unit hops _ hunit, Vec3.dot]
      linarith
    · rw [(renderPlane_normal hops).2]
      simp only [Ray.new, Vec3.dot, Vec3.add_x, Vec3.add_y, Vec3.add_z, Vec3.smul_y,
        Q3.renderPlane, Q3.Plane.new]
      nlinarith
  simp only [Q3.Scene.isInShadow, Q3.planeAndRedSphere, Q3.Scene.addObject, List.nil_append,
    List.cons_append, List.any_cons, List.any_nil, Q3.Surface.intersect, hplane, hsphere,
    Option.isSome_none, Bool.or_false]

/-- Claim C13.  With an exact `sqrt`, in the scene made of the plane of `render`
(`n = (0, 1, 0)`, offset `2`) and the red sphere (centre `(-4, 0, -7)`, radius `1`), with
the light at `(-4, 4, -3)` of colour `(1, 1, 1)`, the ray from the eye `(0, 0, 0)` toward
the centre of the sphere is not reported a hit by the plane, the loop of `Scene::trace` ends
on the sphere (second object) in both programs, `isInShadow` is false for the hit point and
the light direction, and `Scene::trace` of the basic program returns
`(min(1, 0.2 + diff), 0, 0)` with `diff = max(dot(normal, L), 0)`. -/
theorem scenario_plane_and_red_sphere (ops : FloatOps F) (hops : ops.SqrtExact) :
    (Q1.renderPlane ops).intersect (eyeToRedSphere ops) = none ∧
      (Q1.planeAndRedSphere ops).nearest ops (eyeToRedSphere ops)
        = ⟨ops.sqrt 65 - 1, some (1, .sphere Q1.redSphere),
            -(eyeToRedSphere ops).direction⟩ ∧
      (Q3.planeAndRedSphere ops).nearest ops (eyeToRedSphere ops)
        = ⟨ops.sqrt 65 - 1, some (1, .sphere Q3.redSphere),
            -(eyeToRedSphere ops).direction⟩ ∧
      (Q3.planeAndRedSphere ops).isInShadow ops
        ((eyeToRedSphere ops).origin + (ops.sqrt 65 - 1) • (eyeToRedSphere ops).direction)
        (normalize ops (({} : Q3.Globals F).LightPos
          - ((eyeToRedSphere ops).origin
            + (ops.sqrt 65 - 1) • (eyeToRedSphere ops).direction))) = false ∧
      (Q1.planeAndRedSphere ops).trace ops (eyeToRedSphere ops)
        = ⟨min 1 (1 / 5 + diffuseFactor (dot (-(eyeToRedSphere ops).direction)
            (normalize ops ((Q1.planeAndRedSphere ops).lightPos
              - ((eyeToRedSphere ops).origin
                + (ops.sqrt 65 - 1) • (eyeToRedSphere ops).direction))))), 0, 0⟩ := by
  refine ⟨(renderPlane_eyeToRedSphere hops).1, planeAndRedSphere_nearest_Q1 hops,
    planeAndRedSphere_nearest_Q3 hops, planeAndRedSphere_no_shadow hops, ?_⟩
  simp only [Q1.Scene.trace, planeAndRedSphere_nearest_Q1 hops, Q1.Scene.shade,
    Q1.Surface.getPoint, Q1.Sphere.getPoint, diffuseFactor]
  have hm : 0 ≤ max (dot (-(eyeToRedSphere ops).direction)
      (normalize ops ((Q1.planeAndRedSphere ops).lightPos
        - ((eyeToRedSphere ops).origin
          + (ops.sqrt 65 - 1) • (eyeToRedSphere ops).direction)))) 0 := le_max_right _ _
  generalize max (dot (-(eyeToRedSphere ops).direction)
    (normalize ops ((Q1.planeAndRedSphere ops).lightPos
      - ((eyeToRedSphere ops).origin
        + (ops.sqrt 65 - 1) • (eyeToRedSphere ops).direction)))) 0 = m at hm
  have hx : max (1 / 5 + m) 0 = 1 / 5 + m := max_eq_left (by linarith)
  ext
  · simp only [Vec3.clamp, Vec3.add_x, Vec3.mul_x, Vec3.smul_x, Q1.Surface.ka, Q1.Surface.kd,
      Q1.Surface.ks, Q1.redSphere, Q1.planeAndRedSphere, Q1.Scene.addObject, Vec3.splat,
      mul_one, mul_zero, zero_mul, add_zero]
    rw [hx, min_comm]
  · simp only [Vec3.clamp, Vec3.add_y, Vec3.mul_y, Vec3.smul_y, Q1.Surface.ka, Q1.Surface.kd,
      Q1.Surface.ks, Q1.redSphere, Q1.planeAndRedSphere, Q1.Scene.addObject, Vec3.splat,
      mul_one, mul_zero, zero_mul, add_zero, max_self]
    exact min_eq_left zero_le_one
  · simp only [Vec3.clamp, Vec3.add_z, Vec3.mul_z, Vec3.smul_z, Q1.Surface.ka, Q1.Surface.kd,
      Q1.Surface.ks, Q1.redSphere, Q1.planeAndRedSphere, Q1.Scene.addObject, Vec3.splat,
      mul_one, mul_zero, zero_mul, add_zero, max_self]
    exact min_eq_left zero_le_one

/-- Witness for C13 over the reals, with `Real.sqrt`: the nearest hit of the ray toward the
red sphere is the red sphere, at `t = sqrt 65 - 1`, and the point is not in shadow. -/
theorem scenario_plane_and_red_sphere_witness :
    (Q1.planeAndRedSphere (⟨Real.sqrt, Real.rpow⟩ : FloatOps ℝ)).nearest ⟨Real.sqrt, Real.rpow⟩
        (eyeToRedSphere ⟨Real.sqrt, Real.rpow⟩)
        = ⟨Real.sqrt 65 - 1, some (1, .sphere Q1.redSphere),
            -(eyeToRedSphere (⟨Real.sqrt, Real.rpow⟩ : FloatOps ℝ)).direction⟩ ∧
      (Q3.planeAndRedSphere (⟨Real.sqrt, Real.rpow⟩ : FloatOps ℝ)).isInShadow
        ⟨Real.sqrt, Real.rpow⟩
        ((eyeToRedSphere (⟨Real.sqrt, Real.rpow⟩ : FloatOps ℝ)).origin
          + (Real.sqrt 65 - 1) • (eyeToRedSphere (⟨Real.sqrt, Real.rpow⟩ : FloatOps ℝ)).direction)
        (normalize ⟨Real.sqrt, Real.rpow⟩ (({} : Q3.Globals ℝ).LightPos
          - ((eyeToRedSphere (⟨Real.sqrt, Real.rpow⟩ : FloatOps ℝ)).origin
            + (Real.sqrt 65 - 1)
              • (eyeToRedSphere (⟨Real.sqrt, Real.rpow⟩ : FloatOps ℝ)).direction))) = false :=
  have h := scenario_plane_and_red_sphere (⟨Real.sqrt, Real.rpow⟩ : FloatOps ℝ)
    ⟨fun x _ => Real.sqrt_nonneg x, fun _ hx => Real.mul_self_sqrt hx⟩
  ⟨h.2.1, h.2.2.2.1⟩

end ScenarioTheorems

/-! ## The sampled colour against the basic colour -/

section RefinementTheorems

variable {F : Type} [LinearOrderedField F]

/-- The two programs report the same for a sphere with the same members. -/
theorem sphere_toQ3_intersect (ops : FloatOps F) (s : Q1.Sphere F) (ray : Ray F) :
    (Q1.Surface.toQ3 (.sphere s)).intersect ops ray = (Q1.Surface.sphere s).intersect ops ray := by
  simp only [Q1.Surface.toQ3, Q3.Surface.intersect, Q1.Surface.intersect,
    Q3.Sphere.intersect_eq_Q1]

/-- The two programs report the same for a plane with the same members, unless the basic
program reports a hit at `t = 0.001` itself. -/
theorem plane_toQ3_intersect (ops : FloatOps F) (pl : Q1.Plane F) (ray : Ray F)
    (hb : pl.intersect ray ≠ some (1 / 1000, pl.normalVec)) :
    (Q1.Surface.toQ3 (.plane pl)).intersect ops ray = (Q1.Surface.plane pl).intersect ops ray := by
  simp only [Q1.Surface.toQ3, Q3.Surface.intersect, Q1.Surface.intersect, Q3.Plane.intersect,
    Q1.Plane.intersect] at hb ⊢
  split_ifs at hb ⊢ with h1 h2 h3 h3
  · rfl
  · exact absurd h2 (not_lt_of_gt h3)
  · rfl
  · rfl
  · exfalso
    apply hb
    have : -(dot pl.normalVec ray.origin + pl.d) / dot pl.normalVec ray.direction = 1 / 1000 :=
      le_antisymm (not_lt.mp h2) (not_lt.mp h3)
    rw [this]

/-- When the two programs report the same for every object of the list, their loops run in
step: the state of the sampled program is the one that corresponds to the state of the
basic program. -/
theorem traceLoop_toQ3 (ops : FloatOps F) (ray : Ray F) (objs : List (Q1.Surface F))
    (h : ∀ obj ∈ objs, obj.toQ3.intersect ops ray = obj.intersect ops ray) :
    ∀ (i : Nat) (st : Closest (Q1.Surface F) F),
      traceLoop (fun o : Q3.Surface F => o.intersect ops ray) (objs.map Q1.Surface.toQ3) i
          (Q1.closestToQ3 st)
        = Q1.closestToQ3 (traceLoop (fun o : Q1.Surface F => o.intersect ops ray) objs i st) := by
  induction objs with
  | nil => intro i st; rfl
  | cons obj rest ih =>
    intro i st
    have hobj := h obj (List.mem_cons_self _ _)
    have ih' := ih (fun o ho => h o (List.mem_cons_of_mem _ ho))
    simp only [List.map_cons, traceLoop, hobj]
    cases hres : obj.intersect ops ray with
    | none => exact ih' (i + 1) st
    | some tn =>
      obtain ⟨t, n⟩ := tn
      by_cases hlt : t < st.closestT
      · have hlt' : t < (Q1.closestToQ3 st).closestT := hlt
        simp only [hlt, hlt', if_true]
        exact ih' (i + 1) ⟨t, some (i, obj), n⟩
      · have hlt' : ¬ t < (Q1.closestToQ3 st).closestT := hlt
        simp only [hlt, hlt', if_false]
        exact ih' (i + 1) st

/-- The component-wise product with the colour `(1, 1, 1)` changes nothing. -/
theorem Vec3.mul_ones (v : Vec3 F) : v * (⟨1, 1, 1⟩ : Vec3 F) = v := by
  ext <;> simp

/-- The members `ka`, `kd`, `ks`, `specPower` are kept by `toQ3`. -/
theorem toQ3_material {K : Type} (obj : Q1.Surface K) :
    obj.toQ3.ka = obj.ka ∧ obj.toQ3.kd = obj.kd ∧ obj.toQ3.ks = obj.ks ∧
      obj.toQ3.specPower = obj.specPower := by
  cases obj <;> exact ⟨rfl, rfl, rfl, rfl⟩

/-- The method `getPoint` gives `origin + t * direction` for every object. -/
theorem getPoint_eq (obj : Q1.Surface F) (t : F) (ray : Ray F) :
    obj.getPoint t ray = ray.origin + t • ray.direction := by
  cases obj <;> rfl

/-- Away from the boundary `t = 0.001` of the plane test, the sampled colour is the
gamma-corrected basic colour.  For a scene of the basic program with the light colour
`(1, 1, 1)`, the scene of the sampled program with the same objects and the same light
position, and a ray for which no plane of the scene is reported a hit at `t = 0.001` itself
by the basic program: when the loop ends on a hit whose point is not in shadow, and when it
ends on no hit (given `pow(0, 1 / Gamma) = 0`), `Scene::trace` of the sampled program is
`Scene::trace` of the basic program raised to the power `1 / Gamma`. -/
theorem trace_refines_off_boundary (ops : FloatOps F) (sc : Q1.Scene F) (g : Q3.Globals F)
    (ray : Ray F) (hlc : sc.lightColor = ⟨1, 1, 1⟩) (hlp : sc.lightPos = g.LightPos)
    (hb : ∀ pl : Q1.Plane F, Q1.Surface.plane pl ∈ sc.objects →
      pl.intersect ray ≠ some (1 / 1000, pl.normalVec)) :
    (∀ (t : F) (i : Nat) (hit : Q1.Surface F) (n : Vec3 F),
      sc.nearest ops ray = ⟨t, some (i, hit), n⟩ →
      sc.toQ3.isInShadow ops (ray.origin + t • ray.direction)
        (normalize ops (g.LightPos - (ray.origin + t • ray.direction))) = false →
      sc.toQ3.trace ops g ray
        = Vec3.pow ops (sc.trace ops ray) (Vec3.splat (1 / g.Gamma))) ∧
    ((sc.nearest ops ray).hit = none → ops.pow 0 (1 / g.Gamma) = 0 →
      sc.toQ3.trace ops g ray
        = Vec3.pow ops (sc.trace ops ray) (Vec3.splat (1 / g.Gamma))) := by
  have hagree : ∀ obj ∈ sc.objects, obj.toQ3.intersect ops ray = obj.intersect ops ray := by
    intro obj hobj
    cases obj with
    | sphere s => exact sphere_toQ3_intersect ops s ray
    | plane pl => exact plane_toQ3_intersect ops pl ray (hb pl hobj)
  have hnear : sc.toQ3.nearest ops ray = Q1.closestToQ3 (sc.nearest ops ray) :=
    traceLoop_toQ3 ops ray sc.objects hagree 0 ⟨FLT_MAX, none, ⟨0, 0, 0⟩⟩
  constructor
  · intro t i hit n hn hsh
    obtain ⟨hka, hkd, hks, hsp⟩ := toQ3_material hit
    simp only [Q3.Scene.trace, hnear, hn, Q1.closestToQ3, Option.map_some', Q1.Scene.trace,
      Q3.Scene.shade, Q1.Scene.shade, hsh, Bool.not_false, if_true, hka, hkd, hks, hsp, hlc,
      hlp, Vec3.mul_ones, getPoint_eq]
  · intro hn hz
    simp only [Q3.Scene.trace, hnear, hn, Q1.closestToQ3, Option.map_none', Q1.Scene.trace,
      Vec3.pow, Vec3.splat, hz]

/-- With `Gamma = 1` and a `pow` that returns its base for the exponent `1`, the gamma
correction changes nothing. -/
theorem pow_gamma_one (ops : FloatOps F) (hp1 : ∀ x : F, ops.pow x 1 = x) (g : Q3.Globals F)
    (hG : g.Gamma = 1) (v : Vec3 F) : Vec3.pow ops v (Vec3.splat (1 / g.Gamma)) = v := by
  simp only [Vec3.pow, Vec3.splat, hG, div_one, hp1]

/-- Over the reals, `sqrt 16 = 4`. -/
theorem real_sqrt_16 : Real.sqrt 16 = 4 :=
  real_sqrt_eq_of_sq 16 4 (by norm_num) (by norm_num)

/-- The plane `y = 0` of the basic program reports a hit at `t = 0.001` for the ray from
`(0, 0.001, 0)` straight down. -/
theorem greyPlane_skimRay_Q1 (ops : FloatOps F) :
    (Q1.greyPlane (0 : F)).intersect ops skimRay = some (1 / 1000, ⟨0, 1, 0⟩) := by
  norm_num [Q1.greyPlane, Q1.Surface.intersect, Q1.Plane.intersect, skimRay, Vec3.dot]

/-- The plane `y = 0` of the sampled program reports no hit for the ray from
`(0, 0.001, 0)` straight down. -/
theorem greyPlane_skimRay_Q3 (ops : FloatOps F) :
    (Q3.greyPlane (0 : F)).intersect ops skimRay = none := by
  norm_num [Q3.greyPlane, Q3.Surface.intersect, Q3.Plane.intersect, skimRay, Vec3.dot]

/-- Claim C18 at the boundary of the plane test.  Over the reals, take the scene with the
single plane `y = 0`, the light at `(0, 4, 0)` of colour `(1, 1, 1)`, and the ray from
`(0, 0.001, 0)` straight down.  The two scenes have the same objects; the basic program
ends its loop on the plane at `t = 0.001`, the hit point `(0, 0, 0)` is not in shadow, and
its colour is `(1, 1, 1)`, whose power `1 / Gamma` is `(1, 1, 1)`; the sampled program
returns `(0, 0, 0)`. -/
theorem trace_refinement_at_plane_boundary :
    (Q1.groundScene : Q1.Scene ℝ).lightColor = ⟨1, 1, 1⟩ ∧
      (Q1.groundScene : Q1.Scene ℝ).lightPos = (Q3.lightAbove : Q3.Globals ℝ).LightPos ∧
      (Q1.groundScene : Q1.Scene ℝ).toQ3 = Q3.groundScene ∧
      (Q1.groundScene : Q1.Scene ℝ).nearest ⟨Real.sqrt, Real.rpow⟩ skimRay
        = ⟨1 / 1000, some (0, Q1.greyPlane 0), ⟨0, 1, 0⟩⟩ ∧
      (Q3.groundScene : Q3.Scene ℝ).isInShadow ⟨Real.sqrt, Real.rpow⟩
        ((skimRay : Ray ℝ).origin + (1 / 1000 : ℝ) • (skimRay : Ray ℝ).direction)
        (normalize ⟨Real.sqrt, Real.rpow⟩ ((Q3.lightAbove : Q3.Globals ℝ).LightPos
          - ((skimRay : Ray ℝ).origin + (1 / 1000 : ℝ) • (skimRay : Ray ℝ).direction)))
        = false ∧
      (Q1.groundScene : Q1.Scene ℝ).trace ⟨Real.sqrt, Real.rpow⟩ skimRay = ⟨1, 1, 1⟩ ∧
      Vec3.pow ⟨Real.sqrt, Real.rpow⟩ (⟨1, 1, 1⟩ : Vec3 ℝ)
        (Vec3.splat (1 / (Q3.lightAbove : Q3.Globals ℝ).Gamma)) = ⟨1, 1, 1⟩ ∧
      (Q3.groundScene : Q3.Scene ℝ).trace ⟨Real.sqrt, Real.rpow⟩ Q3.lightAbove skimRay
        = ⟨0, 0, 0⟩ := by
  have hn1 : (Q1.groundScene : Q1.Scene ℝ).nearest ⟨Real.sqrt, Real.rpow⟩ skimRay
      = ⟨1 / 1000, some (0, Q1.greyPlane 0), ⟨0, 1, 0⟩⟩ := by
    simp [Q1.Scene.nearest, Q1.groundScene, traceLoop, greyPlane_skimRay_Q1]
    norm_num [FLT_MAX]
  have hn3 : (Q3.groundScene : Q3.Scene ℝ).nearest ⟨Real.sqrt, Real.rpow⟩ skimRay
      = ⟨FLT_MAX, none, ⟨0, 0, 0⟩⟩ := by
    simp [Q3.Scene.nearest, Q3.groundScene, traceLoop, greyPlane_skimRay_Q3]
  have hp : (skimRay : Ray ℝ).origin + (1 / 1000 : ℝ) • (skimRay : Ray ℝ).direction
      = ⟨0, 0, 0⟩ := by
    ext <;> norm_num [skimRay]
  have hL : normalize ⟨Real.sqrt, Real.rpow⟩
      ((Q3.lightAbove : Q3.Globals ℝ).LightPos - ⟨0, 0, 0⟩) = ⟨0, 1, 0⟩ := by
    ext <;> norm_num [Vec3.normalize, Vec3.dot, Q3.lightAbove, real_sqrt_16]
  refine ⟨rfl, rfl, rfl, hn1, ?_, ?_, ?_, ?_⟩
  · rw [hp, hL]
    norm_num [Q3.Scene.isInShadow, Q3.groundScene, Q3.greyPlane, Q3.Surface.intersect,
      Q3.Plane.intersect, Ray.new, Vec3.normalize, Vec3.dot]
  · have hpt : (Q1.greyPlane (0 : ℝ)).getPoint (1 / 1000) skimRay = ⟨0, 0, 0⟩ := by
      rw [getPoint_eq]
      exact hp
    have hL1 : normalize ⟨Real.sqrt, Real.rpow⟩
        ((Q1.groundScene : Q1.Scene ℝ).lightPos - ⟨0, 0, 0⟩) = ⟨0, 1, 0⟩ := hL
    have hV : normalize ⟨Real.sqrt, Real.rpow⟩ (-(skimRay : Ray ℝ).direction) = ⟨0, 1, 0⟩ := by
      ext <;> norm_num [Vec3.normalize, Vec3.dot, skimRay]
    simp only [Q1.Scene.trace, hn1, Q1.Scene.shade, hpt, hL1, hV]
    ext <;> norm_num [Vec3.clamp, Vec3.dot, Vec3.reflect, Q1.greyPlane, Q1.Surface.ka,
      Q1.Surface.kd, Q1.Surface.ks, Q1.Surface.specPower, Q1.groundScene, Vec3.splat]
  · ext <;> simp [Vec3.pow, Vec3.splat]
  · simp only [Q3.Scene.trace, hn3, Vec3.splat]

end RefinementTheorems

/-! ## Specular term of a glossy plane -/

section GlossyTheorems

variable {F : Type} [LinearOrderedField F]

/-- The glossy plane is met by the ray going straight down at `t = 2`. -/
theorem glossyPlane_downRay (ops : FloatOps F) :
    (Q1.glossyPlane : Q1.Surface F).intersect ops downRay = some (2, ⟨0, 1, 0⟩) := by
  norm_num [Q1.glossyPlane, Q1.Surface.intersect, Q1.Plane.intersect, downRay, Vec3.dot]

/-- In the scene of the glossy plane the ray going straight down ends the loop on the plane
at `t = 2`, wherever the light is. -/
theorem glossyScene_nearest (ops : FloatOps F) (lp : Vec3 F) :
    (Q1.glossyScene lp).nearest ops downRay = ⟨2, some (0, Q1.glossyPlane), ⟨0, 1, 0⟩⟩ := by
  simp [Q1.Scene.nearest, Q1.glossyScene, traceLoop, glossyPlane_downRay, two_lt_FLT_MAX]

/-- Witness for C20 over the reals, with `Real.rpow`: the glossy plane `y = -2`, whose
material has `specPower = 0` and `ks = (0.5, 0.5, 0.5)`, seen from above by the ray going
straight down.  With the light below the plane at `(0, -6, 0)` both `dot(normal, L)` and
`dot(R, V)` are `-1`, yet the full `ks` term is added: the colour is `ka + ks = 0.6` in
every channel.  With the light above at `(0, 4, 0)` the colour is `ka + kd + ks = 0.8`. -/
theorem specular_exponent_zero_witness :
    (Q1.glossyPlane : Q1.Surface ℝ).specPower = 0 ∧
      (Q1.glossyPlane : Q1.Surface ℝ).ks * (Q1.glossyScene (⟨0, -6, 0⟩ : Vec3 ℝ)).lightColor
        = ⟨1 / 2, 1 / 2, 1 / 2⟩ ∧
      dot (reflect (-normalize ⟨Real.sqrt, Real.rpow⟩
            ((Q1.glossyScene (⟨0, -6, 0⟩ : Vec3 ℝ)).lightPos
              - (Q1.glossyPlane : Q1.Surface ℝ).getPoint 2 downRay)) ⟨0, 1, 0⟩)
          (normalize ⟨Real.sqrt, Real.rpow⟩ (-(downRay : Ray ℝ).direction)) = -1 ∧
      Real.rpow (max (dot (reflect (-normalize ⟨Real.sqrt, Real.rpow⟩
            ((Q1.glossyScene (⟨0, -6, 0⟩ : Vec3 ℝ)).lightPos
              - (Q1.glossyPlane : Q1.Surface ℝ).getPoint 2 downRay)) ⟨0, 1, 0⟩)
          (normalize ⟨Real.sqrt, Real.rpow⟩ (-(downRay : Ray ℝ).direction))) 0)
          (Q1.glossyPlane : Q1.Surface ℝ).specPower = 1 ∧
      (Q1.glossyScene (⟨0, -6, 0⟩ : Vec3 ℝ)).trace ⟨Real.sqrt, Real.rpow⟩ downRay
        = clamp ((Q1.glossyPlane : Q1.Surface ℝ).ka
              * (Q1.glossyScene (⟨0, -6, 0⟩ : Vec3 ℝ)).lightColor
            + diffuseFactor (dot (⟨0, 1, 0⟩ : Vec3 ℝ)
                (normalize ⟨Real.sqrt, Real.rpow⟩
                  ((Q1.glossyScene (⟨0, -6, 0⟩ : Vec3 ℝ)).lightPos
                    - (Q1.glossyPlane : Q1.Surface ℝ).getPoint 2 downRay)))
                • (Q1.glossyPlane : Q1.Surface ℝ).kd
              * (Q1.glossyScene (⟨0, -6, 0⟩ : Vec3 ℝ)).lightColor
            + (Q1.glossyPlane : Q1.Surface ℝ).ks
              * (Q1.glossyScene (⟨0, -6, 0⟩ : Vec3 ℝ)).lightColor) 0 1 ∧
      (Q1.glossyScene (⟨0, -6, 0⟩ : Vec3 ℝ)).trace ⟨Real.sqrt, Real.rpow⟩ downRay
        = ⟨3 / 5, 3 / 5, 3 / 5⟩ ∧
      (Q1.glossyScene (⟨0, 4, 0⟩ : Vec3 ℝ)).trace ⟨Real.sqrt, Real.rpow⟩ downRay
        = ⟨4 / 5, 4 / 5, 4 / 5⟩ :=
  have hpz : (⟨Real.sqrt, Real.rpow⟩ : FloatOps ℝ).PowZero := ⟨fun x => Real.rpow_zero x⟩
  have hpt : (Q1.glossyPlane : Q1.Surface ℝ).getPoint 2 downRay = ⟨0, -2, 0⟩ := by
    rw [getPoint_eq]
    ext <;> norm_num [downRay]
  have hV : normalize ⟨Real.sqrt, Real.rpow⟩ (-(downRay : Ray ℝ).direction) = ⟨0, 1, 0⟩ := by
    ext <;> norm_num [Vec3.normalize, Vec3.dot, downRay]
  have hLb : normalize ⟨Real.sqrt, Real.rpow⟩
      ((Q1.glossyScene (⟨0, -6, 0⟩ : Vec3 ℝ)).lightPos - ⟨0, -2, 0⟩) = ⟨0, -1, 0⟩ := by
    ext <;> norm_num [Vec3.normalize, Vec3.dot, Q1.glossyScene, real_sqrt_16]
  have hLa : normalize ⟨Real.sqrt, Real.rpow⟩
      ((Q1.glossyScene (⟨0, 4, 0⟩ : Vec3 ℝ)).lightPos - ⟨0, -2, 0⟩) = ⟨0, 1, 0⟩ := by
    ext <;> norm_num [Vec3.normalize, Vec3.dot, Q1.glossyScene, real_sqrt_36]
  have hb := specular_exponent_zero (⟨Real.sqrt, Real.rpow⟩ : FloatOps ℝ) hpz
    (Q1.glossyScene ⟨0, -6, 0⟩) downRay 0 Q1.glossyPlane 2 ⟨0, 1, 0⟩
    (glossyScene_nearest _ _) rfl
  have ha := specular_exponent_zero (⟨Real.sqrt, Real.rpow⟩ : FloatOps ℝ) hpz
    (Q1.glossyScene ⟨0, 4, 0⟩) downRay 0 Q1.glossyPlane 2 ⟨0, 1, 0⟩
    (glossyScene_nearest _ _) rfl
  ⟨rfl,
    by ext <;> norm_num [Q1.glossyPlane, Q1.Surface.ks, Q1.glossyScene, Vec3.splat],
    by rw [hpt, hLb, hV]; norm_num [Vec3.dot, Vec3.reflect],
    hb.1, hb.2,
    by
      rw [hb.2, hpt, hLb]
      ext <;> norm_num [Vec3.clamp, Vec3.dot, diffuseFactor, Q1.glossyPlane, Q1.Surface.ka,
        Q1.Surface.kd, Q1.Surface.ks, Q1.glossyScene, Vec3.splat],
    by
      rw [ha.2, hpt, hLa]
      ext <;> norm_num [Vec3.clamp, Vec3.dot, diffuseFactor, Q1.glossyPlane, Q1.Surface.ka,
        Q1.Surface.kd, Q1.Surface.ks, Q1.glossyScene, Vec3.splat]⟩

end GlossyTheorems

/-! ## State carried from one frame to the next -/

section FrameTheorems

variable {F : Type} [LinearOrderedField F]

/-- Basic program: `render` does not depend on the previous contents of the buffer. -/
theorem render_ignores_buffer_Q1 (ops : FloatOps F) (g : Q1.Globals) (out out' : List F) :
    Q1.render ops g out = Q1.render ops g out' := by
  rw [render_eq_blocks_Q1, render_eq_blocks_Q1]

/-- Sampled program: the buffer left by `render` does not depend on the previous contents
of the buffer, only on the state of the random engine. -/
theorem render_ignores_buffer_Q3 {G : Type} (ops : FloatOps F) (randf : G → F × G)
    (g : Q3.Globals F) (buf buf' : List F) (gen : G) :
    (Q3.render ops randf g (buf, gen)).1 = (Q3.render ops randf g (buf', gen)).1 := by
  rw [render_eq_blocks_Q3, render_eq_blocks_Q3]

/-- Sampled program: `render` advances the random engine by `2 * SamplesPerPixel` draws per
pixel. -/
theorem render_gen_Q3 {G : Type} (ops : FloatOps F) (randf : G → F × G)
    (g : Q3.Globals F) (st : List F × G) :
    (Q3.render ops randf g st).2
      = advance randf (2 * g.SamplesPerPixel.toNat * (g.Width.toNat * g.Height.toNat)) st.2 := by
  have hrow : ∀ (s : List F × G) (j : Int),
      Q3.renderRow ops randf g {} (Q3.renderScene ops) s j
        = (s.1 ++ (List.range g.Width.toNat).flatMap (fun k =>
            channels (Q3.pixelColor ops randf g {} (Q3.renderScene ops) (Int.ofNat k) j
              ((advance randf (2 * g.SamplesPerPixel.toNat))^[k] s.2)).1),
          (advance randf (2 * g.SamplesPerPixel.toNat))^[g.Width.toNat] s.2) := by
    intro s j
    unfold Q3.renderRow
    rw [show s = (s.1, s.2) from rfl]
    rw [foldl_append_blocks_state Int.ofNat
      (fun (i : Int) (gen : G) =>
        channels (Q3.pixelColor ops randf g {} (Q3.renderScene ops) i j gen).1)
      (advance randf (2 * g.SamplesPerPixel.toNat))
      (Q3.renderPixel ops randf g {} (Q3.renderScene ops) j)]
    intro s' i
    simp [Q3.renderPixel, channels, pixelColor_gen]
  unfold Q3.render
  simp only [clear]
  rw [foldl_append_blocks_state Int.ofNat
    (fun (j : Int) (gen : G) => (List.range g.Width.toNat).flatMap (fun k =>
      channels (Q3.pixelColor ops randf g {} (Q3.renderScene ops) (Int.ofNat k) j
        ((advance randf (2 * g.SamplesPerPixel.toNat))^[k] gen)).1))
    ((advance randf (2 * g.SamplesPerPixel.toNat))^[g.Width.toNat])
    (Q3.renderRow ops randf g {} (Q3.renderScene ops)) hrow]
  simp only []
  rw [← Function.iterate_mul, advance_iterate]

/-- Claim C15, as amended.  In the basic program `render` does not depend on the previous
buffer, so two successive calls at the same resolution leave identical buffers.  In the
sampled program the buffer left by `render` does not depend on the previous buffer either,
but it is computed from the state of the process-wide random engine, which a call advances
by `2 * SamplesPerPixel * Width * Height` draws: the second of two successive calls leaves
the buffer that `render` computes from the engine so advanced, and the two buffers are
identical when the engine is back in the state in which the first call found it. -/
theorem render_frames_state {G : Type} (ops : FloatOps F) (randf : G → F × G)
    (g1 : Q1.Globals) (g3 : Q3.Globals F) (out : List F) (st : List F × G) :
    Q1.render ops g1 (Q1.render ops g1 out) = Q1.render ops g1 out ∧
      (∀ buf : List F,
        (Q3.render ops randf g3 (Q3.render ops randf g3 st)).1
          = (Q3.render ops randf g3
              (buf, advance randf
                (2 * g3.SamplesPerPixel.toNat * (g3.Width.toNat * g3.Height.toNat)) st.2)).1) ∧
      (advance randf (2 * g3.SamplesPerPixel.toNat * (g3.Width.toNat * g3.Height.toNat)) st.2
          = st.2 →
        (Q3.render ops randf g3 (Q3.render ops randf g3 st)).1
          = (Q3.render ops randf g3 st).1) := by
  have hsecond : ∀ buf : List F,
      (Q3.render ops randf g3 (Q3.render ops randf g3 st)).1
        = (Q3.render ops randf g3
            (buf, advance randf
              (2 * g3.SamplesPerPixel.toNat * (g3.Width.toNat * g3.Height.toNat)) st.2)).1 := by
    intro buf
    rw [← render_gen_Q3 ops randf g3 st]
    exact render_ignores_buffer_Q3 ops randf g3 _ _ _
  refine ⟨render_ignores_buffer_Q1 ops g1 _ _, hsecond, fun hback => ?_⟩
  rw [hsecond st.1, hback]

end FrameTheorems

/-! ## Two successive frames of the sampled program -/

section TwoFramesTheorems

variable {F : Type} [LinearOrderedField F]

/-- The counting engine after `k` draws from the state `n` is in the state `n + k`. -/
theorem advance_countingEngine (k n : Nat) :
    advance (countingEngine : Nat → F × Nat) k n = n + k := by
  induction k with
  | zero => rfl
  | succ k ih =>
    unfold advance at ih ⊢
    rw [Function.iterate_succ_apply', ih]
    rfl

/-- Sum of `n` copies of a colour and one more. -/
theorem add_smul_succ (acc c : Vec3 F) (n : Nat) :
    acc + c + (n : F) • c = acc + ((n + 1 : Nat) : F) • c := by
  ext <;> simp only [Vec3.add_x, Vec3.add_y, Vec3.add_z, Vec3.smul_x, Vec3.smul_y,
    Vec3.smul_z] <;> push_cast <;> ring

/-- Sampled program, counting engine: when every sample of the loop draws the same jitter
`(dx, dy)`, the loop adds the traced colour of that jitter once per sample. -/
theorem sampleLoop_const (ops : FloatOps F) (g : Q3.Globals F) (camera : Q3.Camera F)
    (scene : Q3.Scene F) (i j : Int) (dx dy : F) :
    ∀ (l : List Nat) (acc : Vec3 F) (m : Nat),
      (∀ s : Nat, s < l.length →
        (countingEngine (m + 2 * s) : F × Nat).1 = dx ∧
        (countingEngine (m + 2 * s + 1) : F × Nat).1 = dy) →
      (l.foldl (Q3.renderSample ops countingEngine g camera scene i j) (acc, m)).1
        = acc + (l.length : F)
            • scene.trace ops g (camera.getRay ops ((i : F) + dx) ((j : F) + dy)) := by
  intro l
  induction l with
  | nil =>
    intro acc m _
    ext <;> simp
  | cons s l ih =>
    intro acc m h
    have h0 := h 0 (by simp)
    have hstep : Q3.renderSample ops countingEngine g camera scene i j (acc, m) s
        = (acc + scene.trace ops g (camera.getRay ops ((i : F) + dx) ((j : F) + dy)),
            m + 2) := by
      simp only [Q3.renderSample]
      have h1 : (countingEngine m : F × Nat).1 = dx := by simpa using h0.1
      have h2 : (countingEngine (m + 1) : F × Nat).1 = dy := by simpa using h0.2
      have e1 : (countingEngine m : F × Nat).2 = m + 1 := rfl
      have e2 : (countingEngine (m + 1) : F × Nat).2 = m + 2 := rfl
      rw [e1, h1, h2, e2]
    rw [List.foldl_cons, hstep, ih _ (m + 2), List.length_cons, add_smul_succ]
    intro s' hs'
    have := h (s' + 1) (by simpa using hs')
    have e : m + 2 * (s' + 1) = m + 2 + 2 * s' := by ring
    rw [e] at this
    exact this

/-- Sampled program, counting engine: when every sample of a pixel draws the same jitter
`(dx, dy)`, the averaged colour of the pixel is the traced colour of that jitter. -/
theorem pixelColor_const (ops : FloatOps F) (g : Q3.Globals F) (camera : Q3.Camera F)
    (scene : Q3.Scene F) (i j : Int) (dx dy : F) (m : Nat) (hN : 1 ≤ g.SamplesPerPixel)
    (h : ∀ s : Nat, s < g.SamplesPerPixel.toNat →
      (countingEngine (m + 2 * s) : F × Nat).1 = dx ∧
      (countingEngine (m + 2 * s + 1) : F × Nat).1 = dy) :
    (Q3.pixelColor ops countingEngine g camera scene i j m).1
      = scene.trace ops g (camera.getRay ops ((i : F) + dx) ((j : F) + dy)) := by
  have hcast : ((g.SamplesPerPixel.toNat : Nat) : F) = (g.SamplesPerPixel : F) := by
    have h1 : ((g.SamplesPerPixel.toNat : Int) : F) = (g.SamplesPerPixel : F) := by
      rw [Int.toNat_of_nonneg (by omega)]
    rw [← h1, Int.cast_natCast]
  have hpos : (g.SamplesPerPixel : F) ≠ 0 := by
    have : (0 : Int) < g.SamplesPerPixel := by omega
    have h2 : (0 : F) < (g.SamplesPerPixel : F) := by exact_mod_cast this
    exact ne_of_gt h2
  simp only [Q3.pixelColor]
  rw [sampleLoop_const ops g camera scene i j dx dy _ _ m (by simpa using h),
    List.length_range, hcast]
  ext <;> simp [Vec3.divScalar, Vec3.splat] <;> field_simp

/-- In the first frame every draw of the counting engine yields `0`. -/
theorem countingEngine_first (k s : Nat) (hk : k < 262144) (hs : s < 64) :
    (countingEngine (128 * k + 2 * s) : F × Nat).1 = 0 ∧
      (countingEngine (128 * k + 2 * s + 1) : F × Nat).1 = 0 := by
  have h1 : ¬ (frameDraws ≤ 128 * k + 2 * s ∧ (128 * k + 2 * s) % 2 = 1) := by
    unfold frameDraws
    omega
  have h2 : ¬ (frameDraws ≤ 128 * k + 2 * s + 1 ∧ (128 * k + 2 * s + 1) % 2 = 1) := by
    unfold frameDraws
    omega
  simp only [countingEngine, if_neg h1, if_neg h2, and_self]

/-- In the second frame every sample of the counting engine has the jitter `(0, 0.999)`. -/
theorem countingEngine_second (k s : Nat) :
    (countingEngine (frameDraws + 128 * k + 2 * s) : F × Nat).1 = 0 ∧
      (countingEngine (frameDraws + 128 * k + 2 * s + 1) : F × Nat).1 = 999 / 1000 := by
  have h1 : ¬ (frameDraws ≤ frameDraws + 128 * k + 2 * s
      ∧ (frameDraws + 128 * k + 2 * s) % 2 = 1) := by
    unfold frameDraws
    omega
  have h2 : frameDraws ≤ frameDraws + 128 * k + 2 * s + 1
      ∧ (frameDraws + 128 * k + 2 * s + 1) % 2 = 1 := by
    unfold frameDraws
    omega
  simp only [countingEngine, if_neg h1, if_pos h2, and_self]

/-- With an exact `sqrt`, the camera of `render` of the sampled program sends the pixel
coordinates `(fx, fy)` to the ray from the origin with the direction
`normalize(u_s, v_s, -0.1)`. -/
theorem getRay_default_Q3 {ops : FloatOps F} (hops : ops.SqrtExact) (fx fy : F) :
    ({} : Q3.Camera F).getRay ops fx fy
      = ⟨⟨0, 0, 0⟩, normalize ops ⟨-(1 / 10) + (1 / 10 - -(1 / 10)) * fx / 512,
          -(1 / 10) + (1 / 10 - -(1 / 10)) * fy / 512, -(1 / 10)⟩⟩ := by
  simp only [Q3.Camera.getRay, Q3.Camera.u_s, Q3.Camera.v_s, Ray.new,
    normalize_normalize hops]
  congr 2
  ext <;> simp

/-- With an exact `sqrt`, a vector of squared length between `1/100` and `1/25` has a
length whose inverse is between `5` and `10`. -/
theorem inv_length_bounds {ops : FloatOps F} (hops : ops.SqrtExact) (v : Vec3 F)
    (h1 : 1 / 100 < dot v v) (h2 : dot v v < 1 / 25) :
    0 < ops.sqrt (dot v v) ∧ 5 < 1 / ops.sqrt (dot v v) ∧ 1 / ops.sqrt (dot v v) < 10 := by
  have h0 : 0 ≤ dot v v := by linarith
  have hs0 := hops.sqrt_nonneg _ h0
  have hss := hops.sqrt_mul_self _ h0
  have hlo : 1 / 10 < ops.sqrt (dot v v) := by nlinarith
  have hhi : ops.sqrt (dot v v) < 1 / 5 := by nlinarith
  have hpos : 0 < ops.sqrt (dot v v) := by linarith
  refine ⟨hpos, ?_, ?_⟩
  · rw [lt_div_iff₀ hpos]
    linarith
  · rw [div_lt_iff₀ hpos]
    linarith

/-- Basic program, exact `sqrt`: a sphere is not hit by a ray of direction `normalize(v)`
when `dot(p, v)^2 < (dot(p, p) - radius^2) * dot(v, v)` for `p = origin - center` (the
discriminant is negative). -/
theorem sphere_none_of_far_Q1 {ops : FloatOps F} (hops : ops.SqrtExact) (s : Q1.Sphere F)
    (o v : Vec3 F) (hv : 0 < dot v v)
    (h : dot (o - s.center) v * dot (o - s.center) v
      < (dot (o - s.center) (o - s.center) - s.radius * s.radius) * dot v v) :
    s.intersect ops ⟨o, normalize ops v⟩ = none := by
  have hs0 := hops.sqrt_nonneg _ (le_of_lt hv)
  have hss := hops.sqrt_mul_self _ (le_of_lt hv)
  have hpos : 0 < ops.sqrt (dot v v) := by
    rcases eq_or_lt_of_le hs0 with hz | hz
    · rw [← hz] at hss
      linarith
    · exact hz
  have hne : ops.sqrt (dot v v) ≠ 0 := ne_of_gt hpos
  have hpd : dot (o - s.center) (normalize ops v)
      = 1 / ops.sqrt (dot v v) * dot (o - s.center) v := Vec3.dot_smul_right _ _ _
  have hneg : dot (o - s.center) (normalize ops v) * dot (o - s.center) (normalize ops v)
      - dot (o - s.center) (o - s.center) + s.radius * s.radius < 0 := by
    rw [hpd]
    by_contra hcon
    have hge := not_lt.mp hcon
    have hmul := mul_nonneg hge (mul_self_nonneg (ops.sqrt (dot v v)))
    have hexp : (1 / ops.sqrt (dot v v) * dot (o - s.center) v
          * (1 / ops.sqrt (dot v v) * dot (o - s.center) v)
          - dot (o - s.center) (o - s.center) + s.radius * s.radius)
        * (ops.sqrt (dot v v) * ops.sqrt (dot v v))
        = dot (o - s.center) v * dot (o - s.center) v
          - (dot (o - s.center) (o - s.center) - s.radius * s.radius)
            * (ops.sqrt (dot v v) * ops.sqrt (dot v v)) := by
      field_simp
      ring
    rw [hexp, hss] at hmul
    linarith
  simp only [Q1.Sphere.intersect, if_pos hneg]

/-- With an exact `sqrt`, the three spheres of `render` of the sampled program are missed
by every ray from the origin of direction `normalize(3/32, vy, -1/10)`: it passes right of
the blue sphere. -/
theorem renderSpheres_missed {ops : FloatOps F} (hops : ops.SqrtExact) (vy : F) :
    Q3.Sphere.intersect ops ⟨⟨1 / 5, 0, 0⟩, ⟨1, 0, 0⟩, Vec3.splat 0, 0, ⟨-4, 0, -7⟩, 1⟩
        ⟨⟨0, 0, 0⟩, normalize ops ⟨3 / 32, vy, -(1 / 10)⟩⟩ = none ∧
      Q3.Sphere.intersect ops
        ⟨⟨0, 1 / 5, 0⟩, ⟨0, 1 / 2, 0⟩, Vec3.splat (1 / 2), 32, ⟨0, 0, -7⟩, 2⟩
        ⟨⟨0, 0, 0⟩, normalize ops ⟨3 / 32, vy, -(1 / 10)⟩⟩ = none ∧
      Q3.Sphere.intersect ops ⟨⟨0, 0, 1 / 5⟩, ⟨0, 0, 1⟩, Vec3.splat 0, 0, ⟨4, 0, -7⟩, 1⟩
        ⟨⟨0, 0, 0⟩, normalize ops ⟨3 / 32, vy, -(1 / 10)⟩⟩ = none := by
  have hsq := mul_self_nonneg vy
  have hv : 0 < dot (⟨3 / 32, vy, -(1 / 10)⟩ : Vec3 F) ⟨3 / 32, vy, -(1 / 10)⟩ := by
    simp only [Vec3.dot]
    nlinarith
  refine ⟨?_, ?_, ?_⟩
  · rw [Q3.Sphere.intersect_eq_Q1]
    apply sphere_none_of_far_Q1 hops _ _ _ hv
    simp only [Vec3.dot, Vec3.sub_x, Vec3.sub_y, Vec3.sub_z]
    nlinarith
  · rw [Q3.Sphere.intersect_eq_Q1]
    apply sphere_none_of_far_Q1 hops _ _ _ hv
    simp only [Vec3.dot, Vec3.sub_x, Vec3.sub_y, Vec3.sub_z]
    nlinarith
  · rw [Q3.Sphere.intersect_eq_Q1]
    apply sphere_none_of_far_Q1 hops _ _ _ hv
    simp only [Vec3.dot, Vec3.sub_x, Vec3.sub_y, Vec3.sub_z]
    nlinarith

/-- The objects of the scene of `render` of the sampled program. -/
theorem renderScene_objects_Q3 (ops : FloatOps F) :
    (Q3.renderScene ops).objects
      = [.plane (Q3.renderPlane ops),
          .sphere ⟨⟨1 / 5, 0, 0⟩, ⟨1, 0, 0⟩, Vec3.splat 0, 0, ⟨-4, 0, -7⟩, 1⟩,
          .sphere ⟨⟨0, 1 / 5, 0⟩, ⟨0, 1 / 2, 0⟩, Vec3.splat (1 / 2), 32, ⟨0, 0, -7⟩, 2⟩,
          .sphere ⟨⟨0, 0, 1 / 5⟩, ⟨0, 0, 1⟩, Vec3.splat 0, 0, ⟨4, 0, -7⟩, 1⟩] := rfl

/-- With an exact `sqrt`, the plane of `render` is hit, below `FLT_MAX`, by the ray from
the origin of direction `normalize(3/32, -1/2560, -1/10)` (sampled program). -/
theorem renderPlane_hit_low {ops : FloatOps F} (hops : ops.SqrtExact) :
    ∃ t : F, t < FLT_MAX ∧
      (Q3.renderPlane ops).intersect ⟨⟨0, 0, 0⟩, normalize ops ⟨3 / 32, -(1 / 2560), -(1 / 10)⟩⟩
        = some (t, ⟨0, 1, 0⟩) := by
  obtain ⟨hpos, h5, h10⟩ := inv_length_bounds hops (⟨3 / 32, -(1 / 2560), -(1 / 10)⟩ : Vec3 F)
    (by norm_num [Vec3.dot]) (by norm_num [Vec3.dot])
  have hden : dot (⟨0, 1, 0⟩ : Vec3 F) (normalize ops ⟨3 / 32, -(1 / 2560), -(1 / 10)⟩)
      = 1 / ops.sqrt (dot (⟨3 / 32, -(1 / 2560), -(1 / 10)⟩ : Vec3 F)
          ⟨3 / 32, -(1 / 2560), -(1 / 10)⟩) * -(1 / 2560) := by
    rw [Vec3.normalize, Vec3.dot_smul_right]
    simp [Vec3.dot]
  generalize 1 / ops.sqrt (dot (⟨3 / 32, -(1 / 2560), -(1 / 10)⟩ : Vec3 F)
    ⟨3 / 32, -(1 / 2560), -(1 / 10)⟩) = k at h5 h10 hden
  have hdneg : k * -(1 / 2560) < 0 := by nlinarith
  have hnpar : ¬ |k * -(1 / 2560)| < 1 / 100000 := by
    rw [abs_of_neg hdneg]
    intro hc
    linarith
  have ht1 : (512 : F) < -(0 + 2) / (k * -(1 / 2560)) := by
    rw [lt_div_iff_of_neg hdneg]
    nlinarith
  have ht2 : -(0 + 2) / (k * -(1 / 2560)) < (1024 : F) := by
    rw [div_lt_iff_of_neg hdneg]
    nlinarith
  refine ⟨-(0 + 2) / (k * -(1 / 2560)), ?_, ?_⟩
  · have : (1024 : F) < FLT_MAX := by norm_num [FLT_MAX]
    linarith
  · have hgt : -(0 + 2) / (k * -(1 / 2560)) > (1 / 1000 : F) := by linarith
    have hdo : dot (⟨0, 1, 0⟩ : Vec3 F) (⟨0, 0, 0⟩ : Vec3 F) = 0 := by simp [Vec3.dot]
    have hd : (Q3.renderPlane ops).d = 2 := rfl
    simp only [Q3.Plane.intersect, (renderPlane_normal hops).2, hd, hden, if_neg hnpar, hdo,
      if_pos hgt]

/-- With an exact `sqrt`, the plane of `render` counts as parallel to the ray from the
origin of direction `normalize(3/32, -1/2560000, -1/10)` and reports no hit (sampled
program). -/
theorem renderPlane_miss_grazing {ops : FloatOps F} (hops : ops.SqrtExact) :
    (Q3.renderPlane ops).intersect
      ⟨⟨0, 0, 0⟩, normalize ops ⟨3 / 32, -(1 / 2560000), -(1 / 10)⟩⟩ = none := by
  obtain ⟨hpos, h5, h10⟩ := inv_length_bounds hops
    (⟨3 / 32, -(1 / 2560000), -(1 / 10)⟩ : Vec3 F)
    (by norm_num [Vec3.dot]) (by norm_num [Vec3.dot])
  have hden : dot (⟨0, 1, 0⟩ : Vec3 F) (normalize ops ⟨3 / 32, -(1 / 2560000), -(1 / 10)⟩)
      = 1 / ops.sqrt (dot (⟨3 / 32, -(1 / 2560000), -(1 / 10)⟩ : Vec3 F)
          ⟨3 / 32, -(1 / 2560000), -(1 / 10)⟩) * -(1 / 2560000) := by
    rw [Vec3.normalize, Vec3.dot_smul_right]
    simp [Vec3.dot]
  generalize 1 / ops.sqrt (dot (⟨3 / 32, -(1 / 2560000), -(1 / 10)⟩ : Vec3 F)
    ⟨3 / 32, -(1 / 2560000), -(1 / 10)⟩) = k at h5 h10 hden
  have hdneg : k * -(1 / 2560000) < 0 := by nlinarith
  have hpar : |k * -(1 / 2560000)| < 1 / 100000 := by
    rw [abs_of_neg hdneg]
    linarith
  simp only [Q3.Plane.intersect, (renderPlane_normal hops).2, hden, if_pos hpar]

/-- Sampled program: with a `pow` that is positive on positive bases, a hit on a surface
whose green channel has `ka > 0`, `kd ≥ 0` and `ks = 0` is traced to a colour with a
positive green channel. -/
theorem trace_green_pos (ops : FloatOps F) (hpp : ∀ x e : F, 0 < x → 0 < ops.pow x e)
    (g : Q3.Globals F) (sc : Q3.Scene F) (ray : Ray F) (t : F) (i : Nat)
    (hit : Q3.Surface F) (n : Vec3 F) (hnear : sc.nearest ops ray = ⟨t, some (i, hit), n⟩)
    (hka : 0 < hit.ka.y) (hkd : 0 ≤ hit.kd.y) (hks : hit.ks.y = 0) :
    0 < (sc.trace ops g ray).y := by
  simp only [Q3.Scene.trace, hnear, Vec3.pow, Vec3.splat, Vec3.clamp]
  apply hpp
  apply lt_min _ one_pos
  apply lt_max_of_lt_left
  simp only [Q3.Scene.shade, Vec3.add_y, Vec3.smul_y, hks, mul_zero, add_zero]
  split_ifs
  · have := mul_nonneg (le_max_right (dot n (normalize ops (g.LightPos
      - (ray.origin + t • ray.direction)))) 0) hkd
    linarith
  · simp only [zero_mul, add_zero]
    exact hka

/-- With an exact `sqrt` and a `pow` positive on positive bases, the ray of the pixel
coordinates `(496, 255)` is traced by the sampled program to a colour with a positive green
channel: it hits the plane far away. -/
theorem trace_low_green_pos {ops : FloatOps F} (hops : ops.SqrtExact)
    (hpp : ∀ x e : F, 0 < x → 0 < ops.pow x e) (g : Q3.Globals F) :
    0 < ((Q3.renderScene ops).trace ops g
      (({} : Q3.Camera F).getRay ops (((Int.ofNat 496 : Int) : F) + 0)
        (((Int.ofNat 255 : Int) : F) + 0))).y := by
  have hray : ({} : Q3.Camera F).getRay ops (((Int.ofNat 496 : Int) : F) + 0)
      (((Int.ofNat 255 : Int) : F) + 0)
      = ⟨⟨0, 0, 0⟩, normalize ops ⟨3 / 32, -(1 / 2560), -(1 / 10)⟩⟩ := by
    rw [getRay_default_Q3 hops]
    congr 2
    ext <;> norm_num
  obtain ⟨t, ht, hplane⟩ := renderPlane_hit_low hops
  obtain ⟨h1, h2, h3⟩ := renderSpheres_missed hops (-(1 / 2560) : F)
  rw [hray]
  apply trace_green_pos ops hpp g _ _ t 0 (.plane (Q3.renderPlane ops)) ⟨0, 1, 0⟩
  · rw [Q3.Scene.nearest, renderScene_objects_Q3]
    simp only [traceLoop, Q3.Surface.intersect, hplane, h1, h2, h3, if_pos ht]
  · norm_num [Q3.Surface.ka, Q3.renderPlane, Q3.Plane.new, Vec3.splat]
  · norm_num [Q3.Surface.kd, Q3.renderPlane, Q3.Plane.new, Vec3.splat]
  · simp [Q3.Surface.ks, Q3.renderPlane, Q3.Plane.new, Vec3.splat]

/-- With an exact `sqrt`, the ray of the pixel coordinates `(496, 255.999)` is traced by
the sampled program to black: the plane counts as parallel and the spheres are missed. -/
theorem trace_grazing_black {ops : FloatOps F} (hops : ops.SqrtExact) (g : Q3.Globals F) :
    (Q3.renderScene ops).trace ops g
      (({} : Q3.Camera F).getRay ops (((Int.ofNat 496 : Int) : F) + 0)
        (((Int.ofNat 255 : Int) : F) + 999 / 1000)) = ⟨0, 0, 0⟩ := by
  have hray : ({} : Q3.Camera F).getRay ops (((Int.ofNat 496 : Int) : F) + 0)
      (((Int.ofNat 255 : Int) : F) + 999 / 1000)
      = ⟨⟨0, 0, 0⟩, normalize ops ⟨3 / 32, -(1 / 2560000), -(1 / 10)⟩⟩ := by
    rw [getRay_default_Q3 hops]
    congr 2
    ext <;> norm_num
  obtain ⟨h1, h2, h3⟩ := renderSpheres_missed hops (-(1 / 2560000) : F)
  have hplane := renderPlane_miss_grazing hops
  rw [hray]
  have hnear : (Q3.renderScene ops).nearest ops
      ⟨⟨0, 0, 0⟩, normalize ops ⟨3 / 32, -(1 / 2560000), -(1 / 10)⟩⟩
      = ⟨FLT_MAX, none, ⟨0, 0, 0⟩⟩ := by
    rw [Q3.Scene.nearest, renderScene_objects_Q3]
    simp only [traceLoop, Q3.Surface.intersect, hplane, h1, h2, h3]
  simp only [Q3.Scene.trace, hnear, Vec3.splat]

/-- Counting engine, first frame with the initial global variables: the pixel `(496, 255)`
has the colour of the ray through `(496, 255)`. -/
theorem pixelColor_first_frame (ops : FloatOps F) :
    (Q3.pixelColor ops countingEngine ({} : Q3.Globals F) {} (Q3.renderScene ops)
        (Int.ofNat 496) (Int.ofNat 255)
        (advance (countingEngine : Nat → F × Nat)
          (2 * ({} : Q3.Globals F).SamplesPerPixel.toNat
            * (255 * ({} : Q3.Globals F).Width.toNat + 496)) 0)).1
      = (Q3.renderScene ops).trace ops {}
          (({} : Q3.Camera F).getRay ops (((Int.ofNat 496 : Int) : F) + 0)
            (((Int.ofNat 255 : Int) : F) + 0)) := by
  rw [advance_countingEngine]
  have hm : 0 + 2 * ({} : Q3.Globals F).SamplesPerPixel.toNat
      * (255 * ({} : Q3.Globals F).Width.toNat + 496) = 128 * 131056 := by
    show 0 + 2 * Int.toNat 64 * (255 * Int.toNat 512 + 496) = 128 * 131056
    decide
  rw [hm]
  apply pixelColor_const ops {} {} (Q3.renderScene ops) _ _ 0 0 _ (by norm_num)
  intro s hs
  exact countingEngine_first 131056 s (by decide) hs

/-- Counting engine, second frame with the initial global variables: the pixel `(496, 255)`
has the colour of the ray through `(496, 255.999)`. -/
theorem pixelColor_second_frame (ops : FloatOps F) :
    (Q3.pixelColor ops countingEngine ({} : Q3.Globals F) {} (Q3.renderScene ops)
        (Int.ofNat 496) (Int.ofNat 255)
        (advance (countingEngine : Nat → F × Nat)
          (2 * ({} : Q3.Globals F).SamplesPerPixel.toNat
            * (255 * ({} : Q3.Globals F).Width.toNat + 496))
          (advance (countingEngine : Nat → F × Nat)
            (2 * ({} : Q3.Globals F).SamplesPerPixel.toNat
              * (({} : Q3.Globals F).Width.toNat * ({} : Q3.Globals F).Height.toNat)) 0))).1
      = (Q3.renderScene ops).trace ops {}
          (({} : Q3.Camera F).getRay ops (((Int.ofNat 496 : Int) : F) + 0)
            (((Int.ofNat 255 : Int) : F) + 999 / 1000)) := by
  rw [advance_countingEngine, advance_countingEngine]
  have hm : 0 + 2 * ({} : Q3.Globals F).SamplesPerPixel.toNat
        * (({} : Q3.Globals F).Width.toNat * ({} : Q3.Globals F).Height.toNat)
      + 2 * ({} : Q3.Globals F).SamplesPerPixel.toNat
        * (255 * ({} : Q3.Globals F).Width.toNat + 496) = frameDraws + 128 * 131056 := by
    show 0 + 2 * Int.toNat 64 * (Int.toNat 512 * Int.toNat 512)
      + 2 * Int.toNat 64 * (255 * Int.toNat 512 + 496) = frameDraws + 128 * 131056
    decide
  rw [hm]
  apply pixelColor_const ops {} {} (Q3.renderScene ops) _ _ 0 (999 / 1000) _ (by norm_num)
  intro s _
  exact countingEngine_second 131056 s

/-- The cyclic engine after `k` draws from the state `n` is in the state `(n + k) mod 4`. -/
theorem advance_cyclicEngine (k n : Nat) (hn : n < 4) :
    advance (cyclicEngine : Nat → F × Nat) k n = (n + k) % 4 := by
  induction k with
  | zero => exact (Nat.mod_eq_of_lt hn).symm
  | succ k ih =>
    unfold advance at ih ⊢
    rw [Function.iterate_succ_apply', ih]
    simp only [cyclicEngine]
    omega

/-- Witness for C15 over the reals, with the initial global variables.  The cyclic engine is
advanced by every draw and its draws differ from one state to the next; a frame draws
`2 * 64 * 512 * 512` numbers, a multiple of four, so the engine is back in its state after
the frame and two successive calls leave identical buffers.  The counting engine is not
back in its state: the second call leaves the buffer that `render` computes from the
state `33554432`, whatever the buffer. -/
theorem render_frames_state_witness :
    (advance (cyclicEngine : Nat → ℝ × Nat) 1 0 = 1 ∧
      (cyclicEngine 0 : ℝ × Nat).1 = 1 / 4 ∧ (cyclicEngine 1 : ℝ × Nat).1 = 3 / 4) ∧
    (advance (cyclicEngine : Nat → ℝ × Nat)
        (2 * ({} : Q3.Globals ℝ).SamplesPerPixel.toNat
          * (({} : Q3.Globals ℝ).Width.toNat * ({} : Q3.Globals ℝ).Height.toNat)) 0 = 0 ∧
      (Q3.render (⟨Real.sqrt, Real.rpow⟩ : FloatOps ℝ) cyclicEngine {}
          (Q3.render (⟨Real.sqrt, Real.rpow⟩ : FloatOps ℝ) cyclicEngine {} ([], 0))).1
        = (Q3.render (⟨Real.sqrt, Real.rpow⟩ : FloatOps ℝ) cyclicEngine {} ([], 0)).1) ∧
    (advance (countingEngine : Nat → ℝ × Nat)
        (2 * ({} : Q3.Globals ℝ).SamplesPerPixel.toNat
          * (({} : Q3.Globals ℝ).Width.toNat * ({} : Q3.Globals ℝ).Height.toNat)) 0
        = 33554432 ∧
      (Q3.render (⟨Real.sqrt, Real.rpow⟩ : FloatOps ℝ) countingEngine {}
          (Q3.render (⟨Real.sqrt, Real.rpow⟩ : FloatOps ℝ) countingEngine {} ([], 0))).1
        = (Q3.render (⟨Real.sqrt, Real.rpow⟩ : FloatOps ℝ) countingEngine {}
            ([], 33554432)).1) ∧
    Q1.render (⟨Real.sqrt, Real.rpow⟩ : FloatOps ℝ) {}
        (Q1.render (⟨Real.sqrt, Real.rpow⟩ : FloatOps ℝ) {} [])
      = Q1.render (⟨Real.sqrt, Real.rpow⟩ : FloatOps ℝ) {} [] :=
  have hback : advance (cyclicEngine : Nat → ℝ × Nat)
      (2 * ({} : Q3.Globals ℝ).SamplesPerPixel.toNat
        * (({} : Q3.Globals ℝ).Width.toNat * ({} : Q3.Globals ℝ).Height.toNat)) 0 = 0 := by
    rw [advance_cyclicEngine _ _ (by norm_num)]
    show (0 + 2 * Int.toNat 64 * (Int.toNat 512 * Int.toNat 512)) % 4 = 0
    decide
  have hcount : advance (countingEngine : Nat → ℝ × Nat)
      (2 * ({} : Q3.Globals ℝ).SamplesPerPixel.toNat
        * (({} : Q3.Globals ℝ).Width.toNat * ({} : Q3.Globals ℝ).Height.toNat)) 0
      = 33554432 := by
    rw [advance_countingEngine]
    show 0 + 2 * Int.toNat 64 * (Int.toNat 512 * Int.toNat 512) = 33554432
    decide
  ⟨⟨by rw [advance_cyclicEngine _ _ (by norm_num)], by norm_num [cyclicEngine],
      by norm_num [cyclicEngine]⟩,
    ⟨hback,
      (render_frames_state (⟨Real.sqrt, Real.rpow⟩ : FloatOps ℝ) cyclicEngine {} {} []
        ([], 0)).2.2 hback⟩,
    ⟨hcount, by
      have h := (render_frames_state (⟨Real.sqrt, Real.rpow⟩ : FloatOps ℝ) countingEngine
        {} {} [] ([], 0)).2.1 []
      rw [hcount] at h
      exact h⟩,
    (render_frames_state (⟨Real.sqrt, Real.rpow⟩ : FloatOps ℝ)
      (cyclicEngine : Nat → ℝ × Nat) {} {} [] ([], 0)).1⟩

/-- Claim C15 as stated fails for the sampled program.  Over the reals, with the initial
values of the global variables (resolution `512 × 512`, `64` samples per pixel) and a
random engine whose draws all lie in `[0, 1)`, two successive calls of `render` leave
different buffers: the green channel of the pixel `(496, 255)` is positive after the first
call and `0` after the second. -/
theorem render_frames_state_counterexample :
    (∀ n : Nat, 0 ≤ (countingEngine n : ℝ × Nat).1 ∧ (countingEngine n : ℝ × Nat).1 < 1) ∧
      (Q3.render (⟨Real.sqrt, Real.rpow⟩ : FloatOps ℝ) countingEngine {}
          (Q3.render (⟨Real.sqrt, Real.rpow⟩ : FloatOps ℝ) countingEngine {} ([], 0))).1
        ≠ (Q3.render (⟨Real.sqrt, Real.rpow⟩ : FloatOps ℝ) countingEngine {} ([], 0)).1 := by
  constructor
  · intro n
    simp only [countingEngine]
    split_ifs <;> norm_num
  · intro heq
    have hops : (⟨Real.sqrt, Real.rpow⟩ : FloatOps ℝ).SqrtExact :=
      ⟨fun x _ => Real.sqrt_nonneg x, fun _ hx => Real.mul_self_sqrt hx⟩
    have hpp : ∀ x e : ℝ, 0 < x → 0 < (⟨Real.sqrt, Real.rpow⟩ : FloatOps ℝ).pow x e :=
      fun x e hx => Real.rpow_pos_of_pos hx e
    have h1 := (pixel_blocks_triplet _ _ _ 496 255 (by decide) (by decide) _
      (render_eq_blocks_Q3 (⟨Real.sqrt, Real.rpow⟩ : FloatOps ℝ) countingEngine {}
        ([], 0))).2.1
    have h2 := (pixel_blocks_triplet _ _ _ 496 255 (by decide) (by decide) _
      (render_eq_blocks_Q3 (⟨Real.sqrt, Real.rpow⟩ : FloatOps ℝ) countingEngine {}
        (Q3.render (⟨Real.sqrt, Real.rpow⟩ : FloatOps ℝ) countingEngine {} ([], 0)))).2.1
    rw [heq, h1, render_gen_Q3] at h2
    simp only [Option.some.injEq] at h2
    rw [pixelColor_first_frame, pixelColor_second_frame, trace_grazing_black hops] at h2
    have hpos := trace_low_green_pos hops hpp ({} : Q3.Globals ℝ)
    rw [h2] at hpos
    exact lt_irrefl _ hpos

end TwoFramesTheorems

/-! ## Quotients by zero and poles on the way to a colour -/

section CheckedTheorems

variable {F : Type} [LinearOrderedField F]

/-- A quotient that is computed is the quotient of the field. -/
theorem divChecked_eq_some {a b q : F} (h : divChecked a b = some q) : q = a / b := by
  unfold divChecked at h
  split_ifs at h
  exact (Option.some.inj h).symm

/-- A normalisation that is computed is the normalised vector. -/
theorem normalizeChecked_eq_some {ops : FloatOps F} {v w : Vec3 F}
    (h : normalizeChecked ops v = some w) : w = normalize ops v := by
  unfold Vec3.normalizeChecked at h
  cases hd : divChecked 1 (ops.sqrt (dot v v)) with
  | none =>
    rw [hd] at h
    cases h
  | some k =>
    rw [hd] at h
    simp only [Option.some.injEq] at h
    rw [← h, divChecked_eq_some hd]
    rfl

/-- A ray constructor that is computed builds the ray of the constructor. -/
theorem Ray.newChecked_eq_some {ops : FloatOps F} {o d : Vec3 F} {ray : Ray F}
    (h : Ray.newChecked ops o d = some ray) : ray = Ray.new ops o d := by
  unfold Ray.newChecked at h
  cases hn : normalizeChecked ops d with
  | none => rw [hn] at h; cases h
  | some dir =>
    rw [hn] at h
    simp only [Option.some.injEq] at h
    rw [← h, normalizeChecked_eq_some hn]
    rfl

/-- Basic program: a ray that `Camera::getRay` with explicit quotients returns is the ray
of `Camera::getRay`. -/
theorem getRayChecked_sound_Q1 (ops : FloatOps F) (c : Q1.Camera F) (ix iy : Int)
    (ray : Ray F) (h : c.getRayChecked ops ix iy = some ray) : ray = c.getRay ops ix iy := by
  unfold Q1.Camera.getRayChecked at h
  cases hu : divChecked ((c.r - c.l) * ((ix : F) + 1 / 2)) (c.nx : F) with
  | none => rw [hu] at h; cases h
  | some qu =>
    cases hv : divChecked ((c.t - c.b) * ((iy : F) + 1 / 2)) (c.ny : F) with
    | none => rw [hu, hv] at h; cases h
    | some qv =>
      rw [hu, hv] at h
      simp only [] at h
      cases hn : normalizeChecked ops ((c.l + qu) • c.u + (c.b + qv) • c.v - c.d • c.w) with
      | none => rw [hn] at h; cases h
      | some dir =>
        rw [hn] at h
        simp only [] at h
        rw [Ray.newChecked_eq_some h, normalizeChecked_eq_some hn, divChecked_eq_some hu,
          divChecked_eq_some hv]
        rfl

end CheckedTheorems

end RayTracer
